import Mathlib

/-!
Verification development for the LinaVG 2D vector-graphics tessellation core
(src/src/Core/Drawer.cpp).  The C++ code is shallowly embedded over ℚ:
single-precision floats become rationals, in-place buffer mutation becomes
explicit state passing, and the irrational primitives of the missing
Math.hpp header (square root, degree trigonometry, angle extraction) are
abstracted into a MathOracle record so that every definition stays
executable.  Counting, control-flow and range properties do not depend on
the oracle; theorems quantify over it.
-/

namespace LinaVG

/-- Source struct Vec2: a 2D vector, floats modelled as rationals. -/
structure Vec2 where
  x : ℚ
  y : ℚ
deriving DecidableEq, Repr

/-- Source struct Vec4: RGBA color or rectangle, floats modelled as rationals. -/
structure Vec4 where
  x : ℚ
  y : ℚ
  z : ℚ
  w : ℚ
deriving DecidableEq, Repr

/-- Source enum GradientType. -/
inductive GradientType where
  | horizontal | vertical | radial | radialCorner
deriving DecidableEq, Repr

/-- Source struct Vec4Grad: a two-stop gradient.  The C++ fields are named
start and end; end is a Lean keyword, hence gradStart/gradEnd. -/
structure Vec4Grad where
  gradStart : Vec4
  gradEnd : Vec4
  gradientType : GradientType := .horizontal
deriving DecidableEq, Repr

/-- Source struct Vertex: position, UV, RGBA color.  Default-initialised
fields are modelled as zero. -/
structure Vertex where
  pos : Vec2 := ⟨0, 0⟩
  uv : Vec2 := ⟨0, 0⟩
  col : Vec4 := ⟨0, 0, 0, 0⟩
deriving DecidableEq, Repr

/-- Source enum DrawBufferType (kind tag stored on each buffer). -/
inductive DrawBufferType where
  | default | gradient | textured | simpleText | sdfText
deriving DecidableEq, Repr

/-- Source struct DrawBuffer: vertex array plus index array forming triangle
lists.  Indices are buffer-local offsets (unsigned in C++, Nat here). -/
structure DrawBuffer where
  drawBufferType : DrawBufferType := .default
  vertexBuffer : List Vertex := []
  indexBuffer : List Nat := []
deriving DecidableEq, Repr

/-- Source DrawBuffer::PushVertex: appends one vertex.  Modelled from the
spec: the DrawBuffer implementation lives in BufferStore.cpp which is not in
the sources; the spec states buffers are ordered sequences grown at the
end. -/
def DrawBuffer.pushVertex (b : DrawBuffer) (v : Vertex) : DrawBuffer :=
  { b with vertexBuffer := b.vertexBuffer ++ [v] }

/-- Source DrawBuffer::PushIndex: appends one index.  Modelled from the spec
as pushVertex above. -/
def DrawBuffer.pushIndex (b : DrawBuffer) (i : Nat) : DrawBuffer :=
  { b with indexBuffer := b.indexBuffer ++ [i] }

/-- Helper: push a list of vertices in order (a C++ for-loop of PushVertex
calls). -/
def DrawBuffer.pushVertexList (b : DrawBuffer) (vs : List Vertex) : DrawBuffer :=
  { b with vertexBuffer := b.vertexBuffer ++ vs }

/-- Helper: push a list of indices in order (a C++ for-loop of PushIndex
calls). -/
def DrawBuffer.pushIndexList (b : DrawBuffer) (is : List Nat) : DrawBuffer :=
  { b with indexBuffer := b.indexBuffer ++ is }

/-- Oracle for the irrational primitives of the missing Math.hpp: square
root, degree cosine/sine, the two angle-extraction helpers
(Math::GetAngleBetweenDirs, Math::GetAngleFromCenter), the two
normal-extrusion helpers, parabola sampling, the default margin used by
Math::IsEqualMarg, and the FNV string hash of Utility.hpp.  Claims about
counting and control flow hold for every oracle. -/
structure MathOracle where
  sqrtQ : ℚ → ℚ
  cosDeg : ℚ → ℚ
  sinDeg : ℚ → ℚ
  getAngleBetweenDirs : Vec2 → Vec2 → ℚ
  getAngleFromCenter : Vec2 → Vec2 → ℚ
  extrudedFromNormal : Vec2 → Vec2 → Vec2 → ℚ → Vec2
  extrudedFromNormalFlatCheck : Vec2 → Vec2 → Vec2 → ℚ → Bool → Vec2
  sampleParabola : Vec2 → Vec2 → Vec2 → ℚ → ℚ → Vec2
  eps : ℚ
  hashText : List Nat → Nat

/-- Modelled from the spec: Math::Clamp. -/
def clampQ (v lo hi : ℚ) : ℚ := if v < lo then lo else if v > hi then hi else v

/-- Modelled from the spec: Math::Min. -/
def minQ (a b : ℚ) : ℚ := if a < b then a else b

/-- Modelled from the spec: Math::Max. -/
def maxQ (a b : ℚ) : ℚ := if a > b then a else b

/-- Modelled from the spec: Math::Lerp on scalars. -/
def lerpQ (a b t : ℚ) : ℚ := a + (b - a) * t

/-- Modelled from the spec: Math::Lerp on colors (componentwise). -/
def lerpV4 (a b : Vec4) (t : ℚ) : Vec4 :=
  ⟨lerpQ a.x b.x t, lerpQ a.y b.y t, lerpQ a.z b.z t, lerpQ a.w b.w t⟩

/-- Modelled from the spec: Math::Lerp on points (componentwise). -/
def lerpV2 (a b : Vec2) (t : ℚ) : Vec2 := ⟨lerpQ a.x b.x t, lerpQ a.y b.y t⟩

/-- Modelled from the spec: Math::Remap, the linear remap of v from
[fromLo, fromHi] to [toLo, toHi] used for the bounding-box UV assignment. -/
def remapQ (v fromLo fromHi toLo toHi : ℚ) : ℚ :=
  toLo + (v - fromLo) * (toHi - toLo) / (fromHi - fromLo)

/-- Modelled from the spec: Math::IsEqualMarg, approximate equality within a
margin (the default margin is the oracle field eps). -/
def isEqualMarg (eps a b : ℚ) : Bool := |a - b| ≤ eps

/-- Modelled from the spec: Math::IsEqual on colors (exact componentwise
comparison deciding solid color versus gradient). -/
def isEqualVec4 (a b : Vec4) : Bool := a = b

/-- Modelled from the spec: Math::IsEqual on points. -/
def isEqualVec2 (a b : Vec2) : Bool := a = b

/-- Modelled from the spec: Math::Rotate90, quarter-turn rotation, clockwise
when the flag is set (screen coordinates, y growing downward). -/
def rotate90 (v : Vec2) (cw : Bool) : Vec2 :=
  if cw then ⟨v.y, -v.x⟩ else ⟨-v.y, v.x⟩

/-- Modelled from the spec: Math::Mag through the oracle square root. -/
def magO (o : MathOracle) (v : Vec2) : ℚ := o.sqrtQ (v.x * v.x + v.y * v.y)

/-- Modelled from the spec: Math::Normalized through the oracle square
root. -/
def normalizedO (o : MathOracle) (v : Vec2) : Vec2 :=
  let m := magO o v
  ⟨v.x / m, v.y / m⟩

/-- Modelled from the spec: Math::GetPointOnCircle, point at a degree angle
on a circle. -/
def getPointOnCircle (o : MathOracle) (center : Vec2) (radius angle : ℚ) : Vec2 :=
  ⟨center.x + o.cosDeg angle * radius, center.y + o.sinDeg angle * radius⟩

/-- Modelled from the spec: Math::RotateAround, rotation of a point about a
center by a degree angle. -/
def rotateAround (o : MathOracle) (p center : Vec2) (angle : ℚ) : Vec2 :=
  let c := o.cosDeg angle
  let s := o.sinDeg angle
  ⟨center.x + (p.x - center.x) * c - (p.y - center.y) * s,
   center.y + (p.x - center.x) * s + (p.y - center.y) * c⟩

/-- Modelled from the spec: Math::LineIntersection of the infinite lines
through (p1,p2) and (q1,q2), by the standard determinant formula (division
by a zero determinant yields the ℚ convention 0). -/
def lineIntersection (p1 p2 q1 q2 : Vec2) : Vec2 :=
  let d := (p1.x - p2.x) * (q1.y - q2.y) - (p1.y - p2.y) * (q1.x - q2.x)
  let a := p1.x * p2.y - p1.y * p2.x
  let b := q1.x * q2.y - q1.y * q2.x
  ⟨(a * (q1.x - q2.x) - (p1.x - p2.x) * b) / d,
   (a * (q1.y - q2.y) - (p1.y - p2.y) * b) / d⟩

/-- Modelled from the spec: Math::AreLinesParallel, the parallel-segment
check of the polyline joiner, as a margin comparison of the cross product of
the two direction vectors. -/
def areLinesParallel (eps : ℚ) (p1 p2 q1 q2 : Vec2) : Bool :=
  isEqualMarg eps ((p2.x - p1.x) * (q2.y - q1.y) - (p2.y - p1.y) * (q2.x - q1.x)) 0

/-- Modelled from the spec: Math::GetPolygonCentroidFast, the average of the
corner points (used by DrawConvex). -/
def getPolygonCentroidFast (points : List Vec2) : Vec2 :=
  let n : ℚ := points.length
  ⟨(points.foldl (fun a p => a + p.x) 0) / n, (points.foldl (fun a p => a + p.y) 0) / n⟩

/-- Modelled from the spec: Math::CustomRound, rounding to the nearest
integer. -/
def customRound (q : ℚ) : ℤ := ⌊q + 1 / 2⌋

/-- Fuel-bounded model of the C++ pattern
for (float i = start; i < stop; i += step): the list of loop-counter values.
The fuel only bounds the iteration count; all uses in the sources terminate
well below it. -/
def qRange : Nat → ℚ → ℚ → ℚ → List ℚ
  | 0, _, _, _ => []
  | Nat.succ fuel, i, stop, step =>
    if i < stop then i :: qRange fuel (i + step) stop step else []

/-- Global fuel for qRange, far above any loop length in the sources. -/
def loopFuel : Nat := 1000

/-- Source enum LineCapDirection. -/
inductive LineCapDirection where
  | none | left | right | both
deriving DecidableEq, Repr

/-- Source enum LineJointType. -/
inductive LineJointType where
  | vtxAverage | miter | bevel | bevelRound
deriving DecidableEq, Repr

/-- Source enum OutlineDrawDirection. -/
inductive OutlineDrawDirection where
  | outwards | inwards | both
deriving DecidableEq, Repr

/-- Source enum OutlineCallType (Normal for explicit outlines, AA for the
fringe around a shape, OutlineAA for the nested fringe around an outline). -/
inductive OutlineCallType where
  | normal | aa | outlineAA
deriving DecidableEq, Repr

/-- Source enum TextAlignment. -/
inductive TextAlignment where
  | left | center | right
deriving DecidableEq, Repr

/-- Source struct ThicknessGrad (start/end thickness of a tapered line);
end is a Lean keyword, hence thickStart/thickEnd. -/
structure ThicknessGrad where
  thickStart : ℚ := 1
  thickEnd : ℚ := 1
deriving DecidableEq, Repr

/-- Source struct OutlineOptions (fields of Common.hpp, which is not among
the sources; the field list is reconstructed from its uses in Drawer.cpp). -/
structure OutlineOptions where
  thickness : ℚ := 0
  drawDirection : OutlineDrawDirection := .outwards
  color : Vec4Grad := ⟨⟨1, 1, 1, 1⟩, ⟨1, 1, 1, 1⟩, .horizontal⟩
  textureHandle : Nat := 0
  textureUVOffset : Vec2 := ⟨0, 0⟩
  textureUVTiling : Vec2 := ⟨1, 1⟩
deriving DecidableEq, Repr

/-- Modelled from the spec: OutlineOptions::FromStyle synthesizes the AA
outline options from the fill style (the AA pass uses a copy of the style
with the outline color taken from the fill color and the requested draw
direction). -/
def OutlineOptions.fromStyle (color : Vec4Grad) (direction : OutlineDrawDirection) :
    OutlineOptions :=
  { color := color, drawDirection := direction }

/-- Source struct StyleOptions.  NULL_TEXTURE is modelled as handle 0. -/
structure StyleOptions where
  color : Vec4Grad := ⟨⟨1, 1, 1, 1⟩, ⟨1, 1, 1, 1⟩, .horizontal⟩
  textureHandle : Nat := 0
  textureUVTiling : Vec2 := ⟨1, 1⟩
  textureUVOffset : Vec2 := ⟨0, 0⟩
  isFilled : Bool := true
  rounding : ℚ := 0
  onlyRoundTheseCorners : List Nat := []
  thickness : ThicknessGrad := {}
  outlineOptions : OutlineOptions := {}
  aaEnabled : Bool := false
  aaMultiplier : ℚ := 1
  framebufferScale : ℚ := 1
deriving DecidableEq, Repr

/-- Source global Config (Common.hpp): the fields Drawer.cpp reads.  The
error callback is modelled by a presence flag; an invocation of the callback
is modelled as incrementing an error counter in the drawer state. -/
structure LinaVGConfig where
  hasErrorCallback : Bool := true
  miterLimit : ℚ := 150
  globalAAMultiplier : ℚ := 1
  globalFramebufferScale : ℚ := 1
  textCachingEnabled : Bool := false
  textCachingSDFEnabled : Bool := false
deriving DecidableEq, Repr

/-- Buffer kind, the batching category a draw call resolves to.  Modelled
from the spec: the BufferStore keys buffers by kind (plus draw order and a
kind-specific discriminator); the model keeps one buffer per kind, which is
faithful for single-frame single-style sequences and lets buffer references
be stable handles as the spec itself recommends. -/
inductive BufKind where
  | default | gradient | textured | simpleText | sdfText
deriving DecidableEq, Repr

/-- Source struct RectOverrideData (BufferStoreData): DrawSimpleLine routes
a quad through the rectangle filler by overriding the four corners. -/
structure RectOverrideData where
  overrideRectPositions : Bool := false
  p1 : Vec2 := ⟨0, 0⟩
  p2 : Vec2 := ⟨0, 0⟩
  p3 : Vec2 := ⟨0, 0⟩
  p4 : Vec2 := ⟨0, 0⟩
deriving DecidableEq, Repr

/-- Source struct UVOverrideData (BufferStoreData): DrawImage overrides the
default (0,0)-(1,1) UV corners. -/
structure UVOverrideData where
  uvOverride : Bool := false
  uvTL : Vec2 := ⟨0, 0⟩
  uvBR : Vec2 := ⟨1, 1⟩
deriving DecidableEq, Repr

/-- Cached text geometry.  Modelled from the spec: the text cache stores the
glyph geometry generated at the origin keyed by the string hash, and a hit
replays that geometry. -/
structure TextCacheEntry where
  sid : Nat
  verts : List Vertex
  inds : List Nat
deriving DecidableEq, Repr

/-- Modelled from the spec: the per-frame BufferStoreData pool.  One buffer
per kind (see BufKind) plus the override records and text caches. -/
structure BufferStoreData where
  defaultBuf : DrawBuffer := { drawBufferType := .default }
  gradientBuf : DrawBuffer := { drawBufferType := .gradient }
  texturedBuf : DrawBuffer := { drawBufferType := .textured }
  simpleTextBuf : DrawBuffer := { drawBufferType := .simpleText }
  sdfTextBuf : DrawBuffer := { drawBufferType := .sdfText }
  rectOverride : RectOverrideData := {}
  uvOverride : UVOverrideData := {}
  textCache : List TextCacheEntry := []
  sdfTextCache : List TextCacheEntry := []
deriving DecidableEq, Repr

/-- Modelled from the spec: resolve a buffer by kind (GetDefaultBuffer,
GetGradientBuffer, GetTextureBuffer, GetSimpleTextBuffer,
GetSDFTextBuffer). -/
def BufferStoreData.get (s : BufferStoreData) : BufKind → DrawBuffer
  | .default => s.defaultBuf
  | .gradient => s.gradientBuf
  | .textured => s.texturedBuf
  | .simpleText => s.simpleTextBuf
  | .sdfText => s.sdfTextBuf

/-- Modelled from the spec: write a buffer back by kind. -/
def BufferStoreData.set (s : BufferStoreData) (k : BufKind) (b : DrawBuffer) :
    BufferStoreData :=
  match k with
  | .default => { s with defaultBuf := b }
  | .gradient => { s with gradientBuf := b }
  | .textured => { s with texturedBuf := b }
  | .simpleText => { s with simpleTextBuf := b }
  | .sdfText => { s with sdfTextBuf := b }

/-- Update the buffer of a kind through a function. -/
def BufferStoreData.modify (s : BufferStoreData) (k : BufKind)
    (f : DrawBuffer → DrawBuffer) : BufferStoreData :=
  s.set k (f (s.get k))

/-- Drawer state: the buffer store plus the error-report counter (each
invocation of the process-wide error callback increments the counter). -/
structure DrawerState where
  store : BufferStoreData := {}
  errorCount : Nat := 0
deriving DecidableEq, Repr

/-- Report an error through the process-wide callback, if one is set
(source pattern: if (Config.errorCallback) Config.errorCallback(...)). -/
def reportError (cfg : LinaVGConfig) (st : DrawerState) : DrawerState :=
  if cfg.hasErrorCallback then { st with errorCount := st.errorCount + 1 } else st

/-- Source Drawer::GetConvexBoundingBox, Vec2 overload (lines 2065-2082).
The fold keeps the else-if update structure of the original: a coordinate
below the running minimum skips the maximum comparison for that point. -/
def getConvexBoundingBoxPts (points : List Vec2) : Vec2 × Vec2 :=
  points.foldl
    (fun mm p =>
      let bbMin := mm.1
      let bbMax := mm.2
      let mx :=
        if p.x < bbMin.x then (p.x, bbMax.x)
        else if p.x > bbMax.x then (bbMin.x, p.x)
        else (bbMin.x, bbMax.x)
      let my :=
        if p.y < bbMin.y then (p.y, bbMax.y)
        else if p.y > bbMax.y then (bbMin.y, p.y)
        else (bbMin.y, bbMax.y)
      (⟨mx.1, my.1⟩, ⟨mx.2, my.2⟩))
    (⟨99999, 99999⟩, ⟨-99999, -99999⟩)

/-- Source Drawer::GetConvexBoundingBox, Vertex overload (lines 2084-2100):
the same fold over the vertex positions. -/
def getConvexBoundingBoxVtx (vertices : List Vertex) : Vec2 × Vec2 :=
  getConvexBoundingBoxPts (vertices.map (·.pos))

/-- Source Drawer::GetConvexBoundingBox, DrawBuffer-range overload
(lines 2102-2118): the same fold over the vertices from startIndex to
endIndex inclusive. -/
def getConvexBoundingBoxBuf (buf : DrawBuffer) (startIndex endIndex : Nat) :
    Vec2 × Vec2 :=
  getConvexBoundingBoxVtx ((buf.vertexBuffer.drop startIndex).take (endIndex - startIndex + 1))

/-- Source Drawer::CalculateVertexUVs (lines 2120-2131): recompute the UV of
every vertex in [startIndex, endIndex] by remapping its position against the
bounding box of that same range. -/
def calculateVertexUVs (buf : DrawBuffer) (startIndex endIndex : Nat) : DrawBuffer :=
  let bb := getConvexBoundingBoxBuf buf startIndex endIndex
  { buf with
    vertexBuffer :=
      buf.vertexBuffer.mapIdx fun i v =>
        if startIndex ≤ i ∧ i ≤ endIndex then
          { v with uv := ⟨remapQ v.pos.x bb.1.x bb.2.x 0 1, remapQ v.pos.y bb.1.y bb.2.y 0 1⟩ }
        else v }

/-- Source Drawer::GetAngleIncrease (lines 2133-2143): the corner-arc angle
step as a function of the rounding factor. -/
def getAngleIncrease (rounding : ℚ) : ℚ :=
  if rounding < 1/4 then 20
  else if rounding < 1/2 then 15
  else if rounding < 3/4 then 10
  else 5

/-- Source Drawer::FillRect_Round line 909: the rectangle rounding factor is
clamped to [0, 0.9] on entry. -/
def fillRectRoundRounding (rounding : ℚ) : ℚ := clampQ rounding 0 (9/10)

/-- Source Drawer::FillTri_Round line 1144: the triangle rounding factor is
clamped to [0, 1] on entry. -/
def fillTriRoundRounding (rounding : ℚ) : ℚ := clampQ rounding 0 1

/-- Source Drawer::ConvexFillVertices (lines 1886-1903): fan triangulation
indices from a center at startIndex over the boundary startIndex+1..endIndex,
appended to the given index list.  The last closing triangle is skipped for
open arcs. -/
def convexFillVertices (startIndex endIndex : Nat) (indices : List Nat)
    (skipLastTriangle : Bool := false) : List Nat :=
  let indices := indices ++
    (List.range' (startIndex + 1) (endIndex - (startIndex + 1))).flatMap
      (fun i => [startIndex, i, i + 1])
  if !skipLastTriangle then indices ++ [startIndex, startIndex + 1, endIndex]
  else indices

/-- Source Drawer::GetVerticesCenter (lines 2151-2165). -/
def getVerticesCenter (buf : DrawBuffer) (startIndex endIndex : Nat) : Vec2 :=
  let slice := (buf.vertexBuffer.drop startIndex).take (endIndex - startIndex + 1)
  let total := slice.foldl (fun (a : Vec2) v => ⟨a.x + v.pos.x, a.y + v.pos.y⟩) ⟨0, 0⟩
  let count : ℚ := (endIndex - startIndex + 1 : Nat)
  ⟨total.x / count, total.y / count⟩

/-- Source Drawer::IsPointInside (lines 2167-2170). -/
def isPointInside (point : Vec2) (rect : Vec4) : Bool :=
  point.x > rect.x ∧ point.x < rect.x + rect.z ∧ point.y > rect.y ∧ point.y < rect.y + rect.w

/-- Source Drawer::RotateVertices (lines 1960-1969): rotate the vertices in
[startIndex, endIndex] about the center, a no-op for an angle equal to zero
within the margin. -/
def rotateVertices (o : MathOracle) (vertices : List Vertex) (center : Vec2)
    (startIndex endIndex : Nat) (angle : ℚ) : List Vertex :=
  if isEqualMarg o.eps angle 0 then vertices
  else
    vertices.mapIdx fun i v =>
      if startIndex ≤ i ∧ i ≤ endIndex then
        { v with pos := rotateAround o v.pos center angle }
      else v

/-- Source Drawer::ConvexExtrudeVertices (lines 1905-1958): duplicate the
boundary vertices of [startIndex, endIndex] extruded along their normals,
recompute UVs of the doubled range, then stitch the two rings with a quad
strip (the last closing quad is skipped for open arcs).  The extrusion loop
reads only the original region [startIndex, endIndex], which appends leave
untouched, so it reads from a snapshot of the vertex array. -/
def convexExtrudeVertices (o : MathOracle) (buf : DrawBuffer) (opts : StyleOptions)
    (_center : Vec2) (startIndex endIndex : Nat) (thickness : ℚ)
    (skipEndClosing : Bool := false) : DrawBuffer :=
  let totalSize := endIndex - startIndex + 1
  let thickness := thickness * opts.framebufferScale
  let verts0 := buf.vertexBuffer
  let vget := fun i => verts0.getD i {}
  let buf :=
    (List.range' startIndex totalSize).foldl
      (fun b i =>
        let previous := if i = startIndex then endIndex else i - 1
        let next := if i = endIndex then startIndex else i + 1
        let col := (vget i).col
        let pos :=
          if skipEndClosing ∧ i = startIndex then
            let toNext := normalizedO o
              ⟨(vget next).pos.x - (vget i).pos.x, (vget next).pos.y - (vget i).pos.y⟩
            let rotated := rotate90 toNext true
            (⟨(vget i).pos.x + rotated.x * thickness,
              (vget i).pos.y + rotated.y * thickness⟩ : Vec2)
          else if skipEndClosing ∧ i = endIndex then
            let fromPrev := normalizedO o
              ⟨(vget i).pos.x - (vget previous).pos.x, (vget i).pos.y - (vget previous).pos.y⟩
            let rotated := rotate90 fromPrev true
            (⟨(vget i).pos.x + rotated.x * thickness,
              (vget i).pos.y + rotated.y * thickness⟩ : Vec2)
          else
            o.extrudedFromNormal (vget i).pos (vget previous).pos (vget next).pos thickness
        b.pushVertex { pos := pos, col := col })
      buf
  let buf := calculateVertexUVs buf startIndex (endIndex + totalSize)
  (List.range' startIndex (if skipEndClosing then totalSize - 1 else totalSize)).foldl
    (fun b i =>
      let next := if i + 1 ≥ startIndex + totalSize then startIndex else i + 1
      b.pushIndexList [i, next, i + totalSize, next, next + totalSize, i + totalSize])
    buf

/-- Source Drawer::FillRectData (lines 1005-1038): the four corner vertices
of a rectangle (optionally preceded by a center vertex), with positions taken
from the rectangle override when DrawSimpleLine routed a quad here, and UVs
taken from the UV override record (defaults (0,0)-(1,1)). -/
def fillRectData (store : BufferStoreData) (hasCenter : Bool) (bbMin bbMax : Vec2) :
    List Vertex :=
  let uvTL := store.uvOverride.uvTL
  let uvBR := store.uvOverride.uvBR
  let center : Vec2 := ⟨(bbMax.x + bbMin.x) / 2, (bbMax.y + bbMin.y) / 2⟩
  let centerV : List Vertex :=
    if hasCenter then
      [{ pos := center, uv := ⟨(uvTL.x + uvBR.x) / 2, (uvTL.y + uvBR.y) / 2⟩ }]
    else []
  let corners : List Vec2 :=
    if !store.rectOverride.overrideRectPositions then
      [bbMin, ⟨bbMax.x, bbMin.y⟩, ⟨bbMax.x, bbMax.y⟩, ⟨bbMin.x, bbMax.y⟩]
    else
      [store.rectOverride.p1, store.rectOverride.p2, store.rectOverride.p3,
       store.rectOverride.p4]
  let uvs : List Vec2 := [uvTL, ⟨uvBR.x, uvTL.y⟩, uvBR, ⟨uvTL.x, uvBR.y⟩]
  centerV ++ (corners.zip uvs).map fun pu => { pos := pu.1, uv := pu.2 }

/-- Read a vertex list at an index (C++ operator[]; all source accesses are
in bounds, the default is never observed). -/
def vlGet (vs : List Vertex) (i : Nat) : Vertex := vs.getD i {}

/-- Destination-buffer resolution shared by DrawOutline and
DrawOutlineAroundShape: textured if the relevant texture handle is set, else
gradient if the outline colors differ (or, for AA passes, if the source
buffer is a gradient buffer), else default.  Modelled from the spec for the
buffer-store side; the selection conditions are from the source. -/
def outlineDestKind (useTextureBuffer useGradBuffer : Bool) : BufKind :=
  if useTextureBuffer then .textured
  else if useGradBuffer then .gradient
  else .default

/-- Source Drawer::DrawOutlineAroundShape without the trailing nested-AA
recursion (lines 2537-2651), used for the AA and OutlineAA call types where
isAAOutline is true and the recursion guard opts.aaEnabled && !isAAOutline
is statically false.  Copies the vertices listed by indicesOrder from the
source buffer, extrudes a second ring along the flat-checked normals, and
stitches the rings with a quad strip.  Ring colors are the source colors and
the outer ring alpha is forced to zero (the AA fringe). -/
def drawOutlineAroundShapeNN (o : MathOracle) (cfg : LinaVGConfig)
    (srcKind : BufKind) (opts : StyleOptions) (indicesOrder : List Nat)
    (vertexCount : Nat) (_defThickness : ℚ) (ccw : Bool)
    (outlineType : OutlineCallType) (store : BufferStoreData) :
    BufKind × BufferStoreData :=
  let thickness := opts.framebufferScale * opts.aaMultiplier *
    cfg.globalAAMultiplier * cfg.globalFramebufferScale
  let isGradient := (store.get srcKind).drawBufferType = DrawBufferType.gradient
  let useTextureBuffer :=
    if outlineType = .aa then opts.textureHandle ≠ 0
    else opts.outlineOptions.textureHandle ≠ 0
  let useGradBuffer := ¬useTextureBuffer ∧ isGradient
  let destKind := outlineDestKind useTextureBuffer useGradBuffer
  let srcVerts := (store.get srcKind).vertexBuffer
  let igGet := fun i => indicesOrder.getD i 0
  let destBufStart := (store.get destKind).vertexBuffer.length
  -- First copy the listed vertices into the destination buffer.
  let store := store.modify destKind fun b =>
    b.pushVertexList ((List.range vertexCount).map fun i =>
      { pos := (vlGet srcVerts (igGet i)).pos
        uv := (vlGet srcVerts (igGet i)).uv
        col := (vlGet srcVerts (igGet i)).col })
  -- Extrude the copied ring; reads target the copy region just pushed.
  let copied := (store.get destKind).vertexBuffer
  let store := store.modify destKind fun b =>
    b.pushVertexList ((List.range vertexCount).map fun i =>
      let prev := if i = 0 then destBufStart + vertexCount - 1 else destBufStart + i - 1
      let next := if i = vertexCount - 1 then destBufStart else destBufStart + i + 1
      let current := destBufStart + i
      let col0 := (vlGet srcVerts (igGet i)).col
      { pos := o.extrudedFromNormalFlatCheck (vlGet copied current).pos
          (vlGet copied prev).pos (vlGet copied next).pos thickness ccw
        uv := (vlGet copied current).uv
        col := { col0 with w := 0 } })
  -- No UV recalculation here: it is skipped when isAAOutline holds.
  let store := store.modify destKind fun b =>
    b.pushIndexList ((List.range vertexCount).flatMap fun i =>
      let current := destBufStart + i
      let next := if i = vertexCount - 1 then destBufStart else destBufStart + i + 1
      [current, next, current + vertexCount, next, next + vertexCount,
       current + vertexCount])
  (srcKind, store)

/-- Source Drawer::DrawOutlineAroundShape for the Normal call type
(lines 2537-2661): as drawOutlineAroundShapeNN but with outline thickness
and outline colors, the optional UV recalculation for textured/gradient
outlines, and, when anti-aliasing is on, the two trailing nested AA fringes
around the new outline (OutlineAA calls, handled by
drawOutlineAroundShapeNN). -/
def drawOutlineAroundShape (o : MathOracle) (cfg : LinaVGConfig)
    (srcKind : BufKind) (opts : StyleOptions) (indicesOrder : List Nat)
    (vertexCount : Nat) (defThickness : ℚ) (ccw : Bool)
    (store : BufferStoreData) : BufKind × BufferStoreData :=
  let thickness := defThickness * opts.framebufferScale * cfg.globalFramebufferScale
  let isGradient :=
    ¬isEqualVec4 opts.outlineOptions.color.gradStart opts.outlineOptions.color.gradEnd
  let useTextureBuffer := opts.outlineOptions.textureHandle ≠ 0
  let useGradBuffer := ¬useTextureBuffer ∧ isGradient
  let destKind := outlineDestKind useTextureBuffer useGradBuffer
  let srcVerts := (store.get srcKind).vertexBuffer
  let igGet := fun i => indicesOrder.getD i 0
  let destBufStart := (store.get destKind).vertexBuffer.length
  let store := store.modify destKind fun b =>
    b.pushVertexList ((List.range vertexCount).map fun i =>
      { pos := (vlGet srcVerts (igGet i)).pos
        uv := (vlGet srcVerts (igGet i)).uv
        col := opts.outlineOptions.color.gradStart })
  let copiedVerticesOrder := List.range' destBufStart vertexCount
  let copied := (store.get destKind).vertexBuffer
  let store := store.modify destKind fun b =>
    b.pushVertexList ((List.range vertexCount).map fun i =>
      let prev := if i = 0 then destBufStart + vertexCount - 1 else destBufStart + i - 1
      let next := if i = vertexCount - 1 then destBufStart else destBufStart + i + 1
      let current := destBufStart + i
      { pos := o.extrudedFromNormalFlatCheck (vlGet copied current).pos
          (vlGet copied prev).pos (vlGet copied next).pos thickness ccw
        uv := (vlGet copied current).uv
        col := opts.outlineOptions.color.gradEnd })
  let extrudedVerticesOrder := List.range' (destBufStart + vertexCount) vertexCount
  let store :=
    if useTextureBuffer ∨ useGradBuffer then
      store.modify destKind fun b =>
        calculateVertexUVs b destBufStart (destBufStart + vertexCount * 2 - 1)
    else store
  let store := store.modify destKind fun b =>
    b.pushIndexList ((List.range vertexCount).flatMap fun i =>
      let current := destBufStart + i
      let next := if i = vertexCount - 1 then destBufStart else destBufStart + i + 1
      [current, next, current + vertexCount, next, next + vertexCount,
       current + vertexCount])
  if opts.aaEnabled then
    let r1 := drawOutlineAroundShapeNN o cfg destKind opts extrudedVerticesOrder
      extrudedVerticesOrder.length defThickness ccw .outlineAA store
    let r2 := drawOutlineAroundShapeNN o cfg r1.1 opts copiedVerticesOrder
      copiedVerticesOrder.length (-defThickness) (!ccw) .outlineAA r1.2
    (srcKind, r2.2)
  else
    (srcKind, store)

/-- Source: the copyAndFill lambda inside Drawer::DrawOutline
(lines 2747-2831).  Copies the source range [startIndex, endIndex] into the
destination buffer, extrudes a second ring (one-sided extrusion at the two
ends when skipEnds holds), optionally recomputes UVs, then stitches the
rings; for skipEnds the final closing quad is dropped (the early return of
the source loop). -/
def outlineCopyAndFill (o : MathOracle) (isAAOutline skipEnds : Bool)
    (opts : StyleOptions) (srcKind destKind : BufKind)
    (startIndex endIndex : Nat) (thickness : ℚ) (reCalcUVs : Bool)
    (store : BufferStoreData) : BufferStoreData :=
  let srcVerts := (store.get srcKind).vertexBuffer
  let destBufStart := (store.get destKind).vertexBuffer.length
  let totalSize := endIndex - startIndex + 1
  let store := store.modify destKind fun b =>
    b.pushVertexList ((List.range' startIndex totalSize).map fun i =>
      { pos := (vlGet srcVerts i).pos
        uv := (vlGet srcVerts i).uv
        col := if isAAOutline then (vlGet srcVerts i).col
               else opts.outlineOptions.color.gradStart })
  let store := store.modify destKind fun b =>
    b.pushVertexList ((List.range' startIndex totalSize).map fun i =>
      let previous := if i = startIndex then endIndex else i - 1
      let next := if i = endIndex then startIndex else i + 1
      let col :=
        if isAAOutline then { (vlGet srcVerts i).col with w := 0 }
        else opts.outlineOptions.color.gradEnd
      let pos :=
        if skipEnds ∧ i = startIndex then
          o.extrudedFromNormal (vlGet srcVerts i).pos ⟨-1, -1⟩
            (vlGet srcVerts next).pos thickness
        else if skipEnds ∧ i = endIndex then
          o.extrudedFromNormal (vlGet srcVerts i).pos (vlGet srcVerts previous).pos
            ⟨-1, -1⟩ thickness
        else
          o.extrudedFromNormal (vlGet srcVerts i).pos (vlGet srcVerts previous).pos
            (vlGet srcVerts next).pos thickness
      { pos := pos, uv := (vlGet srcVerts i).uv, col := col })
  let store :=
    if ¬isAAOutline ∧ reCalcUVs then
      store.modify destKind fun b =>
        calculateVertexUVs b destBufStart (destBufStart + totalSize * 2 - 1)
    else store
  store.modify destKind fun b =>
    b.pushIndexList
      ((List.range' destBufStart (if skipEnds then totalSize - 1 else totalSize)).flatMap
        fun i =>
          let next := if i + 1 ≥ destBufStart + totalSize then destBufStart else i + 1
          [i, next, i + totalSize, next, next + totalSize, i + totalSize])

/-- Source: the start/end index selection of Drawer::DrawOutline
(lines 2715-2740): the whole trailing range for filled shapes, and the
outer, inner or both halves of the trailing range for stroked shapes. -/
def drawOutlineRange (opts : StyleOptions) (srcLen vertexCount : Nat) : Nat × Nat :=
  if opts.isFilled then
    (srcLen - vertexCount, srcLen - 1)
  else
    match opts.outlineOptions.drawDirection with
    | .outwards => (srcLen - vertexCount / 2, srcLen - 1)
    | .inwards => (srcLen - vertexCount, srcLen - vertexCount / 2 - 1)
    | .both => (srcLen - vertexCount, srcLen - 1)

/-- Source Drawer::DrawOutline for the AA and OutlineAA call types
(lines 2663-2949) where isAAOutline is true: AA-fringe thickness, colors
copied from the source with outer-ring alpha zero, and no nested recursion
(the guard opts.aaEnabled && !isAAOutline is statically false, so every
useAA block of the source is skipped). -/
def drawOutlineNN (o : MathOracle) (cfg : LinaVGConfig) (srcKind : BufKind)
    (opts : StyleOptions) (vertexCount : Nat) (skipEnds : Bool)
    (outlineType : OutlineCallType) (reverseDrawDir : Bool)
    (store : BufferStoreData) : BufKind × BufferStoreData :=
  let thickness := opts.framebufferScale * opts.aaMultiplier *
    cfg.globalAAMultiplier * cfg.globalFramebufferScale
  let isGradient := (store.get srcKind).drawBufferType = DrawBufferType.gradient
  let useTextureBuffer :=
    if outlineType = .aa then opts.textureHandle ≠ 0
    else opts.outlineOptions.textureHandle ≠ 0
  let useGradBuffer := ¬useTextureBuffer ∧ isGradient
  let thickness := if reverseDrawDir then -thickness else thickness
  let destKind := outlineDestKind useTextureBuffer useGradBuffer
  let se := drawOutlineRange opts (store.get srcKind).vertexBuffer.length vertexCount
  let recalcUvs := useTextureBuffer ∨ useGradBuffer
  let store :=
    if opts.isFilled then
      match opts.outlineOptions.drawDirection with
      | .outwards =>
        outlineCopyAndFill o true skipEnds opts srcKind destKind se.1 se.2 thickness
          recalcUvs store
      | .both =>
        outlineCopyAndFill o true skipEnds opts srcKind destKind se.1 se.2 thickness
          recalcUvs store
      | .inwards =>
        outlineCopyAndFill o true skipEnds opts srcKind destKind se.1 se.2 (-thickness)
          recalcUvs store
    else
      match opts.outlineOptions.drawDirection with
      | .outwards =>
        outlineCopyAndFill o true skipEnds opts srcKind destKind se.1 se.2 thickness
          recalcUvs store
      | .inwards =>
        outlineCopyAndFill o true skipEnds opts srcKind destKind se.1 se.2 (-thickness)
          recalcUvs store
      | .both =>
        let store := outlineCopyAndFill o true skipEnds opts srcKind destKind se.1
          (se.1 + vertexCount / 2 - 1) (-thickness) recalcUvs store
        outlineCopyAndFill o true skipEnds opts srcKind destKind
          (se.1 + vertexCount / 2) se.2 thickness recalcUvs store
  (srcKind, store)

/-- Source Drawer::DrawOutline for the Normal call type (lines 2663-2949):
outline thickness and outline colors, plus, when anti-aliasing is on, the
nested OutlineAA fringe calls around the generated outline (handled by
drawOutlineNN, mirroring the useAA blocks of every branch). -/
def drawOutline (o : MathOracle) (cfg : LinaVGConfig) (srcKind : BufKind)
    (opts : StyleOptions) (vertexCount : Nat) (skipEnds : Bool)
    (store : BufferStoreData) : BufKind × BufferStoreData :=
  let thickness := opts.outlineOptions.thickness * opts.framebufferScale *
    cfg.globalFramebufferScale
  let isGradient :=
    ¬isEqualVec4 opts.outlineOptions.color.gradStart opts.outlineOptions.color.gradEnd
  let useTextureBuffer := opts.outlineOptions.textureHandle ≠ 0
  let useGradBuffer := ¬useTextureBuffer ∧ isGradient
  let destKind := outlineDestKind useTextureBuffer useGradBuffer
  let se := drawOutlineRange opts (store.get srcKind).vertexBuffer.length vertexCount
  let recalcUvs := useTextureBuffer ∨ useGradBuffer
  let useAA := opts.aaEnabled
  let store :=
    if opts.isFilled then
      match opts.outlineOptions.drawDirection with
      | .outwards =>
        let store := outlineCopyAndFill o false skipEnds opts srcKind destKind se.1 se.2
          thickness recalcUvs store
        if useAA then
          let opts2 := { opts with
            isFilled := false
            outlineOptions := { opts.outlineOptions with drawDirection := .outwards } }
          let r1 := drawOutlineNN o cfg destKind opts2 (vertexCount * 2) skipEnds
            .outlineAA false store
          let opts2 := { opts2 with
            outlineOptions := { opts2.outlineOptions with drawDirection := .inwards } }
          (drawOutlineNN o cfg r1.1 opts2 (vertexCount * 2) skipEnds .outlineAA false
            r1.2).2
        else store
      | .both =>
        let store := outlineCopyAndFill o false skipEnds opts srcKind destKind se.1 se.2
          thickness recalcUvs store
        if useAA then
          let opts2 := { opts with
            isFilled := false
            outlineOptions := { opts.outlineOptions with drawDirection := .outwards } }
          let r1 := drawOutlineNN o cfg destKind opts2 (vertexCount * 2) skipEnds
            .outlineAA false store
          let opts2 := { opts2 with
            outlineOptions := { opts2.outlineOptions with drawDirection := .inwards } }
          (drawOutlineNN o cfg r1.1 opts2 (vertexCount * 2) skipEnds .outlineAA false
            r1.2).2
        else store
      | .inwards =>
        let store := outlineCopyAndFill o false skipEnds opts srcKind destKind se.1 se.2
          (-thickness) recalcUvs store
        if useAA then
          let opts2 := { opts with
            outlineOptions := { opts.outlineOptions with drawDirection := .outwards } }
          let r1 := drawOutlineNN o cfg destKind opts2 vertexCount skipEnds
            .outlineAA true store
          let opts2 := { opts2 with
            isFilled := false
            outlineOptions := { opts2.outlineOptions with drawDirection := .inwards } }
          (drawOutlineNN o cfg r1.1 opts2 (vertexCount * 2) skipEnds .outlineAA true
            r1.2).2
        else store
    else
      match opts.outlineOptions.drawDirection with
      | .outwards =>
        let store :=
          if useAA then
            let opts3 := { opts with
              outlineOptions := OutlineOptions.fromStyle opts.color .inwards }
            (drawOutlineNN o cfg srcKind opts3 vertexCount skipEnds .outlineAA false
              store).2
          else store
        let store := outlineCopyAndFill o false skipEnds opts srcKind destKind se.1 se.2
          thickness recalcUvs store
        if useAA then
          let opts2 := { opts with
            outlineOptions := { opts.outlineOptions with drawDirection := .outwards } }
          let r1 := drawOutlineNN o cfg destKind opts2 vertexCount skipEnds
            .outlineAA false store
          let opts2 := { opts2 with
            outlineOptions := { opts2.outlineOptions with drawDirection := .inwards } }
          (drawOutlineNN o cfg r1.1 opts2 vertexCount skipEnds .outlineAA false r1.2).2
        else store
      | .inwards =>
        let store :=
          if useAA then
            let opts3 := { opts with
              outlineOptions := OutlineOptions.fromStyle opts.color .outwards }
            (drawOutlineNN o cfg srcKind opts3 vertexCount skipEnds .outlineAA false
              store).2
          else store
        let store := outlineCopyAndFill o false skipEnds opts srcKind destKind se.1 se.2
          (-thickness) recalcUvs store
        if useAA then
          let opts2 := { opts with
            outlineOptions := { opts.outlineOptions with drawDirection := .outwards } }
          let r1 := drawOutlineNN o cfg destKind opts2 vertexCount skipEnds
            .outlineAA true store
          let opts2 := { opts2 with
            outlineOptions := { opts2.outlineOptions with drawDirection := .inwards } }
          (drawOutlineNN o cfg r1.1 opts2 vertexCount skipEnds .outlineAA true r1.2).2
        else store
      | .both =>
        let store := outlineCopyAndFill o false skipEnds opts srcKind destKind se.1
          (se.1 + vertexCount / 2 - 1) (-thickness) recalcUvs store
        let store :=
          if useAA then
            let opts2 := { opts with
              outlineOptions := { opts.outlineOptions with drawDirection := .outwards } }
            let r1 := drawOutlineNN o cfg destKind opts2 vertexCount skipEnds
              .outlineAA true store
            let opts2 := { opts2 with
              outlineOptions := { opts2.outlineOptions with drawDirection := .inwards } }
            (drawOutlineNN o cfg r1.1 opts2 vertexCount skipEnds .outlineAA true r1.2).2
          else store
        let store := outlineCopyAndFill o false skipEnds opts srcKind destKind
          (se.1 + vertexCount / 2) se.2 thickness recalcUvs store
        if useAA then
          let opts2 := { opts with
            outlineOptions := { opts.outlineOptions with drawDirection := .outwards } }
          let r1 := drawOutlineNN o cfg destKind opts2 vertexCount skipEnds
            .outlineAA false store
          let opts2 := { opts2 with
            outlineOptions := { opts2.outlineOptions with drawDirection := .inwards } }
          (drawOutlineNN o cfg r1.1 opts2 vertexCount skipEnds .outlineAA false r1.2).2
        else store
  (srcKind, store)

/-- Append fan-triangulation indices to a buffer (the source pattern
ConvexFillVertices(start, end, buf->m_indexBuffer, skip)). -/
def DrawBuffer.convexFill (b : DrawBuffer) (startIndex endIndex : Nat)
    (skipLastTriangle : Bool) : DrawBuffer :=
  { b with indexBuffer := convexFillVertices startIndex endIndex b.indexBuffer skipLastTriangle }

/-- Source: the outline/AA epilogue repeated verbatim at the end of every
shape Fill function (for example lines 868-875): an explicit outline when
the outline thickness is nonzero within the margin, else an AA fringe (an
AA-type DrawOutline with outline options synthesized from the fill color,
direction Both) when anti-aliasing is enabled. -/
def shapeOutlineEpilogue (o : MathOracle) (cfg : LinaVGConfig) (kind : BufKind)
    (opts : StyleOptions) (vertexCount : Nat) (skipEnds : Bool)
    (store : BufferStoreData) : BufferStoreData :=
  if ¬isEqualMarg o.eps opts.outlineOptions.thickness 0 then
    (drawOutline o cfg kind opts vertexCount skipEnds store).2
  else if opts.aaEnabled then
    let opts2 := { opts with outlineOptions := OutlineOptions.fromStyle opts.color .both }
    (drawOutlineNN o cfg kind opts2 vertexCount skipEnds .aa false store).2
  else store

/-- Source Drawer::FillRect_NoRound_SC (lines 838-876): four corner
vertices in one color, two fan triangles when filled or an extruded ring
when stroked, rotation about the rectangle center, then the outline/AA
epilogue. -/
def fillRect_NoRound_SC (o : MathOracle) (cfg : LinaVGConfig) (kind : BufKind)
    (rotateAngle : ℚ) (bbMin bbMax : Vec2) (color : Vec4) (opts : StyleOptions)
    (store : BufferStoreData) : BufferStoreData :=
  let v := (fillRectData store false bbMin bbMax).map fun vtx => { vtx with col := color }
  let buf := store.get kind
  let current := buf.vertexBuffer.length
  let buf := buf.pushVertexList v
  let center : Vec2 := ⟨(bbMin.x + bbMax.x) / 2, (bbMin.y + bbMax.y) / 2⟩
  let buf :=
    if opts.isFilled then
      buf.pushIndexList [current, current + 1, current + 3, current + 1, current + 2,
        current + 3]
    else
      convexExtrudeVertices o buf opts center current (current + 3)
        opts.thickness.thickStart
  let buf := { buf with
    vertexBuffer := rotateVertices o buf.vertexBuffer center current
      (if opts.isFilled then current + 3 else current + 7) rotateAngle }
  shapeOutlineEpilogue o cfg kind opts (if opts.isFilled then 4 else 8) false
    (store.set kind buf)

/-- Source Drawer::FillRect_NoRound_VerHorGra (lines 797-836): as the
single-color variant but with the four corner colors given (TL, TR, BR,
BL). -/
def fillRect_NoRound_VerHorGra (o : MathOracle) (cfg : LinaVGConfig) (kind : BufKind)
    (rotateAngle : ℚ) (bbMin bbMax : Vec2) (colorTL colorTR colorBR colorBL : Vec4)
    (opts : StyleOptions) (store : BufferStoreData) : BufferStoreData :=
  let v := ((fillRectData store false bbMin bbMax).zip
    [colorTL, colorTR, colorBR, colorBL]).map fun p => { p.1 with col := p.2 }
  let buf := store.get kind
  let current := buf.vertexBuffer.length
  let buf := buf.pushVertexList v
  let center : Vec2 := ⟨(bbMin.x + bbMax.x) / 2, (bbMin.y + bbMax.y) / 2⟩
  let buf :=
    if opts.isFilled then
      buf.pushIndexList [current, current + 1, current + 3, current + 1, current + 2,
        current + 3]
    else
      convexExtrudeVertices o buf opts center current (current + 3)
        opts.thickness.thickStart
  let buf := { buf with
    vertexBuffer := rotateVertices o buf.vertexBuffer center current
      (if opts.isFilled then current + 3 else current + 7) rotateAngle }
  shapeOutlineEpilogue o cfg kind opts (if opts.isFilled then 4 else 8) false
    (store.set kind buf)

/-- Source Drawer::FillRect_NoRound_RadialGra (lines 878-905): five
vertices (center first) with colors left default (the gradient buffer shades
them), fan triangulation via ConvexFillVertices when filled. -/
def fillRect_NoRound_RadialGra (o : MathOracle) (cfg : LinaVGConfig) (kind : BufKind)
    (rotateAngle : ℚ) (bbMin bbMax : Vec2) (opts : StyleOptions)
    (store : BufferStoreData) : BufferStoreData :=
  let v := fillRectData store true bbMin bbMax
  let buf := store.get kind
  let startIndex := buf.vertexBuffer.length
  let buf := buf.pushVertexList (if opts.isFilled then v else v.drop 1)
  let center : Vec2 := ⟨(bbMin.x + bbMax.x) / 2, (bbMin.y + bbMax.y) / 2⟩
  let buf :=
    if opts.isFilled then buf.convexFill startIndex (startIndex + 4) false
    else
      convexExtrudeVertices o buf opts center startIndex (startIndex + 3)
        opts.thickness.thickStart
  let buf := { buf with
    vertexBuffer := rotateVertices o buf.vertexBuffer center
      (if opts.isFilled then startIndex + 1 else startIndex)
      (if opts.isFilled then startIndex + 4 else startIndex + 7) rotateAngle }
  shapeOutlineEpilogue o cfg kind opts (if opts.isFilled then 4 else 8) false
    (store.set kind buf)

/-- Source Drawer::FillRect_Round (lines 907-1003): rounding clamped to
[0, 0.9], corner arcs sampled every getAngleIncrease(rounding) degrees over
the quarter range plus a 2.5-degree overshoot, corners excluded from the
rounding list kept sharp, then fan fill (with a recomputed bounding-box UV
pass) or ring extrusion, rotation and the outline/AA epilogue. -/
def fillRect_Round (o : MathOracle) (cfg : LinaVGConfig) (kind : BufKind)
    (roundedCorners : List Nat) (rotateAngle : ℚ) (bbMin bbMax : Vec2) (col : Vec4)
    (rounding : ℚ) (opts : StyleOptions) (store : BufferStoreData) : BufferStoreData :=
  let rounding := fillRectRoundRounding rounding
  let v := (fillRectData store false bbMin bbMax).map fun vtx => { vtx with col := col }
  let vv := fun i => vlGet v i
  let center : Vec2 := ⟨(bbMin.x + bbMax.x) / 2, (bbMin.y + bbMax.y) / 2⟩
  let up0 : Vec2 := ⟨(vv 0).pos.x - (vv 3).pos.x, (vv 0).pos.y - (vv 3).pos.y⟩
  let right0 : Vec2 := ⟨(vv 1).pos.x - (vv 0).pos.x, (vv 1).pos.y - (vv 0).pos.y⟩
  let verticalMag := magO o up0
  let horizontalMag := magO o right0
  let halfShortestSide :=
    (if verticalMag > horizontalMag then horizontalMag else verticalMag) / 2
  let up := normalizedO o up0
  let right := normalizedO o right0
  let roundingMag := rounding * halfShortestSide
  let angleIncrease := getAngleIncrease rounding
  let buf := store.get kind
  let startIndex := buf.vertexBuffer.length
  let buf :=
    if opts.isFilled then
      buf.pushVertex { pos := center, col := col, uv := ⟨1/2, 1/2⟩ }
    else buf
  let step := fun (acc : DrawBuffer × Nat × ℚ × ℚ) (i : Nat) =>
    let buf := acc.1
    let vertexCount := acc.2.1
    let startAngle := acc.2.2.1
    let endAngle := acc.2.2.2
    if roundedCorners ≠ [] ∧ ¬roundedCorners.contains i then
      (buf.pushVertex { pos := (vv i).pos, col := col, uv := (vv i).uv },
        vertexCount + 1, startAngle + 90, endAngle + 90)
    else
      let usedRight := if i = 0 ∨ i = 3 then right else (⟨-right.x, -right.y⟩ : Vec2)
      let usedUp := if i = 0 ∨ i = 1 then (⟨-up.x, -up.y⟩ : Vec2) else up
      let inf0 : Vec2 := ⟨(vv i).pos.x + usedUp.x * roundingMag,
        (vv i).pos.y + usedUp.y * roundingMag⟩
      let inf1 : Vec2 := ⟨inf0.x + usedRight.x * roundingMag,
        inf0.y + usedRight.y * roundingMag⟩
      let arcAngles := qRange loopFuel startAngle (endAngle + 5/2) angleIncrease
      let buf := buf.pushVertexList (arcAngles.map fun k =>
        { pos := getPointOnCircle o inf1 roundingMag k, col := col })
      (buf, vertexCount + arcAngles.length, startAngle + 90, endAngle + 90)
  let acc := [0, 1, 2, 3].foldl step (buf, 0, (180 : ℚ), (270 : ℚ))
  let buf := acc.1
  let vertexCount := acc.2.1
  let buf :=
    if opts.isFilled then
      let buf := calculateVertexUVs buf startIndex (startIndex + vertexCount)
      buf.convexFill startIndex (startIndex + vertexCount) false
    else
      convexExtrudeVertices o buf opts center startIndex (startIndex + vertexCount - 1)
        opts.thickness.thickStart
  let buf := { buf with
    vertexBuffer := rotateVertices o buf.vertexBuffer center
      (if opts.isFilled then startIndex + 1 else startIndex)
      (if opts.isFilled then startIndex + vertexCount
       else startIndex + vertexCount * 2 - 1) rotateAngle }
  shapeOutlineEpilogue o cfg kind opts
    (if opts.isFilled then vertexCount else vertexCount * 2) false (store.set kind buf)

/-- Source Drawer::FillNGonData (lines 1398-1425): an optional center vertex
plus n points on the circle every 360/n degrees, UVs remapped against the
radius bounding box.  The for-loop with its count-based early return is the
first n values of the angle loop. -/
def fillNGonData (o : MathOracle) (hasCenter : Bool) (center : Vec2) (radius : ℚ)
    (n : ℤ) : List Vertex :=
  let angleIncrease := 360 / (n : ℚ)
  let bbMin : Vec2 := ⟨center.x - radius, center.y - radius⟩
  let bbMax : Vec2 := ⟨center.x + radius, center.y + radius⟩
  let centerV : List Vertex :=
    if hasCenter then
      [{ pos := center, uv := ⟨remapQ center.x bbMin.x bbMax.x 0 1,
          remapQ center.y bbMin.y bbMax.y 0 1⟩ }]
    else []
  centerV ++ ((qRange loopFuel 0 360 angleIncrease).take n.toNat).map fun i =>
    let p := getPointOnCircle o center radius i
    { pos := p, uv := ⟨remapQ p.x bbMin.x bbMax.x 0 1, remapQ p.y bbMin.y bbMax.y 0 1⟩ }

/-- Source Drawer::FillNGon_SC (lines 1309-1337). -/
def fillNGon_SC (o : MathOracle) (cfg : LinaVGConfig) (kind : BufKind)
    (rotateAngle : ℚ) (center : Vec2) (radius : ℚ) (n : ℤ) (color : Vec4)
    (opts : StyleOptions) (store : BufferStoreData) : BufferStoreData :=
  let v := fillNGonData o opts.isFilled center radius n
  let buf := store.get kind
  let startIndex := buf.vertexBuffer.length
  let buf := buf.pushVertexList (v.map fun vtx => { vtx with col := color })
  let nn := n.toNat
  let buf :=
    if opts.isFilled then buf.convexFill startIndex (startIndex + nn) false
    else
      convexExtrudeVertices o buf opts center startIndex (startIndex + nn - 1)
        opts.thickness.thickStart
  let buf := { buf with
    vertexBuffer := rotateVertices o buf.vertexBuffer center
      (if opts.isFilled then startIndex + 1 else startIndex)
      (if opts.isFilled then startIndex + nn else startIndex + nn * 2 - 1) rotateAngle }
  shapeOutlineEpilogue o cfg kind opts (if opts.isFilled then nn else nn * 2) false
    (store.set kind buf)

/-- Source Drawer::FillNGon_VerHorGra (lines 1339-1367): colors interpolated
from the vertex UV (u for horizontal, v for vertical). -/
def fillNGon_VerHorGra (o : MathOracle) (cfg : LinaVGConfig) (kind : BufKind)
    (rotateAngle : ℚ) (center : Vec2) (radius : ℚ) (n : ℤ)
    (colorStart colorEnd : Vec4) (isHor : Bool) (opts : StyleOptions)
    (store : BufferStoreData) : BufferStoreData :=
  let v := fillNGonData o opts.isFilled center radius n
  let buf := store.get kind
  let startIndex := buf.vertexBuffer.length
  let buf := buf.pushVertexList (v.map fun vtx =>
    { vtx with col := lerpV4 colorStart colorEnd (if isHor then vtx.uv.x else vtx.uv.y) })
  let nn := n.toNat
  let buf :=
    if opts.isFilled then buf.convexFill startIndex (startIndex + nn) false
    else
      convexExtrudeVertices o buf opts center startIndex (startIndex + nn - 1)
        opts.thickness.thickStart
  let buf := { buf with
    vertexBuffer := rotateVertices o buf.vertexBuffer center
      (if opts.isFilled then startIndex + 1 else startIndex)
      (if opts.isFilled then startIndex + nn else startIndex + nn * 2 - 1) rotateAngle }
  shapeOutlineEpilogue o cfg kind opts (if opts.isFilled then nn else nn * 2) false
    (store.set kind buf)

/-- Source Drawer::FillNGon_RadialGra (lines 1369-1396): vertices pushed
with default colors (the gradient buffer shades them). -/
def fillNGon_RadialGra (o : MathOracle) (cfg : LinaVGConfig) (kind : BufKind)
    (rotateAngle : ℚ) (center : Vec2) (radius : ℚ) (n : ℤ) (opts : StyleOptions)
    (store : BufferStoreData) : BufferStoreData :=
  let v := fillNGonData o opts.isFilled center radius n
  let buf := store.get kind
  let startIndex := buf.vertexBuffer.length
  let buf := buf.pushVertexList v
  let nn := n.toNat
  let buf :=
    if opts.isFilled then buf.convexFill startIndex (startIndex + nn) false
    else
      convexExtrudeVertices o buf opts center startIndex (startIndex + nn - 1)
        opts.thickness.thickStart
  let buf := { buf with
    vertexBuffer := rotateVertices o buf.vertexBuffer center
      (if opts.isFilled then startIndex + 1 else startIndex)
      (if opts.isFilled then startIndex + nn else startIndex + nn * 2 - 1) rotateAngle }
  shapeOutlineEpilogue o cfg kind opts (if opts.isFilled then nn else nn * 2) false
    (store.set kind buf)

/-- Source Drawer::FillCircleData (lines 1714-1753): negative angles wrapped
by +360, equal angles turned into the (360, 0) full-circle pair, segments
clamped to [6, 180], an optional center vertex, then one boundary vertex per
angle step from the start angle up to the end angle (extended by one step
for open arcs), with UVs remapped against the radius bounding box and the
color alpha set to one. -/
def fillCircleData (o : MathOracle) (hasCenter : Bool) (center : Vec2) (radius : ℚ)
    (segments : ℤ) (startAngle endAngle : ℚ) : List Vertex :=
  let startAngle := if startAngle < 0 then startAngle + 360 else startAngle
  let endAngle := if endAngle < 0 then endAngle + 360 else endAngle
  let p : ℚ × ℚ := if endAngle = startAngle then (360, 0) else (startAngle, endAngle)
  let startAngle := p.1
  let endAngle := p.2
  let segments := max 6 (min segments 180)
  let angleIncrease := 360 / (segments : ℚ)
  let bbMin : Vec2 := ⟨center.x - radius, center.y - radius⟩
  let bbMax : Vec2 := ⟨center.x + radius, center.y + radius⟩
  let centerV : List Vertex :=
    if hasCenter then
      [{ pos := center, uv := ⟨remapQ center.x bbMin.x bbMax.x 0 1,
          remapQ center.y bbMin.y bbMax.y 0 1⟩ }]
    else []
  let endv := if |startAngle - endAngle| = 360 then endAngle else endAngle + angleIncrease
  centerV ++ (qRange loopFuel startAngle endv angleIncrease).map fun i =>
    let pp := getPointOnCircle o center radius i
    {
      pos := pp
      uv := ⟨remapQ pp.x bbMin.x bbMax.x 0 1, remapQ pp.y bbMin.y bbMax.y 0 1⟩
      col := ⟨0, 0, 0, 1⟩ }

/-- Source: the outline/AA epilogue of the three FillCircle variants
(for example lines 1450-1520): full circles use the plain DrawOutline; open
arcs outline around an explicit index order (the single-color and
vertical/horizontal variants walk the boundary ascending with ccw set, the
radial variant walks it descending with ccw clear, selected here by the
descendingFilled flag), or fall back to DrawOutline with skipEnds for
one-sided stroked arcs. -/
def circleOutlineEpilogue (o : MathOracle) (cfg : LinaVGConfig) (kind : BufKind)
    (opts : StyleOptions) (isFullCircle : Bool) (totalSize vSize startIndex : Nat)
    (descendingFilled : Bool) (store : BufferStoreData) : BufferStoreData :=
  if ¬isEqualMarg o.eps opts.outlineOptions.thickness 0 then
    if isFullCircle then
      (drawOutline o cfg kind opts
        (if opts.isFilled then totalSize else (totalSize + 1) * 2) (!isFullCircle)
        store).2
    else
      if opts.isFilled then
        if descendingFilled then
          let indices := ((List.range vSize).reverse).map (startIndex + ·)
          (drawOutlineAroundShape o cfg kind opts indices vSize
            opts.outlineOptions.thickness false store).2
        else
          let indices := (List.range vSize).map (startIndex + ·)
          (drawOutlineAroundShape o cfg kind opts indices vSize
            opts.outlineOptions.thickness true store).2
      else if opts.outlineOptions.drawDirection = .both then
        let halfSize := vSize
        let indices := (List.range halfSize).map (startIndex + ·) ++
          ((List.range' halfSize halfSize).reverse).map (startIndex + ·)
        (drawOutlineAroundShape o cfg kind opts indices (halfSize * 2)
          opts.outlineOptions.thickness false store).2
      else
        (drawOutline o cfg kind opts
          (if opts.isFilled then totalSize else (totalSize + 1) * 2) (!isFullCircle)
          store).2
  else if opts.aaEnabled then
    let opts2 := { opts with outlineOptions := OutlineOptions.fromStyle opts.color .both }
    if opts.isFilled then
      if isFullCircle then
        -- Source quirk: this AA call passes opts, not opts2.
        (drawOutlineNN o cfg kind opts
          (if opts.isFilled then totalSize else (totalSize + 1) * 2) (!isFullCircle)
          .aa false store).2
      else
        let indices := (List.range vSize).map (startIndex + ·)
        (drawOutlineAroundShapeNN o cfg kind opts2 indices vSize
          opts2.outlineOptions.thickness true .aa store).2
    else if opts.outlineOptions.drawDirection = .both then
      let halfSize := vSize
      let indices := (List.range halfSize).map (startIndex + ·) ++
        ((List.range' halfSize halfSize).reverse).map (startIndex + ·)
      (drawOutlineAroundShapeNN o cfg kind opts2 indices (halfSize * 2)
        opts2.outlineOptions.thickness false .aa store).2
    else
      (drawOutlineNN o cfg kind opts2
        (if opts2.isFilled then totalSize else (totalSize + 1) * 2) (!isFullCircle)
        .aa false store).2
  else store

/-- Source Drawer::FillCircle_SC (lines 1427-1521). -/
def fillCircle_SC (o : MathOracle) (cfg : LinaVGConfig) (kind : BufKind)
    (rotateAngle : ℚ) (center : Vec2) (radius : ℚ) (segments : ℤ) (color : Vec4)
    (startAngle endAngle : ℚ) (opts : StyleOptions) (store : BufferStoreData) :
    BufferStoreData :=
  let v := fillCircleData o opts.isFilled center radius segments startAngle endAngle
  let buf := store.get kind
  let startIndex := buf.vertexBuffer.length
  let buf := buf.pushVertexList (v.map fun vtx => { vtx with col := color })
  let isFullCircle : Bool := |endAngle - startAngle| = 360
  let totalSize := v.length - 1
  let buf :=
    if opts.isFilled then buf.convexFill startIndex (startIndex + totalSize) (!isFullCircle)
    else
      convexExtrudeVertices o buf opts center startIndex (startIndex + totalSize)
        opts.thickness.thickStart (!isFullCircle)
  let buf := { buf with
    vertexBuffer := rotateVertices o buf.vertexBuffer center
      (if opts.isFilled then startIndex + 1 else startIndex)
      (if opts.isFilled then startIndex + totalSize
       else startIndex + totalSize * 2 + 1) rotateAngle }
  circleOutlineEpilogue o cfg kind opts isFullCircle totalSize v.length startIndex false
    (store.set kind buf)

/-- Source Drawer::FillCircle_VerHorGra (lines 1523-1615). -/
def fillCircle_VerHorGra (o : MathOracle) (cfg : LinaVGConfig) (kind : BufKind)
    (rotateAngle : ℚ) (center : Vec2) (radius : ℚ) (segments : ℤ)
    (colorStart colorEnd : Vec4) (isHor : Bool) (startAngle endAngle : ℚ)
    (opts : StyleOptions) (store : BufferStoreData) : BufferStoreData :=
  let v := fillCircleData o opts.isFilled center radius segments startAngle endAngle
  let buf := store.get kind
  let startIndex := buf.vertexBuffer.length
  let buf := buf.pushVertexList (v.map fun vtx =>
    { vtx with col := lerpV4 colorStart colorEnd (if isHor then vtx.uv.x else vtx.uv.y) })
  let isFullCircle : Bool := |endAngle - startAngle| = 360
  let totalSize := v.length - 1
  let buf :=
    if opts.isFilled then buf.convexFill startIndex (startIndex + totalSize) (!isFullCircle)
    else
      convexExtrudeVertices o buf opts center startIndex (startIndex + totalSize)
        opts.thickness.thickStart (!isFullCircle)
  let buf := { buf with
    vertexBuffer := rotateVertices o buf.vertexBuffer center
      (if opts.isFilled then startIndex + 1 else startIndex)
      (if opts.isFilled then startIndex + totalSize
       else startIndex + totalSize * 2 + 1) rotateAngle }
  circleOutlineEpilogue o cfg kind opts isFullCircle totalSize v.length startIndex false
    (store.set kind buf)

/-- Source Drawer::FillCircle_RadialGra (lines 1617-1712): the first vertex
takes the gradient start color, every other vertex the end color; the
filled open-arc outline walks the boundary descending. -/
def fillCircle_RadialGra (o : MathOracle) (cfg : LinaVGConfig) (kind : BufKind)
    (rotateAngle : ℚ) (center : Vec2) (radius : ℚ) (segments : ℤ)
    (startAngle endAngle : ℚ) (opts : StyleOptions) (store : BufferStoreData) :
    BufferStoreData :=
  let v := fillCircleData o opts.isFilled center radius segments startAngle endAngle
  let buf := store.get kind
  let startIndex := buf.vertexBuffer.length
  let buf := buf.pushVertexList (v.mapIdx fun i vtx =>
    { vtx with col := if i = 0 then opts.color.gradStart else opts.color.gradEnd })
  let isFullCircle : Bool := |endAngle - startAngle| = 360
  let totalSize := v.length - 1
  let buf :=
    if opts.isFilled then buf.convexFill startIndex (startIndex + totalSize) (!isFullCircle)
    else
      convexExtrudeVertices o buf opts center startIndex (startIndex + totalSize)
        opts.thickness.thickStart (!isFullCircle)
  let buf := { buf with
    vertexBuffer := rotateVertices o buf.vertexBuffer center
      (if opts.isFilled then startIndex + 1 else startIndex)
      (if opts.isFilled then startIndex + totalSize
       else startIndex + totalSize * 2 + 1) rotateAngle }
  circleOutlineEpilogue o cfg kind opts isFullCircle totalSize v.length startIndex true
    (store.set kind buf)

/-- Source Drawer::FillConvex_SC (lines 1755-1797): an optional center
vertex and the corner points, UVs remapped against the point bounding box,
all in one color. -/
def fillConvex_SC (o : MathOracle) (cfg : LinaVGConfig) (kind : BufKind)
    (rotateAngle : ℚ) (points : List Vec2) (size : Nat) (center : Vec2) (color : Vec4)
    (opts : StyleOptions) (store : BufferStoreData) : BufferStoreData :=
  let buf := store.get kind
  let startIndex := buf.vertexBuffer.length
  let bb := getConvexBoundingBoxPts points
  let buf :=
    if opts.isFilled then
      buf.pushVertex {
        pos := center
        uv := ⟨remapQ center.x bb.1.x bb.2.x 0 1, remapQ center.y bb.1.y bb.2.y 0 1⟩
        col := color }
    else buf
  let buf := buf.pushVertexList (points.map fun p =>
    {
      pos := p
      uv := ⟨remapQ p.x bb.1.x bb.2.x 0 1, remapQ p.y bb.1.y bb.2.y 0 1⟩
      col := color })
  let buf :=
    if opts.isFilled then buf.convexFill startIndex (startIndex + size) false
    else
      convexExtrudeVertices o buf opts center startIndex (startIndex + size - 1)
        opts.thickness.thickStart
  let buf := { buf with
    vertexBuffer := rotateVertices o buf.vertexBuffer center
      (if opts.isFilled then startIndex + 1 else startIndex)
      (if opts.isFilled then startIndex + size else startIndex + size * 2 - 1)
      rotateAngle }
  shapeOutlineEpilogue o cfg kind opts (if opts.isFilled then size else size * 2) false
    (store.set kind buf)

/-- Source Drawer::FillConvex_VerHorGra (lines 1799-1841): corner colors
interpolated from the remapped UV; the center takes the midpoint color. -/
def fillConvex_VerHorGra (o : MathOracle) (cfg : LinaVGConfig) (kind : BufKind)
    (rotateAngle : ℚ) (points : List Vec2) (size : Nat) (center : Vec2)
    (colorStart colorEnd : Vec4) (isHor : Bool) (opts : StyleOptions)
    (store : BufferStoreData) : BufferStoreData :=
  let buf := store.get kind
  let startIndex := buf.vertexBuffer.length
  let bb := getConvexBoundingBoxPts points
  let buf :=
    if opts.isFilled then
      buf.pushVertex {
        pos := center
        uv := ⟨remapQ center.x bb.1.x bb.2.x 0 1, remapQ center.y bb.1.y bb.2.y 0 1⟩
        col := lerpV4 colorStart colorEnd (1/2) }
    else buf
  let buf := buf.pushVertexList (points.map fun p =>
    let uv : Vec2 := ⟨remapQ p.x bb.1.x bb.2.x 0 1, remapQ p.y bb.1.y bb.2.y 0 1⟩
    {
      pos := p
      uv := uv
      col := lerpV4 colorStart colorEnd (if isHor then uv.x else uv.y) })
  let buf :=
    if opts.isFilled then buf.convexFill startIndex (startIndex + size) false
    else
      convexExtrudeVertices o buf opts center startIndex (startIndex + size - 1)
        opts.thickness.thickStart
  let buf := { buf with
    vertexBuffer := rotateVertices o buf.vertexBuffer center
      (if opts.isFilled then startIndex + 1 else startIndex)
      (if opts.isFilled then startIndex + size else startIndex + size * 2 - 1)
      rotateAngle }
  shapeOutlineEpilogue o cfg kind opts (if opts.isFilled then size else size * 2) false
    (store.set kind buf)

/-- Source Drawer::FillConvex_RadialGra (lines 1843-1884): vertices pushed
with default colors (the gradient buffer shades them). -/
def fillConvex_RadialGra (o : MathOracle) (cfg : LinaVGConfig) (kind : BufKind)
    (rotateAngle : ℚ) (points : List Vec2) (size : Nat) (center : Vec2)
    (opts : StyleOptions) (store : BufferStoreData) : BufferStoreData :=
  let buf := store.get kind
  let startIndex := buf.vertexBuffer.length
  let bb := getConvexBoundingBoxPts points
  let buf :=
    if opts.isFilled then
      buf.pushVertex {
        pos := center
        uv := ⟨remapQ center.x bb.1.x bb.2.x 0 1, remapQ center.y bb.1.y bb.2.y 0 1⟩ }
    else buf
  let buf := buf.pushVertexList (points.map fun p =>
    { pos := p, uv := ⟨remapQ p.x bb.1.x bb.2.x 0 1, remapQ p.y bb.1.y bb.2.y 0 1⟩ })
  let buf :=
    if opts.isFilled then buf.convexFill startIndex (startIndex + size) false
    else
      convexExtrudeVertices o buf opts center startIndex (startIndex + size - 1)
        opts.thickness.thickStart
  let buf := { buf with
    vertexBuffer := rotateVertices o buf.vertexBuffer center
      (if opts.isFilled then startIndex + 1 else startIndex)
      (if opts.isFilled then startIndex + size else startIndex + size * 2 - 1)
      rotateAngle }
  shapeOutlineEpilogue o cfg kind opts (if opts.isFilled then size else size * 2) false
    (store.set kind buf)

/-- Buffer-kind resolution of the non-radial dispatch branches: the default
buffer, or the texture buffer when a texture handle is set.  Modelled from
the spec for the store side; the conditions are from the source dispatch. -/
def plainKind (style : StyleOptions) : BufKind :=
  if style.textureHandle = 0 then .default else .textured

/-- Buffer-kind resolution of the radial dispatch branches: the gradient
buffer, or the texture buffer when a texture handle is set. -/
def radialKind (style : StyleOptions) : BufKind :=
  if style.textureHandle = 0 then .gradient else .textured

/-- Source Drawer::DrawRect (lines 404-498): dispatch on rounding within the
margin, solid color versus gradient, gradient type and texture handle. -/
def drawRect (o : MathOracle) (cfg : LinaVGConfig) (bbMin bbMax : Vec2)
    (style : StyleOptions) (rotateAngle : ℚ) (st : DrawerState) : DrawerState :=
  let store := st.store
  let store :=
    if isEqualMarg o.eps style.rounding 0 then
      if isEqualVec4 style.color.gradStart style.color.gradEnd then
        fillRect_NoRound_SC o cfg (plainKind style) rotateAngle bbMin bbMax
          style.color.gradStart style store
      else
        match style.color.gradientType with
        | .horizontal =>
          fillRect_NoRound_VerHorGra o cfg (plainKind style) rotateAngle bbMin bbMax
            style.color.gradStart style.color.gradEnd style.color.gradEnd
            style.color.gradStart style store
        | .vertical =>
          fillRect_NoRound_VerHorGra o cfg (plainKind style) rotateAngle bbMin bbMax
            style.color.gradStart style.color.gradStart style.color.gradEnd
            style.color.gradEnd style store
        | .radial =>
          fillRect_NoRound_RadialGra o cfg (radialKind style) rotateAngle bbMin bbMax
            style store
        | .radialCorner =>
          fillRect_NoRound_RadialGra o cfg (radialKind style) rotateAngle bbMin bbMax
            style store
    else
      if isEqualVec4 style.color.gradStart style.color.gradEnd then
        fillRect_Round o cfg (plainKind style) style.onlyRoundTheseCorners rotateAngle
          bbMin bbMax style.color.gradStart style.rounding style store
      else
        fillRect_Round o cfg (radialKind style) style.onlyRoundTheseCorners rotateAngle
          bbMin bbMax style.color.gradStart style.rounding style store
  { st with store := store }

/-- Source Drawer::DrawNGon (lines 500-551): dispatch on solid color versus
gradient, gradient type and texture handle.  There is no validation of the
corner count n. -/
def drawNGon (o : MathOracle) (cfg : LinaVGConfig) (center : Vec2) (radius : ℚ)
    (n : ℤ) (style : StyleOptions) (rotateAngle : ℚ) (st : DrawerState) : DrawerState :=
  let store := st.store
  let store :=
    if isEqualVec4 style.color.gradStart style.color.gradEnd then
      fillNGon_SC o cfg (plainKind style) rotateAngle center radius n
        style.color.gradStart style store
    else
      match style.color.gradientType with
      | .horizontal =>
        fillNGon_VerHorGra o cfg (plainKind style) rotateAngle center radius n
          style.color.gradStart style.color.gradEnd true style store
      | .vertical =>
        fillNGon_VerHorGra o cfg (plainKind style) rotateAngle center radius n
          style.color.gradStart style.color.gradEnd false style store
      | .radial =>
        fillNGon_RadialGra o cfg (radialKind style) rotateAngle center radius n
          style store
      | .radialCorner =>
        fillNGon_RadialGra o cfg (radialKind style) rotateAngle center radius n
          style store
  { st with store := store }

/-- Source Drawer::DrawConvex (lines 553-613): fewer than 3 corners is
rejected through the error callback with no geometry emitted; otherwise
dispatch as the other shapes, with the centroid as the fast average of the
corners. -/
def drawConvex (o : MathOracle) (cfg : LinaVGConfig) (points : List Vec2)
    (style : StyleOptions) (rotateAngle : ℚ) (st : DrawerState) : DrawerState :=
  let size := points.length
  if size < 3 then reportError cfg st
  else
    let avgCenter := getPolygonCentroidFast points
    let store := st.store
    let store :=
      if isEqualVec4 style.color.gradStart style.color.gradEnd then
        fillConvex_SC o cfg (plainKind style) rotateAngle points size avgCenter
          style.color.gradStart style store
      else
        match style.color.gradientType with
        | .horizontal =>
          fillConvex_VerHorGra o cfg (plainKind style) rotateAngle points size avgCenter
            style.color.gradStart style.color.gradEnd true style store
        | .vertical =>
          fillConvex_VerHorGra o cfg (plainKind style) rotateAngle points size avgCenter
            style.color.gradStart style.color.gradEnd false style store
        | .radial =>
          fillConvex_RadialGra o cfg (radialKind style) rotateAngle points size avgCenter
            style store
        | .radialCorner =>
          fillConvex_RadialGra o cfg (radialKind style) rotateAngle points size avgCenter
            style store
    { st with store := store }

/-- Source Drawer::DrawCircle (lines 615-670): a start angle equal to the
end angle is turned into the full range [startAngle, startAngle + 360], then
dispatch as the other shapes.  There is no validation of the segment count
(FillCircleData clamps it into [6, 180]). -/
def drawCircle (o : MathOracle) (cfg : LinaVGConfig) (center : Vec2) (radius : ℚ)
    (style : StyleOptions) (segments : ℤ) (rotateAngle startAngle endAngle : ℚ)
    (st : DrawerState) : DrawerState :=
  let endAngle := if startAngle = endAngle then startAngle + 360 else endAngle
  let store := st.store
  let store :=
    if isEqualVec4 style.color.gradStart style.color.gradEnd then
      fillCircle_SC o cfg (plainKind style) rotateAngle center radius segments
        style.color.gradStart startAngle endAngle style store
    else
      match style.color.gradientType with
      | .horizontal =>
        fillCircle_VerHorGra o cfg (plainKind style) rotateAngle center radius segments
          style.color.gradStart style.color.gradEnd true startAngle endAngle style store
      | .vertical =>
        fillCircle_VerHorGra o cfg (plainKind style) rotateAngle center radius segments
          style.color.gradStart style.color.gradEnd false startAngle endAngle style store
      | .radial =>
        fillCircle_RadialGra o cfg (radialKind style) rotateAngle center radius segments
          startAngle endAngle style store
      | .radialCorner =>
        fillCircle_RadialGra o cfg (radialKind style) rotateAngle center radius segments
          startAngle endAngle style store
  { st with store := store }

/-- Source struct LineTriangle: one triangle of line-local vertex indices. -/
structure LineTriangle where
  i0 : Nat := 0
  i1 : Nat := 0
  i2 : Nat := 0
deriving DecidableEq, Repr

/-- Source struct Line: the transient per-segment working data of the
polyline engine (vertices, the upper and lower boundary index lists used to
build outlines, the fill triangles, and the cap bookkeeping). -/
structure Line where
  vertices : List Vertex := []
  upperIndices : List Nat := []
  lowerIndices : List Nat := []
  tris : List LineTriangle := []
  hasMidpoints : Bool := false
  lineCapVertexCount : Nat := 0
deriving DecidableEq, Repr

/-- Write the position of one line vertex (the C++ pattern
line.m_vertices[i].pos = p). -/
def Line.setVtxPos (l : Line) (i : Nat) (p : Vec2) : Line :=
  { l with vertices := l.vertices.set i { vlGet l.vertices i with pos := p } }

/-- Source struct SimpleLine: the four raw corner points (m_points[0..3]). -/
structure SimpleLine where
  points : List Vec2
deriving DecidableEq, Repr

/-- Source Drawer::CalculateSimpleLine (lines 2334-2344): the four corners
of a single unrounded segment quad. -/
def calculateSimpleLine (o : MathOracle) (p1 p2 : Vec2) (style : StyleOptions) :
    SimpleLine :=
  let up := normalizedO o (rotate90 ⟨p2.x - p1.x, p2.y - p1.y⟩ true)
  { points :=
      [⟨p1.x + up.x * style.thickness.thickStart / 2,
        p1.y + up.y * style.thickness.thickStart / 2⟩,
       ⟨p2.x + up.x * style.thickness.thickEnd / 2,
        p2.y + up.y * style.thickness.thickEnd / 2⟩,
       ⟨p2.x - up.x * style.thickness.thickEnd / 2,
        p2.y - up.y * style.thickness.thickEnd / 2⟩,
       ⟨p1.x - up.x * style.thickness.thickStart / 2,
        p1.y - up.y * style.thickness.thickStart / 2⟩] }

/-- Source Drawer::CalculateLine (lines 2172-2332): the segment quad
(v0 start-up, v1 end-up, v2 end-down, v3 start-down), the upper/lower
boundary index lists, the two fill triangles, and, when an end cap is
requested, the midpoint vertices, the parabola cap vertices with their
classification into the upper or lower boundary, and the cap triangles. -/
def calculateLine (o : MathOracle) (p1 p2 : Vec2) (style : StyleOptions)
    (lineCapToAdd : LineCapDirection) : Line :=
  let up := normalizedO o (rotate90 ⟨p2.x - p1.x, p2.y - p1.y⟩ true)
  let v0 : Vertex := { pos := ⟨p1.x + up.x * style.thickness.thickStart / 2,
      p1.y + up.y * style.thickness.thickStart / 2⟩, col := style.color.gradStart }
  let v3 : Vertex := { pos := ⟨p1.x - up.x * style.thickness.thickStart / 2,
      p1.y - up.y * style.thickness.thickStart / 2⟩, col := style.color.gradStart }
  let v1 : Vertex := { pos := ⟨p2.x + up.x * style.thickness.thickEnd / 2,
      p2.y + up.y * style.thickness.thickEnd / 2⟩, col := style.color.gradEnd }
  let v2 : Vertex := { pos := ⟨p2.x - up.x * style.thickness.thickEnd / 2,
      p2.y - up.y * style.thickness.thickEnd / 2⟩, col := style.color.gradEnd }
  let baseVertices := [v0, v1, v2, v3]
  let upRaw : Vec2 := ⟨v0.pos.x - v3.pos.x, v0.pos.y - v3.pos.y⟩
  let willAddLineCap := lineCapToAdd = .left ∨ lineCapToAdd = .right
  if willAddLineCap then
    let vmLeft : Vertex := { pos := lerpV2 v0.pos v3.pos (1/2), col := style.color.gradStart }
    let vmRight : Vertex := { pos := lerpV2 v1.pos v2.pos (1/2), col := style.color.gradEnd }
    let vertices := baseVertices ++ [vmLeft, vmRight]
    let upVtx := if lineCapToAdd = .left then v0 else v1
    let downVtx := if lineCapToAdd = .left then v3 else v2
    let increase := remapQ style.rounding 0 1 (2/5) (1/10)
    let radius := magO o upRaw / 2 * (3/5)
    let dir := rotate90 up (lineCapToAdd = .left)
    let capAcc :=
      (qRange loopFuel (0 + increase) 1 increase).foldl
        (fun (acc : List Vertex × List Nat × List Nat) k =>
          let p := o.sampleParabola upVtx.pos downVtx.pos dir radius k
          let v : Vertex :=
            { pos := p,
              col := if lineCapToAdd = .left then style.color.gradStart
                     else style.color.gradEnd }
          let verts := acc.1 ++ [v]
          let idx := verts.length - 1
          let distToUp := magO o ⟨upVtx.pos.x - p.x, upVtx.pos.y - p.y⟩
          let distToDown := magO o ⟨downVtx.pos.x - p.x, downVtx.pos.y - p.y⟩
          if distToUp < distToDown then (verts, acc.2.1 ++ [idx], acc.2.2)
          else (verts, acc.2.1, acc.2.2 ++ [idx]))
        (vertices, [], [])
    let vertices := capAcc.1
    let upperParabolaPoints := capAcc.2.1
    let lowerParabolaPoints := capAcc.2.2
    let lineCapVertexCount := vertices.length - 6
    let upperIndices :=
      if lineCapToAdd = .left then upperParabolaPoints.reverse ++ [0, 1]
      else [0, 1] ++ upperParabolaPoints
    let lowerIndices :=
      if lineCapToAdd = .left then lowerParabolaPoints ++ [3, 2]
      else [3, 2] ++ lowerParabolaPoints.reverse
    let baseTris : List LineTriangle :=
      [⟨0, 1, 4⟩, ⟨1, 4, 5⟩, ⟨4, 5, 3⟩, ⟨5, 2, 3⟩]
    let middleIndex := if lineCapToAdd = .left then 4 else 5
    let upperIndex := if lineCapToAdd = .left then 0 else 1
    let lowerIndex := if lineCapToAdd = .left then 3 else 2
    let capTris : List LineTriangle :=
      [⟨upperIndex, 6, middleIndex⟩, ⟨lowerIndex, vertices.length - 1, middleIndex⟩]
    let fanTris : List LineTriangle :=
      (List.range' 6 (vertices.length - 1 - 6)).map fun i => ⟨i, i + 1, middleIndex⟩
    { vertices := vertices
      upperIndices := upperIndices
      lowerIndices := lowerIndices
      tris := baseTris ++ capTris ++ fanTris
      hasMidpoints := true
      lineCapVertexCount := lineCapVertexCount }
  else
    { vertices := baseVertices
      upperIndices := [0, 1]
      lowerIndices := [3, 2]
      tris := [⟨0, 1, 3⟩, ⟨1, 2, 3⟩] }

/-- Source Drawer::JoinLines (lines 2346-2511): join two adjacent segments
with the given joint type.  Vertex averaging and miter merge the shared
corners (moving positions only); bevel adds one vertex and one closing
triangle; round-bevel additionally fans an arc of vertices sampled every
remap(rounding, 0, 1, 45, 6) degrees from the intersection center. -/
def joinLines (o : MathOracle) (line1 line2 : Line) (opts : StyleOptions)
    (jointType : LineJointType) (mergeUpperVertices : Bool) : Line × Line :=
  let addUpperLowerIndices :=
    opts.aaEnabled ∨ ¬isEqualMarg o.eps opts.outlineOptions.thickness 0
  let lv1 := fun i => vlGet line1.vertices i
  let lv2 := fun i => vlGet line2.vertices i
  match jointType with
  | .vtxAverage =>
    let upperAvg : Vec2 := ⟨((lv1 1).pos.x + (lv2 0).pos.x) / 2,
      ((lv1 1).pos.y + (lv2 0).pos.y) / 2⟩
    let lowerAvg : Vec2 := ⟨((lv1 2).pos.x + (lv2 3).pos.x) / 2,
      ((lv1 2).pos.y + (lv2 3).pos.y) / 2⟩
    let line1 := (line1.setVtxPos 1 upperAvg).setVtxPos 2 lowerAvg
    let line2 := (line2.setVtxPos 0 upperAvg).setVtxPos 3 lowerAvg
    let line2 :=
      if addUpperLowerIndices then
        { line2 with upperIndices := line2.upperIndices.erase 0,
                     lowerIndices := line2.lowerIndices.erase 3 }
      else line2
    (line1, line2)
  | .miter =>
    let upperIntersection := lineIntersection (lv1 0).pos (lv1 1).pos (lv2 0).pos (lv2 1).pos
    let lowerIntersection := lineIntersection (lv1 3).pos (lv1 2).pos (lv2 3).pos (lv2 2).pos
    let line1 := (line1.setVtxPos 1 upperIntersection).setVtxPos 2 lowerIntersection
    let line2 := (line2.setVtxPos 0 upperIntersection).setVtxPos 3 lowerIntersection
    let line2 :=
      if addUpperLowerIndices then
        { line2 with upperIndices := line2.upperIndices.erase 0,
                     lowerIndices := line2.lowerIndices.erase 3 }
      else line2
    (line1, line2)
  | .bevel =>
    let i0 := if mergeUpperVertices then 0 else 3
    let i1 := if mergeUpperVertices then 1 else 2
    let i2 := if mergeUpperVertices then 2 else 1
    let i3 := if mergeUpperVertices then 3 else 0
    let line2 :=
      if addUpperLowerIndices then
        if mergeUpperVertices then
          { line2 with upperIndices := line2.upperIndices.erase 0 }
        else
          { line2 with lowerIndices := line2.lowerIndices.erase 3 }
      else line2
    let inter := lineIntersection (lv1 i0).pos (lv1 i1).pos (lv2 i0).pos (lv2 i1).pos
    let line1 := line1.setVtxPos i1 inter
    let line2 := line2.setVtxPos i0 inter
    let vLowIndex := line1.vertices.length
    let vLow : Vertex := { pos := (vlGet line2.vertices i3).pos, col := opts.color.gradStart }
    let line1 := { line1 with vertices := line1.vertices ++ [vLow],
                              tris := line1.tris ++ [⟨i1, i2, vLowIndex⟩] }
    (line1, line2)
  | .bevelRound =>
    let i0 := if mergeUpperVertices then 0 else 3
    let i1 := if mergeUpperVertices then 1 else 2
    let i2 := if mergeUpperVertices then 2 else 1
    let i3 := if mergeUpperVertices then 3 else 0
    let upperIntersection := lineIntersection (lv1 i0).pos (lv1 i1).pos (lv2 i0).pos (lv2 i1).pos
    let lowerIntersection := lineIntersection (lv1 i3).pos (lv1 i2).pos (lv2 i3).pos (lv2 i2).pos
    let intersectionCenter : Vec2 := ⟨(upperIntersection.x + lowerIntersection.x) / 2,
      (upperIntersection.y + lowerIntersection.y) / 2⟩
    let ang2 := o.getAngleFromCenter intersectionCenter (lv1 i2).pos
    let ang1 := o.getAngleFromCenter intersectionCenter (lv2 i3).pos
    let startAngle := if ang2 > ang1 then ang1 else ang2
    let endAngle := if ang2 > ang1 then ang2 else ang1
    let arcRad := magO o ⟨(lv1 i2).pos.x - intersectionCenter.x,
      (lv1 i2).pos.y - intersectionCenter.y⟩
    let line1 := line1.setVtxPos i1 upperIntersection
    let line2 := line2.setVtxPos i0 upperIntersection
    let line2 :=
      if addUpperLowerIndices then
        if mergeUpperVertices then
          { line2 with upperIndices := line2.upperIndices.erase 0 }
        else
          { line2 with lowerIndices := line2.lowerIndices.erase 3 }
      else line2
    let vLowIndex := line1.vertices.length
    let vLow : Vertex := { pos := (vlGet line2.vertices i3).pos, col := opts.color.gradStart }
    let line1 := { line1 with vertices := line1.vertices ++ [vLow] }
    let increase := remapQ opts.rounding 0 1 45 6
    let parabolaStart := line1.vertices.length
    let arcPoints := (qRange loopFuel (startAngle + increase) endAngle increase).map
      fun k => getPointOnCircle o intersectionCenter arcRad k
    let indicesToAdd := List.range' parabolaStart arcPoints.length
    let arcVerts := arcPoints.map fun p => ({ pos := p, col := opts.color.gradStart } : Vertex)
    let line1 := { line1 with vertices := line1.vertices ++ arcVerts }
    let line1 :=
      if addUpperLowerIndices then
        if mergeUpperVertices then
          { line1 with lowerIndices := line1.lowerIndices ++
              (if ang1 > ang2 then indicesToAdd else indicesToAdd.reverse) }
        else
          { line1 with upperIndices := line1.upperIndices ++
              (if ang1 > ang2 then indicesToAdd else indicesToAdd.reverse) }
      else line1
    let lastIndex := line1.vertices.length - 1
    let tri1 : LineTriangle := ⟨i1, i2, if ang1 > ang2 then parabolaStart else lastIndex⟩
    let tri2 : LineTriangle := ⟨i1, vLowIndex, if ang1 > ang2 then lastIndex else parabolaStart⟩
    let fanTris : List LineTriangle :=
      (List.range' parabolaStart (line1.vertices.length - 1 - parabolaStart)).map
        fun i => ⟨i1, i, i + 1⟩
    let line1 := { line1 with tris := line1.tris ++ [tri1, tri2] ++ fanTris }
    (line1, line2)

/-- Source Drawer::DrawLines lines 165-180: the joint-type selection with
fallbacks.  The mutable usedJointType of the source starts as the requested
type; below 15 degrees (strictly) it becomes vertex averaging; otherwise a
miter beyond the miter limit becomes round-bevel, and a requested
round-bevel with rounding zero within the margin becomes plain bevel (the
second test reads the requested type, so a degraded miter never reaches
plain bevel). -/
def selectJointType (jointType : LineJointType) (angle miterLimit rounding eps : ℚ) :
    LineJointType :=
  if jointType ≠ .vtxAverage then
    if |angle| < 15 then .vtxAverage
    else
      let u1 := if jointType = .miter ∧ |angle| > miterLimit then .bevelRound else jointType
      let u2 := if jointType = .bevelRound ∧ isEqualMarg eps rounding 0 then .bevel else u1
      u2
  else jointType

/-- Source Drawer::DrawLines lines 151-189 (one iteration of the joint
loop): parallel lower edges drop the duplicated shared boundary indices of
the next segment and insert no joint; otherwise the joint type selected by
selectJointType is applied by JoinLines, merging lower vertices when the
signed angle is positive. -/
def drawLinesJointStep (o : MathOracle) (cfg : LinaVGConfig) (style : StyleOptions)
    (jointType : LineJointType) (curr next : Line) : Line × Line :=
  let currDir := normalizedO o ⟨(vlGet curr.vertices 2).pos.x - (vlGet curr.vertices 3).pos.x,
    (vlGet curr.vertices 2).pos.y - (vlGet curr.vertices 3).pos.y⟩
  let nextDir := normalizedO o ⟨(vlGet next.vertices 2).pos.x - (vlGet next.vertices 3).pos.x,
    (vlGet next.vertices 2).pos.y - (vlGet next.vertices 3).pos.y⟩
  if ¬areLinesParallel o.eps (vlGet curr.vertices 3).pos (vlGet curr.vertices 2).pos
      (vlGet next.vertices 3).pos (vlGet next.vertices 2).pos then
    let angle := o.getAngleBetweenDirs currDir nextDir
    let usedJointType := selectJointType jointType angle cfg.miterLimit style.rounding o.eps
    joinLines o curr next style usedJointType (angle < 0)
  else
    (curr, { next with upperIndices := next.upperIndices.erase 0,
                       lowerIndices := next.lowerIndices.erase 3 })

/-- Source Drawer::DrawLines (lines 98-291): fewer than 3 points is rejected
through the error callback with no geometry; otherwise one Line per segment
with linearly tapered thickness, the joint pass, the bounding-box UV
recompute over all line vertices, the flush of vertices and buffer-local
triangle indices into the destination buffer, and the outline or AA pass
around the accumulated lower plus reversed upper boundary indices. -/
def drawLines (o : MathOracle) (cfg : LinaVGConfig) (points : List Vec2)
    (opts : StyleOptions) (cap : LineCapDirection) (jointType : LineJointType)
    (st : DrawerState) : DrawerState :=
  let count := points.length
  if count < 3 then reportError cfg st
  else
    let style := { opts with isFilled := true }
    let useTextureBuffer := style.textureHandle ≠ 0
    let isGradient := ¬isEqualVec4 style.color.gradStart style.color.gradEnd
    let useGradBuffer := ¬useTextureBuffer ∧ isGradient
    let destKind :=
      if useTextureBuffer then BufKind.textured
      else if useGradBuffer then BufKind.gradient
      else BufKind.default
    let lines := (List.range (count - 1)).map fun i =>
      let usedCapDir :=
        if i = 0 ∧ (cap = .left ∨ cap = .both) then LineCapDirection.left
        else if i = count - 2 ∧ (cap = .right ∨ cap = .both) then LineCapDirection.right
        else LineCapDirection.none
      let t : ℚ := (i : ℚ) / ((count - 1 : Nat) : ℚ)
      let t2 : ℚ := ((i + 1 : Nat) : ℚ) / ((count - 1 : Nat) : ℚ)
      let segStyle := { style with thickness :=
        ⟨lerpQ opts.thickness.thickStart opts.thickness.thickEnd t,
         lerpQ opts.thickness.thickStart opts.thickness.thickEnd t2⟩ }
      calculateLine o (points.getD i ⟨0, 0⟩) (points.getD (i + 1) ⟨0, 0⟩) segStyle
        usedCapDir
    let lines := (List.range (lines.length - 1)).foldl
      (fun ls i =>
        let r := drawLinesJointStep o cfg style jointType (ls.getD i {}) (ls.getD (i + 1) {})
        (ls.set i r.1).set (i + 1) r.2)
      lines
    let vertices := lines.flatMap (·.vertices)
    let bb := getConvexBoundingBoxVtx vertices
    let lines := lines.map fun l =>
      let uvVerts := l.vertices.map fun v =>
        { v with uv := ⟨remapQ v.pos.x bb.1.x bb.2.x 0 1,
            remapQ v.pos.y bb.1.y bb.2.y 0 1⟩ }
      { l with vertices := uvVerts }
    let destBuf := st.store.get destKind
    let drawBufferStartBeforeLines := destBuf.vertexBuffer.length
    let destBuf := lines.foldl
      (fun b l =>
        let destBufStart := b.vertexBuffer.length
        let b := b.pushVertexList l.vertices
        b.pushIndexList (l.tris.flatMap fun t =>
          [destBufStart + t.i0, destBufStart + t.i1, destBufStart + t.i2]))
      destBuf
    let store := st.store.set destKind destBuf
    if isEqualMarg o.eps style.outlineOptions.thickness 0 ∧ ¬style.aaEnabled then
      { st with store := store }
    else
      let acc := lines.foldl
        (fun (acc : List Nat × List Nat × Nat) l =>
          (acc.1 ++ l.upperIndices.map (acc.2.2 + ·),
           acc.2.1 ++ l.lowerIndices.map (acc.2.2 + ·),
           acc.2.2 + l.vertices.length))
        ([], [], drawBufferStartBeforeLines)
      let totalUpperIndices := acc.1
      let totalLowerIndices := acc.2.1
      let indicesOrder := totalLowerIndices ++ totalUpperIndices.reverse
      if ¬isEqualMarg o.eps style.outlineOptions.thickness 0 then
        { st with store := (drawOutlineAroundShape o cfg destKind style indicesOrder
            indicesOrder.length style.outlineOptions.thickness false store).2 }
      else
        let opts2 := { style with outlineOptions := OutlineOptions.fromStyle style.color .both }
        { st with store := (drawOutlineAroundShapeNN o cfg destKind opts2 indicesOrder
            indicesOrder.length opts2.outlineOptions.thickness false .aa store).2 }

/-- Source Drawer::DrawSimpleLine (lines 2513-2522): route the quad through
the rectangle filler by setting the rectangle override corners, then clear
the override flag. -/
def drawSimpleLine (o : MathOracle) (cfg : LinaVGConfig) (line : SimpleLine)
    (opts : StyleOptions) (rotateAngle : ℚ) (st : DrawerState) : DrawerState :=
  let ro : RectOverrideData :=
    { overrideRectPositions := true
      p1 := line.points.getD 0 ⟨0, 0⟩
      p4 := line.points.getD 3 ⟨0, 0⟩
      p2 := line.points.getD 1 ⟨0, 0⟩
      p3 := line.points.getD 2 ⟨0, 0⟩ }
  let st := { st with store := { st.store with rectOverride := ro } }
  let st := drawRect o cfg ro.p1 ro.p3 opts rotateAngle st
  { st with store := { st.store with rectOverride :=
      { st.store.rectOverride with overrideRectPositions := false } } }

/-- Source Drawer::DrawLine (lines 75-96): a single segment through
CalculateSimpleLine and DrawSimpleLine, with rounded corners 0,3 and/or 1,2
and rounding 1 when caps are requested. -/
def drawLine (o : MathOracle) (cfg : LinaVGConfig) (p1 p2 : Vec2)
    (style : StyleOptions) (cap : LineCapDirection) (rotateAngle : ℚ)
    (st : DrawerState) : DrawerState :=
  let l := calculateSimpleLine o p1 p2 style
  let s := { style with isFilled := true }
  let s :=
    if cap = .left ∨ cap = .both then
      { s with onlyRoundTheseCorners := s.onlyRoundTheseCorners ++ [0, 3], rounding := 1 }
    else s
  let s :=
    if cap = .right ∨ cap = .both then
      { s with onlyRoundTheseCorners := s.onlyRoundTheseCorners ++ [1, 2], rounding := 1 }
    else s
  drawSimpleLine o cfg l s rotateAngle st

/-- Source struct TextCharacter: per-glyph atlas UV corners, size, bearing
and advance (the uv12/uv34 fields are those read by Drawer.cpp; the Text.hpp
among the sources is an older revision without them). -/
structure TextCharacter where
  uv12 : Vec4 := ⟨0, 0, 0, 0⟩
  uv34 : Vec4 := ⟨0, 0, 0, 0⟩
  size : Vec2 := ⟨0, 0⟩
  bearing : Vec2 := ⟨0, 0⟩
  advance : Vec2 := ⟨0, 0⟩
deriving DecidableEq, Repr

/-- Source class LinaVGFont, with the fields Drawer.cpp reads (the glyph
table and kerning table are total functions; the kerning table yields the
raw 1/64-unit x-advance when the pair is present). -/
structure Font where
  isSDF : Bool := false
  supportsUnicode : Bool := false
  supportsKerning : Bool := false
  spaceAdvance : ℚ := 0
  newLineHeight : ℚ := 0
  characterGlyphs : Nat → TextCharacter := fun _ => {}
  kerningTable : Nat → Nat → Option ℤ := fun _ _ => none

/-- Source struct TextOptions (fields read by Drawer.cpp). -/
structure TextOptions where
  font : Font
  color : Vec4Grad := ⟨⟨1, 1, 1, 1⟩, ⟨1, 1, 1, 1⟩, .horizontal⟩
  textScale : ℚ := 1
  dropShadowOffset : Vec2 := ⟨0, 0⟩
  dropShadowColor : Vec4Grad := ⟨⟨0, 0, 0, 1⟩, ⟨0, 0, 0, 1⟩, .horizontal⟩
  spacing : ℚ := 0
  wrapWidth : ℚ := 0
  newLineSpacing : ℚ := 0
  alignment : TextAlignment := .left
  cpuClipping : Vec4 := ⟨0, 0, 0, 0⟩
  wordWrap : Bool := true
  framebufferScale : ℚ := 1

/-- Source struct SDFTextOptions (the extra SDF fields read by
Drawer.cpp). -/
structure SDFTextOptions extends TextOptions where
  sdfSoftness : ℚ := 0
  sdfThickness : ℚ := 1/2
  sdfDropShadowSoftness : ℚ := 0
  sdfDropShadowThickness : ℚ := 1/2

/-- Source Drawer::CalcTextSize (lines 3459-3525): the sum of scaled
x-advances plus spacing, and the maximum scaled y-bearing (the SDF
adjustments of the source are commented out there). -/
def calcTextSize (text : List Nat) (font : Font) (scale spacing : ℚ) : Vec2 :=
  let acc := text.foldl
    (fun (a : ℚ × ℚ) c =>
      let ch := font.characterGlyphs c
      (a.1 + ch.advance.x * scale + spacing, maxQ a.2 (ch.bearing.y * scale)))
    (0, 0)
  ⟨acc.1, acc.2⟩

/-- Source struct TextPart: a wrapped slice with its measured size.  Text is
modelled as the list of glyph codes (decoded codepoints for unicode fonts,
bytes otherwise). -/
structure TextPart where
  str : List Nat := []
  size : Vec2 := ⟨0, 0⟩
deriving DecidableEq, Repr

/-- Source Drawer::WrapText (lines 3067-3178): accumulate characters into a
word (boundary: the space character 32), flush words into lines while the
running width fits the wrap width, with the non-wordWrap path breaking on
single characters instead. -/
def wrapText (font : Font) (text : List Nat) (spacing scale wrapWidth : ℚ)
    (wordWrap : Bool) : List TextPart :=
  let spaceAdvance := font.spaceAdvance * scale + spacing
  let step := fun (acc : List TextPart × TextPart × TextPart) (c : Nat) =>
    let lines := acc.1
    let line := acc.2.1
    let word := acc.2.2
    let ch := font.characterGlyphs c
    if ¬wordWrap then
      let p := if line.size.x + ch.size.x * scale > wrapWidth then (lines ++ [line], ({} : TextPart))
        else (lines, line)
      let lines := p.1
      let line := p.2
      (lines,
        { str := line.str ++ [c]
          size := ⟨line.size.x + ch.advance.x * scale,
            maxQ (ch.size.y * scale) line.size.y⟩ },
        word)
    else if c ≠ 32 then
      (lines, line,
        { str := word.str ++ [c]
          size := ⟨word.size.x + ch.advance.x * scale,
            maxQ word.size.y (ch.size.y * scale)⟩ })
    else
      let p := if line.str ≠ [] ∧ line.size.x + word.size.x > wrapWidth then
          (lines ++ [line], ({} : TextPart))
        else (lines, line)
      let lines := p.1
      let line := p.2
      (lines,
        { str := line.str ++ word.str ++ [32]
          size := ⟨line.size.x + word.size.x + spaceAdvance,
            maxQ line.size.y word.size.y⟩ },
        ({} : TextPart))
  let acc := text.foldl step ([], {}, {})
  let lines := acc.1
  let line := acc.2.1
  let word := acc.2.2
  let p :=
    if word.str ≠ [] then
      if line.str ≠ [] ∧ line.size.x + word.size.x > wrapWidth then
        (lines ++ [line], word)
      else
        (lines,
          ({ str := line.str ++ word.str
             size := ⟨line.size.x + word.size.x, maxQ line.size.y word.size.y⟩ } : TextPart))
    else (lines, line)
  if p.2.str ≠ [] then p.1 ++ [p.2] else p.1

/-- Source Drawer::DrawText (lines 3287-3423): one quad per glyph at the
cumulative advance (plus kerning), colored solid, by the per-character
horizontal gradient (left edge at the running gradient value, right edge at
Lerp(start, end, (emitted+1)/total)), or by the vertical fallback; skips
glyphs outside the clip rectangle and glyphs of zero width or height (the
position advance and the running gradient value still update for skipped
glyphs).  The outData bookkeeping of the source has no effect on buffers
and is omitted. -/
def drawText (o : MathOracle) (buf : DrawBuffer) (font : Font) (text : List Nat)
    (position offset : Vec2) (color : Vec4Grad) (spacing : ℚ) (isGradient : Bool)
    (scale : ℚ) (clip : Vec4) : DrawBuffer :=
  let totalCharacterCount := text.length
  let pos0 : Vec2 := ⟨(customRound position.x : ℤ), (customRound position.y : ℤ)⟩
  let step := fun (acc : DrawBuffer × Vec4 × Vec2 × Nat × Nat) (c : Nat) =>
    let buf := acc.1
    let lastMinGrad := acc.2.1
    let pos := acc.2.2.1
    let characterCount := acc.2.2.2.1
    let previousCharacter := acc.2.2.2.2
    let ch := font.characterGlyphs c
    let startIndex := buf.vertexBuffer.length
    let kerning : ℚ :=
      if font.supportsKerning ∧ previousCharacter ≠ 0 then
        match font.kerningTable previousCharacter c with
        | some k => ((k / 64 : ℤ) : ℚ)
        | none => 0
      else 0
    let ytop := pos.y - ch.bearing.y * scale
    let ybot := pos.y + (ch.size.y - ch.bearing.y) * scale
    let x2 := pos.x + (kerning + ch.bearing.x) * scale
    let w := ch.size.x * scale
    let h := ch.size.y * scale
    let newPos : Vec2 := ⟨pos.x + (kerning + ch.advance.x) * scale + spacing,
      pos.y + ch.advance.y * scale⟩
    let colsGrad :=
      if isGradient then
        if color.gradientType = .horizontal then
          let maxT := ((characterCount + 1 : Nat) : ℚ) / (totalCharacterCount : ℚ)
          let currentMin := lastMinGrad
          let currentMax := lerpV4 color.gradStart color.gradEnd maxT
          ((currentMin, currentMax, currentMax, currentMin), currentMax)
        else
          ((color.gradStart, color.gradStart, color.gradEnd, color.gradEnd), lastMinGrad)
      else
        ((color.gradStart, color.gradStart, color.gradStart, color.gradStart), lastMinGrad)
    let cols := colsGrad.1
    let lastMinGrad := colsGrad.2
    let p0 : Vec2 := ⟨x2 + offset.x, ytop + offset.y⟩
    let p1 : Vec2 := ⟨x2 + offset.x + w, ytop + offset.y⟩
    let p2 : Vec2 := ⟨x2 + offset.x + w, ybot + offset.y⟩
    let p3 : Vec2 := ⟨x2 + offset.x, ybot + offset.y⟩
    let clipped :=
      ¬isEqualMarg o.eps clip.z 0 ∧ ¬isEqualMarg o.eps clip.w 0 ∧
        (¬isPointInside p0 clip ∨ ¬isPointInside p1 clip ∨ ¬isPointInside p2 clip ∨
          ¬isPointInside p3 clip)
    if clipped then (buf, lastMinGrad, newPos, characterCount, c)
    else if isEqualMarg o.eps w 0 ∨ isEqualMarg o.eps h 0 then
      (buf, lastMinGrad, newPos, characterCount, c)
    else
      let v0 : Vertex := { pos := p0, uv := ⟨ch.uv12.x, ch.uv12.y⟩, col := cols.1 }
      let v1 : Vertex := { pos := p1, uv := ⟨ch.uv12.z, ch.uv12.w⟩, col := cols.2.1 }
      let v2 : Vertex := { pos := p2, uv := ⟨ch.uv34.x, ch.uv34.y⟩, col := cols.2.2.1 }
      let v3 : Vertex := { pos := p3, uv := ⟨ch.uv34.z, ch.uv34.w⟩, col := cols.2.2.2 }
      let buf := (buf.pushVertexList [v0, v1, v2, v3]).pushIndexList
        [startIndex, startIndex + 1, startIndex + 3, startIndex + 1, startIndex + 2,
         startIndex + 3]
      (buf, lastMinGrad, newPos, characterCount + 1, c)
  (text.foldl step (buf, color.gradStart, pos0, 0, 0)).1

/-- Source Drawer::ProcessText (lines 3180-3262): single-line layout (with
alignment offsets) when no wrapping applies, else wrap into lines and draw
each line stepping down by the scaled new-line height plus spacing, then
rotate everything about the vertex center when a rotation is requested. -/
def processText (o : MathOracle) (buf : DrawBuffer) (font : Font) (text : List Nat)
    (pos offset : Vec2) (color : Vec4Grad) (spacing : ℚ) (isGradient : Bool)
    (scale wrapWidth rotateAngle : ℚ) (alignment : TextAlignment)
    (newLineSpacing : ℚ) (_sdfThickness : ℚ) (clip : Vec4) (wordWrap : Bool) :
    DrawBuffer :=
  let bufStart := buf.vertexBuffer.length
  let size := calcTextSize text font scale spacing
  let usedPos := pos
  let buf :=
    if isEqualMarg o.eps wrapWidth 0 ∨ size.x < wrapWidth then
      let usedPos :=
        if alignment = .center then { usedPos with x := usedPos.x - size.x / 2 }
        else if alignment = .right then { usedPos with x := usedPos.x - size.x }
        else usedPos
      drawText o buf font text usedPos offset color spacing isGradient scale clip
    else
      let lines := wrapText font text spacing scale wrapWidth wordWrap
      let usedPos := { usedPos with y := usedPos.y -
        ((lines.length - 1 : Nat) : ℚ) * (font.newLineHeight * scale + newLineSpacing) }
      (lines.foldl
        (fun (acc : DrawBuffer × Vec2) line =>
          let usedPos := acc.2
          let usedPos :=
            if alignment = .center then { usedPos with x := pos.x - line.size.x / 2 }
            else if alignment = .right then { usedPos with x := pos.x - line.size.x }
            else usedPos
          let b := drawText o acc.1 font line.str usedPos offset color spacing
            isGradient scale clip
          (b, { usedPos with y := usedPos.y + font.newLineHeight * scale + newLineSpacing }))
        (buf, usedPos)).1
  if ¬isEqualMarg o.eps rotateAngle 0 then
    let center := getVerticesCenter buf bufStart (buf.vertexBuffer.length - 1)
    let rotated := rotateVertices o buf.vertexBuffer center bufStart
      (buf.vertexBuffer.length - 1) rotateAngle
    { buf with vertexBuffer := rotated }
  else buf

/-- Source Drawer::DrawTextNormal (lines 725-771).  A NULL text pointer is
the value none, the empty string is the empty code list; both return with no
effect.  An SDF font is rejected through the error callback.  The cache path
(CheckTextCache and AddTextCache live in the missing BufferStore.cpp) is
modelled from the spec: geometry is shaped at the origin, recorded keyed by
the string hash, and a hit replays the recorded range; either way the new
range is then translated to the rounded position.  Drop shadows run a second
ProcessText pass at the scaled offset. -/
def drawTextNormal (o : MathOracle) (cfg : LinaVGConfig) (text : Option (List Nat))
    (position : Vec2) (opts : TextOptions) (rotateAngle : ℚ) (skipCache : Bool)
    (st : DrawerState) : DrawerState :=
  match text with
  | Option.none => st
  | some [] => st
  | some cs =>
    let font := opts.font
    if font.isSDF then reportError cfg st
    else
      let kind := BufKind.simpleText
      let buf := st.store.get kind
      let isGradient := ¬isEqualVec4 opts.color.gradStart opts.color.gradEnd
      let vtxStart := buf.vertexBuffer.length
      let indexStart := buf.indexBuffer.length
      let st :=
        if ¬cfg.textCachingEnabled ∨ skipCache then
          let buf := processText o buf font cs position ⟨0, 0⟩ opts.color opts.spacing
            isGradient opts.textScale opts.wrapWidth rotateAngle opts.alignment
            opts.newLineSpacing 0 opts.cpuClipping opts.wordWrap
          { st with store := st.store.set kind buf }
        else
          let sid := o.hashText cs
          let hit := st.store.textCache.find? (fun e => e.sid = sid)
          let stepped :=
            match hit with
            | Option.none =>
              let buf := processText o buf font cs ⟨0, 0⟩ ⟨0, 0⟩ opts.color opts.spacing
                isGradient opts.textScale opts.wrapWidth rotateAngle opts.alignment
                opts.newLineSpacing 0 opts.cpuClipping opts.wordWrap
              let entry : TextCacheEntry :=
                { sid := sid
                  verts := buf.vertexBuffer.drop vtxStart
                  inds := (buf.indexBuffer.drop indexStart).map (· - vtxStart) }
              (buf, st.store.textCache ++ [entry])
            | some e =>
              ({ buf with vertexBuffer := buf.vertexBuffer ++ e.verts,
                          indexBuffer := buf.indexBuffer ++ e.inds.map (vtxStart + ·) },
                st.store.textCache)
          let buf := stepped.1
          let dx : ℚ := (customRound position.x : ℤ)
          let dy : ℚ := (customRound position.y : ℤ)
          let buf := { buf with vertexBuffer := buf.vertexBuffer.mapIdx fun i v =>
            if vtxStart ≤ i then { v with pos := ⟨v.pos.x + dx, v.pos.y + dy⟩ } else v }
          { st with store := { st.store.set kind buf with textCache := stepped.2 } }
      if ¬isEqualMarg o.eps opts.dropShadowOffset.x 0 ∨
          ¬isEqualMarg o.eps opts.dropShadowOffset.y 0 then
        let dsBuf := st.store.get kind
        let dsBuf := processText o dsBuf font cs position
          ⟨opts.dropShadowOffset.x * opts.framebufferScale,
           opts.dropShadowOffset.y * opts.framebufferScale⟩
          opts.dropShadowColor opts.spacing false opts.textScale opts.wrapWidth
          rotateAngle opts.alignment opts.newLineSpacing 0 opts.cpuClipping opts.wordWrap
        { st with store := st.store.set kind dsBuf }
      else st

/-- Source Drawer::DrawTextSDF (lines 674-723): the SDF twin of
DrawTextNormal (non-SDF fonts rejected, the SDF text buffer and SDF cache
used, softness and drop-shadow thickness passed to the no-op sdfThickness
slot of ProcessText). -/
def drawTextSDF (o : MathOracle) (cfg : LinaVGConfig) (text : Option (List Nat))
    (position : Vec2) (opts : SDFTextOptions) (rotateAngle : ℚ) (skipCache : Bool)
    (st : DrawerState) : DrawerState :=
  match text with
  | Option.none => st
  | some [] => st
  | some cs =>
    let font := opts.font
    if ¬font.isSDF then reportError cfg st
    else
      let kind := BufKind.sdfText
      let buf := st.store.get kind
      let isGradient := ¬isEqualVec4 opts.color.gradStart opts.color.gradEnd
      let vtxStart := buf.vertexBuffer.length
      let indexStart := buf.indexBuffer.length
      let st :=
        if ¬cfg.textCachingSDFEnabled ∨ skipCache then
          let buf := processText o buf font cs position ⟨0, 0⟩ opts.color opts.spacing
            isGradient opts.textScale opts.wrapWidth rotateAngle opts.alignment
            opts.newLineSpacing opts.sdfSoftness opts.cpuClipping opts.wordWrap
          { st with store := st.store.set kind buf }
        else
          let sid := o.hashText cs
          let hit := st.store.sdfTextCache.find? (fun e => e.sid = sid)
          let stepped :=
            match hit with
            | Option.none =>
              let buf := processText o buf font cs ⟨0, 0⟩ ⟨0, 0⟩ opts.color opts.spacing
                isGradient opts.textScale opts.wrapWidth rotateAngle opts.alignment
                opts.newLineSpacing opts.sdfSoftness opts.cpuClipping opts.wordWrap
              let entry : TextCacheEntry :=
                { sid := sid
                  verts := buf.vertexBuffer.drop vtxStart
                  inds := (buf.indexBuffer.drop indexStart).map (· - vtxStart) }
              (buf, st.store.sdfTextCache ++ [entry])
            | some e =>
              ({ buf with vertexBuffer := buf.vertexBuffer ++ e.verts,
                          indexBuffer := buf.indexBuffer ++ e.inds.map (vtxStart + ·) },
                st.store.sdfTextCache)
          let buf := stepped.1
          let dx : ℚ := (customRound position.x : ℤ)
          let dy : ℚ := (customRound position.y : ℤ)
          let buf := { buf with vertexBuffer := buf.vertexBuffer.mapIdx fun i v =>
            if vtxStart ≤ i then { v with pos := ⟨v.pos.x + dx, v.pos.y + dy⟩ } else v }
          { st with store := { st.store.set kind buf with sdfTextCache := stepped.2 } }
      if ¬isEqualMarg o.eps opts.dropShadowOffset.x 0 ∨
          ¬isEqualMarg o.eps opts.dropShadowOffset.y 0 then
        let dsBuf := st.store.get kind
        let dsBuf := processText o dsBuf font cs position
          ⟨opts.dropShadowOffset.x * opts.framebufferScale,
           opts.dropShadowOffset.y * opts.framebufferScale⟩
          opts.dropShadowColor opts.spacing false opts.textScale opts.wrapWidth
          rotateAngle opts.alignment opts.newLineSpacing opts.sdfThickness
          opts.cpuClipping opts.wordWrap
        { st with store := st.store.set kind dsBuf }
      else st

/-! Concrete instances used to evaluate the development at specific inputs. -/

/-- Concrete oracle for evaluation: the square root is the identity (exact
on the inputs the tests use), trigonometry and angle extraction are constant,
extrusion returns the input point, the margin is zero. -/
def testOracle : MathOracle where
  sqrtQ := fun q => q
  cosDeg := fun _ => 1
  sinDeg := fun _ => 0
  getAngleBetweenDirs := fun _ _ => 0
  getAngleFromCenter := fun _ _ => 0
  extrudedFromNormal := fun p _ _ _ => p
  extrudedFromNormalFlatCheck := fun p _ _ _ _ => p
  sampleParabola := fun p _ _ _ _ => p
  eps := 0
  hashText := fun _ => 0

/-- A default style with the given uniform fill color. -/
def solidStyle (c : Vec4) : StyleOptions := { color := ⟨c, c, .horizontal⟩ }

/-- A minimal test font: every glyph is a unit square advancing one unit,
with no bearing and no kerning. -/
def abFont : Font :=
  { characterGlyphs := fun _ => { size := ⟨1, 1⟩, advance := ⟨1, 0⟩ } }

/-- The buffer-local index invariant of the spec: every index value of a
buffer references a vertex already pushed into that same buffer. -/
def DrawBuffer.wellIndexed (b : DrawBuffer) : Prop :=
  ∀ i ∈ b.indexBuffer, i < b.vertexBuffer.length

/-- The index invariant over the whole store: every buffer of the pool is
well indexed. -/
def BufferStoreData.wellIndexed (s : BufferStoreData) : Prop :=
  ∀ k : BufKind, (s.get k).wellIndexed

/-- Boundedness of the line-local triangles of the polyline engine: every
triangle of a Line references one of that line's own vertices. -/
def Line.trisBounded (l : Line) : Prop :=
  ∀ t ∈ l.tris, t.i0 < l.vertices.length ∧ t.i1 < l.vertices.length ∧
    t.i2 < l.vertices.length

/-! Rewriting lemmas for the buffer primitives. -/

@[simp] theorem pushVertexList_vertexBuffer (b : DrawBuffer) (vs : List Vertex) :
    (b.pushVertexList vs).vertexBuffer = b.vertexBuffer ++ vs := rfl

@[simp] theorem pushVertexList_indexBuffer (b : DrawBuffer) (vs : List Vertex) :
    (b.pushVertexList vs).indexBuffer = b.indexBuffer := rfl

@[simp] theorem pushVertexList_type (b : DrawBuffer) (vs : List Vertex) :
    (b.pushVertexList vs).drawBufferType = b.drawBufferType := rfl

@[simp] theorem pushIndexList_vertexBuffer (b : DrawBuffer) (is : List Nat) :
    (b.pushIndexList is).vertexBuffer = b.vertexBuffer := rfl

@[simp] theorem pushIndexList_indexBuffer (b : DrawBuffer) (is : List Nat) :
    (b.pushIndexList is).indexBuffer = b.indexBuffer ++ is := rfl

@[simp] theorem pushIndexList_type (b : DrawBuffer) (is : List Nat) :
    (b.pushIndexList is).drawBufferType = b.drawBufferType := rfl

@[simp] theorem pushVertex_vertexBuffer (b : DrawBuffer) (v : Vertex) :
    (b.pushVertex v).vertexBuffer = b.vertexBuffer ++ [v] := rfl

@[simp] theorem pushVertex_indexBuffer (b : DrawBuffer) (v : Vertex) :
    (b.pushVertex v).indexBuffer = b.indexBuffer := rfl

@[simp] theorem pushVertex_type (b : DrawBuffer) (v : Vertex) :
    (b.pushVertex v).drawBufferType = b.drawBufferType := rfl

@[simp] theorem pushIndex_vertexBuffer (b : DrawBuffer) (i : Nat) :
    (b.pushIndex i).vertexBuffer = b.vertexBuffer := rfl

@[simp] theorem pushIndex_indexBuffer (b : DrawBuffer) (i : Nat) :
    (b.pushIndex i).indexBuffer = b.indexBuffer ++ [i] := rfl

@[simp] theorem convexFill_vertexBuffer (b : DrawBuffer) (s e : Nat) (skip : Bool) :
    (b.convexFill s e skip).vertexBuffer = b.vertexBuffer := rfl

@[simp] theorem convexFill_indexBuffer (b : DrawBuffer) (s e : Nat) (skip : Bool) :
    (b.convexFill s e skip).indexBuffer = convexFillVertices s e b.indexBuffer skip := rfl

@[simp] theorem convexFill_type (b : DrawBuffer) (s e : Nat) (skip : Bool) :
    (b.convexFill s e skip).drawBufferType = b.drawBufferType := rfl

@[simp] theorem calculateVertexUVs_indexBuffer (b : DrawBuffer) (s e : Nat) :
    (calculateVertexUVs b s e).indexBuffer = b.indexBuffer := rfl

@[simp] theorem calculateVertexUVs_type (b : DrawBuffer) (s e : Nat) :
    (calculateVertexUVs b s e).drawBufferType = b.drawBufferType := rfl

@[simp] theorem calculateVertexUVs_length (b : DrawBuffer) (s e : Nat) :
    (calculateVertexUVs b s e).vertexBuffer.length = b.vertexBuffer.length := by
  simp [calculateVertexUVs]

@[simp] theorem rotateVertices_length (o : MathOracle) (vs : List Vertex) (c : Vec2)
    (s e : Nat) (a : ℚ) : (rotateVertices o vs c s e a).length = vs.length := by
  unfold rotateVertices
  split <;> simp

/-- The count-based closed form of the C++ angle loop: with a positive step,
at least n fuel, and a stop bound pinned between the n-th and the previous
step value, the loop yields exactly the first n arithmetic-progression
values. -/
theorem qRange_map_range (n : Nat) : ∀ (fuel : Nat) (s step stop : ℚ),
    n ≤ fuel → 0 < step → stop ≤ s + (n : ℚ) * step →
    (∀ k : Nat, k < n → s + (k : ℚ) * step < stop) →
    qRange fuel s stop step = (List.range n).map (fun k : Nat => s + (k : ℚ) * step) := by
  induction n with
  | zero =>
    intro fuel s step stop _ _ hge _
    match fuel with
    | 0 => simp [qRange]
    | Nat.succ f =>
      have : ¬s < stop := by push_neg; simpa using hge
      simp [qRange, this]
  | succ m ih =>
    intro fuel s step stop hfuel hstep hge hlt
    match fuel with
    | 0 => omega
    | Nat.succ f =>
      have h0 : s < stop := by simpa using hlt 0 (Nat.succ_pos m)
      have hrec : qRange f (s + step) stop step =
          (List.range m).map (fun k : Nat => s + step + (k : ℚ) * step) := by
        apply ih f (s + step) step stop (Nat.lt_succ_iff.mp (Nat.lt_of_lt_of_le (Nat.lt_succ_self m) hfuel)) hstep
        · have : s + step + (m : ℚ) * step = s + ((m : ℚ) + 1) * step := by ring
          rw [this]
          simpa [Nat.cast_succ] using hge
        · intro k hk
          have := hlt (k + 1) (Nat.succ_lt_succ hk)
          have hcast : s + ((k : ℚ) + 1) * step = s + step + (k : ℚ) * step := by ring
          simpa [Nat.cast_succ, hcast] using this
      rw [qRange, if_pos h0, hrec, List.range_succ_eq_map, List.map_cons, List.map_map]
      congr 1
      · push_cast
        ring
      · apply List.map_congr_left
        intro k _
        simp only [Function.comp_apply]
        push_cast
        ring

/-- Lists produced by gluing fixed-size blocks have length proportional to
the block count. -/
theorem flatMap_length_const {α β : Type} (f : α → List β) (c : Nat)
    (h : ∀ i, (f i).length = c) (l : List α) : (l.flatMap f).length = c * l.length := by
  induction l with
  | nil => simp
  | cons a t ih => simp [h, ih]; ring

/-- Length and membership bounds of the fan triangulation: for a boundary
range with start strictly below end, ConvexFillVertices appends exactly
3·(end − start) indices (one triangle per boundary edge including the
closing one), all lying in [start, end]. -/
theorem convexFillVertices_bounds (s e : Nat) (hse : s < e) :
    (convexFillVertices s e [] false).length = 3 * (e - s) ∧
    ∀ i ∈ convexFillVertices s e [] false, s ≤ i ∧ i ≤ e := by
  unfold convexFillVertices
  simp only [Bool.not_false, if_true, List.nil_append]
  constructor
  · rw [List.length_append, flatMap_length_const (fun i => [s, i, i + 1]) 3 (fun _ => rfl)]
    simp
    omega
  · intro i hi
    rcases List.mem_append.mp hi with h | h
    · rcases List.mem_flatMap.mp h with ⟨j, hj, hij⟩
      have hj2 := List.mem_range'.mp hj
      simp only [List.mem_cons, List.mem_singleton] at hij
      rcases hij with rfl | rfl | rfl | h
      · omega
      · omega
      · omega
      · simp at h
    · simp only [List.mem_cons, List.mem_singleton] at h
      rcases h with rfl | rfl | rfl | h
      · omega
      · omega
      · omega
      · simp at h

/-- C7: the rounding factor is clamped to [0, 0.9] for rectangles
(FillRect_Round line 909) and to [0, 1] for triangles (FillTri_Round line
1144), the clamps are the identity on those ranges, and the corner-arc angle
step (GetAngleIncrease) is exactly 20 degrees for rounding < 0.25, 15 for
rounding < 0.5, 10 for rounding < 0.75, and 5 otherwise. -/
theorem C7_rounding_clamps_and_angle_steps (r : ℚ) :
    (0 ≤ fillRectRoundRounding r ∧ fillRectRoundRounding r ≤ 9/10) ∧
    (0 ≤ fillTriRoundRounding r ∧ fillTriRoundRounding r ≤ 1) ∧
    (0 ≤ r → r ≤ 9/10 → fillRectRoundRounding r = r) ∧
    (0 ≤ r → r ≤ 1 → fillTriRoundRounding r = r) ∧
    (r < 1/4 → getAngleIncrease r = 20) ∧
    (1/4 ≤ r → r < 1/2 → getAngleIncrease r = 15) ∧
    (1/2 ≤ r → r < 3/4 → getAngleIncrease r = 10) ∧
    (3/4 ≤ r → getAngleIncrease r = 5) := by
  unfold fillRectRoundRounding fillTriRoundRounding getAngleIncrease clampQ
  refine ⟨⟨?_, ?_⟩, ⟨?_, ?_⟩, ?_, ?_, ?_, ?_, ?_, ?_⟩ <;> intros <;> split_ifs <;>
    first | rfl | linarith

/-- C7 witness: concrete instances of every component. -/
theorem C7_witness :
    ((0 : ℚ) ≤ fillRectRoundRounding 2 ∧ fillRectRoundRounding 2 ≤ 9/10) ∧
    fillRectRoundRounding (1/2) = 1/2 ∧ fillTriRoundRounding (1/2) = 1/2 ∧
    getAngleIncrease (1/10) = 20 ∧ getAngleIncrease (3/10) = 15 ∧
    getAngleIncrease (1/2) = 10 ∧ getAngleIncrease (4/5) = 5 := by
  refine ⟨(C7_rounding_clamps_and_angle_steps 2).1,
    (C7_rounding_clamps_and_angle_steps (1/2)).2.2.1 (by norm_num) (by norm_num),
    (C7_rounding_clamps_and_angle_steps (1/2)).2.2.2.1 (by norm_num) (by norm_num),
    (C7_rounding_clamps_and_angle_steps (1/10)).2.2.2.2.1 (by norm_num),
    (C7_rounding_clamps_and_angle_steps (3/10)).2.2.2.2.2.1 (by norm_num) (by norm_num),
    (C7_rounding_clamps_and_angle_steps (1/2)).2.2.2.2.2.2.1 (by norm_num) (by norm_num),
    (C7_rounding_clamps_and_angle_steps (4/5)).2.2.2.2.2.2.2 (by norm_num)⟩

/-- C10: DrawTextNormal and DrawTextSDF return immediately, leaving the
whole drawer state (buffers, caches and the error counter) unchanged, when
the text pointer is NULL (none) or the text is the empty string, for every
configuration, options, position and prior state. -/
theorem C10_null_or_empty_text_noop (o : MathOracle) (cfg : LinaVGConfig)
    (position : Vec2) (optsN : TextOptions) (optsS : SDFTextOptions) (rot : ℚ)
    (skipCache : Bool) (st : DrawerState) :
    drawTextNormal o cfg Option.none position optsN rot skipCache st = st ∧
    drawTextNormal o cfg (some []) position optsN rot skipCache st = st ∧
    drawTextSDF o cfg Option.none position optsS rot skipCache st = st ∧
    drawTextSDF o cfg (some []) position optsS rot skipCache st = st :=
  ⟨rfl, rfl, rfl, rfl⟩

/-- C2 counterexample: at an angle of exactly 15 degrees a requested Bevel
joint stays Bevel (the sub-15-degree vertex-averaging test of DrawLines line
169 is strict), contradicting the claim that exactly 15 degrees still forces
vertex averaging. -/
theorem C2_counterexample :
    selectJointType .bevel 15 150 1 0 = .bevel ∧
    LineJointType.bevel ≠ LineJointType.vtxAverage := by
  constructor
  · unfold selectJointType
    norm_num [isEqualMarg]
  · decide

/-- C2 (amended): for consecutive polyline segments, the parallel check on
the lower edges takes the merge path adding no joint vertices (and two
collinear edges always pass the parallel check when the margin is
nonnegative); otherwise the joint applied is JoinLines with the type
selected as follows: a signed angle strictly below 15 degrees in absolute
value forces vertex averaging regardless of the requested type, a Miter
request beyond the miter limit degrades to round-bevel, and a round-bevel
request with rounding 0 within the margin degrades to plain bevel; at
exactly 15 degrees the requested type (with those fallbacks) is kept. -/
theorem C2_joint_selection (o : MathOracle) (cfg : LinaVGConfig)
    (style : StyleOptions) (jt : LineJointType) (curr next : Line) (angle : ℚ) :
    (areLinesParallel o.eps (vlGet curr.vertices 3).pos (vlGet curr.vertices 2).pos
        (vlGet next.vertices 3).pos (vlGet next.vertices 2).pos = true →
      (drawLinesJointStep o cfg style jt curr next).1.vertices.length +
        (drawLinesJointStep o cfg style jt curr next).2.vertices.length =
        curr.vertices.length + next.vertices.length) ∧
    (0 ≤ o.eps → ∀ p1 p2 q1 q2 : Vec2,
      (p2.x - p1.x) * (q2.y - q1.y) - (p2.y - p1.y) * (q2.x - q1.x) = 0 →
      areLinesParallel o.eps p1 p2 q1 q2 = true) ∧
    (areLinesParallel o.eps (vlGet curr.vertices 3).pos (vlGet curr.vertices 2).pos
        (vlGet next.vertices 3).pos (vlGet next.vertices 2).pos = false →
      drawLinesJointStep o cfg style jt curr next =
        joinLines o curr next style
          (selectJointType jt
            (o.getAngleBetweenDirs
              (normalizedO o ⟨(vlGet curr.vertices 2).pos.x - (vlGet curr.vertices 3).pos.x,
                (vlGet curr.vertices 2).pos.y - (vlGet curr.vertices 3).pos.y⟩)
              (normalizedO o ⟨(vlGet next.vertices 2).pos.x - (vlGet next.vertices 3).pos.x,
                (vlGet next.vertices 2).pos.y - (vlGet next.vertices 3).pos.y⟩))
            cfg.miterLimit style.rounding o.eps)
          (o.getAngleBetweenDirs
              (normalizedO o ⟨(vlGet curr.vertices 2).pos.x - (vlGet curr.vertices 3).pos.x,
                (vlGet curr.vertices 2).pos.y - (vlGet curr.vertices 3).pos.y⟩)
              (normalizedO o ⟨(vlGet next.vertices 2).pos.x - (vlGet next.vertices 3).pos.x,
                (vlGet next.vertices 2).pos.y - (vlGet next.vertices 3).pos.y⟩) < 0)) ∧
    (|angle| < 15 → selectJointType jt angle cfg.miterLimit style.rounding o.eps =
      .vtxAverage) ∧
    (¬|angle| < 15 → |angle| > cfg.miterLimit →
      selectJointType .miter angle cfg.miterLimit style.rounding o.eps = .bevelRound) ∧
    (¬|angle| < 15 → isEqualMarg o.eps style.rounding 0 = true →
      selectJointType .bevelRound angle cfg.miterLimit style.rounding o.eps = .bevel) := by
  refine ⟨?_, ?_, ?_, ?_, ?_, ?_⟩
  · intro h
    unfold drawLinesJointStep
    rw [h]
    simp
  · intro heps p1 p2 q1 q2 hcross
    unfold areLinesParallel isEqualMarg
    rw [hcross]
    simpa using heps
  · intro h
    unfold drawLinesJointStep
    rw [h]
    simp
  · intro h
    unfold selectJointType
    split_ifs with h1 h2 <;> simp_all
  · intro h1 h2
    unfold selectJointType
    split_ifs <;> simp_all
  · intro h1 h2
    unfold selectJointType
    split_ifs <;> simp_all

/-- C2 witness: concrete instances of each joint-selection component and the
parallel merge path. -/
theorem C2_witness :
    (drawLinesJointStep testOracle {} {} .bevel {} {}).1.vertices.length +
      (drawLinesJointStep testOracle {} {} .bevel {} {}).2.vertices.length = 0 ∧
    areLinesParallel (0 : ℚ) ⟨0, 0⟩ ⟨1, 0⟩ ⟨2, 0⟩ ⟨3, 0⟩ = true ∧
    selectJointType .bevel 10 150 1 0 = .vtxAverage ∧
    selectJointType .miter 160 150 1 0 = .bevelRound ∧
    selectJointType .bevelRound 20 150 0 0 = .bevel := by
  have h1 := (C2_joint_selection testOracle {} {} .bevel {} {} 0).1
  have h2 := (C2_joint_selection testOracle {} {} .bevel {} {} 0).2.1
  have h4 := (C2_joint_selection testOracle {} {} .bevel {} {} 10).2.2.2.1
  have h5 := (C2_joint_selection testOracle {} {} .bevel {} {} 160).2.2.2.2.1
  have h6 := (C2_joint_selection testOracle {} ({} : StyleOptions) .bevelRound {} {} 20).2.2.2.2.2
  have heps : (0 : ℚ) ≤ testOracle.eps := by norm_num [testOracle]
  refine ⟨?_, ?_, ?_, ?_, ?_⟩
  · have hpar := h2 heps (vlGet ({} : Line).vertices 3).pos
      (vlGet ({} : Line).vertices 2).pos (vlGet ({} : Line).vertices 3).pos
      (vlGet ({} : Line).vertices 2).pos (by ring)
    have := h1 hpar
    simpa using this
  · exact h2 heps ⟨0, 0⟩ ⟨1, 0⟩ ⟨2, 0⟩ ⟨3, 0⟩ (by norm_num)
  · exact h4 (by norm_num)
  · exact h5 (by norm_num) (by norm_num [LinaVGConfig.miterLimit])
  · exact h6 (by norm_num) (by norm_num [isEqualMarg, testOracle])

/-- Concrete angle loop of a 2-gon: 360/2 = 180 degrees per step. -/
theorem qRange_two_gon : qRange loopFuel 0 360 180 = [0, 180] := by
  rw [qRange_map_range 2 loopFuel 0 180 360 (by norm_num [loopFuel]) (by norm_num)
    (by norm_num) (by intro k hk; interval_cases k <;> norm_num)]
  simp [List.range_succ]

/-- C1 counterexample: DrawNGon with n = 2 corners (fewer than 3), a solid
fill and default style performs no validation: it emits 3 vertices and 6
indices into the default buffer and never invokes the error callback,
contradicting the claim that every such call reports an error and emits no
geometry. -/
theorem C1_counterexample :
    (drawNGon testOracle {} ⟨0, 0⟩ 10 2 (solidStyle ⟨1, 0, 0, 1⟩) 0 {}).errorCount = 0 ∧
    (drawNGon testOracle {} ⟨0, 0⟩ 10 2 (solidStyle ⟨1, 0, 0, 1⟩) 0
      {}).store.defaultBuf.vertexBuffer.length = 3 ∧
    (drawNGon testOracle {} ⟨0, 0⟩ 10 2 (solidStyle ⟨1, 0, 0, 1⟩) 0
      {}).store.defaultBuf.indexBuffer.length = 6 := by
  refine ⟨?_, ?_, ?_⟩ <;>
    simp [drawNGon, fillNGon_SC, fillNGonData, show (360 : ℚ) / 2 = 180 by norm_num,
      qRange_two_gon, solidStyle, plainKind,
      isEqualVec4, BufferStoreData.get, BufferStoreData.set, BufferStoreData.modify,
      shapeOutlineEpilogue, rotateVertices, isEqualMarg, testOracle,
      convexFillVertices, DrawBuffer.convexFill]

/-- Concrete angle loop of a clamped 6-segment circle: 60 degrees per
step. -/
theorem qRange_circle_six : qRange loopFuel 0 360 60 = [0, 60, 120, 180, 240, 300] := by
  rw [qRange_map_range 6 loopFuel 0 60 360 (by norm_num [loopFuel]) (by norm_num)
    (by norm_num) (by intro k hk; interval_cases k <;> norm_num)]
  simp [List.range_succ]
  norm_num

/-- C1 (amended): DrawConvex with fewer than 3 corners reports the failure
through the error callback (when one is set) and leaves every buffer
untouched, and the call returns normally; DrawNGon and DrawCircle perform no
such validation: with a solid default style, DrawNGon with n = 2 emits 3
vertices without an error report, and DrawCircle with 2 segments clamps the
segment count to 6 and emits 7 vertices without an error report. -/
theorem C1_too_few_points (o : MathOracle) (cfg : LinaVGConfig) (st : DrawerState)
    (points : List Vec2) (style : StyleOptions) (rot : ℚ)
    (hcb : cfg.hasErrorCallback = true) (hlt : points.length < 3) (heps : 0 ≤ o.eps) :
    (drawConvex o cfg points style rot st).store = st.store ∧
    (drawConvex o cfg points style rot st).errorCount = st.errorCount + 1 ∧
    (drawNGon o cfg ⟨0, 0⟩ 10 2 (solidStyle ⟨1, 0, 0, 1⟩) 0 st).errorCount =
      st.errorCount ∧
    (drawNGon o cfg ⟨0, 0⟩ 10 2 (solidStyle ⟨1, 0, 0, 1⟩) 0
        st).store.defaultBuf.vertexBuffer.length =
      st.store.defaultBuf.vertexBuffer.length + 3 ∧
    (drawCircle o cfg ⟨0, 0⟩ 10 (solidStyle ⟨1, 0, 0, 1⟩) 2 0 0 0 st).errorCount =
      st.errorCount ∧
    (drawCircle o cfg ⟨0, 0⟩ 10 (solidStyle ⟨1, 0, 0, 1⟩) 2 0 0 0
        st).store.defaultBuf.vertexBuffer.length =
      st.store.defaultBuf.vertexBuffer.length + 7 := by
  have hm : isEqualMarg o.eps 0 0 = true := by
    simp [isEqualMarg]
    exact heps
  refine ⟨?_, ?_, ?_, ?_, ?_, ?_⟩
  · simp [drawConvex, hlt, reportError, hcb]
  · simp [drawConvex, hlt, reportError, hcb]
  · simp [drawNGon, fillNGon_SC, solidStyle, plainKind, isEqualVec4,
      BufferStoreData.get, BufferStoreData.set, shapeOutlineEpilogue, hm]
  · simp [drawNGon, fillNGon_SC, fillNGonData, show (360 : ℚ) / 2 = 180 by norm_num,
      qRange_two_gon, solidStyle, plainKind, isEqualVec4,
      BufferStoreData.get, BufferStoreData.set, shapeOutlineEpilogue, hm]
  · norm_num [drawCircle, fillCircle_SC, solidStyle, plainKind, isEqualVec4,
      BufferStoreData.get, BufferStoreData.set, circleOutlineEpilogue, hm]
  · norm_num [drawCircle, fillCircle_SC, fillCircleData, solidStyle, plainKind,
      isEqualVec4, show max 6 (min (2:ℤ) 180) = 6 by norm_num, qRange_circle_six,
      BufferStoreData.get, BufferStoreData.set, circleOutlineEpilogue, hm]

/-- C1 witness: concrete instances of the amended statement. -/
theorem C1_witness :
    (drawConvex testOracle {} [⟨0, 0⟩, ⟨1, 1⟩] {} 0 {}).store = ({} : DrawerState).store ∧
    (drawConvex testOracle {} [⟨0, 0⟩, ⟨1, 1⟩] {} 0 {}).errorCount = 1 ∧
    (drawNGon testOracle {} ⟨0, 0⟩ 10 2 (solidStyle ⟨1, 0, 0, 1⟩) 0 {}).errorCount = 0 ∧
    (drawCircle testOracle {} ⟨0, 0⟩ 10 (solidStyle ⟨1, 0, 0, 1⟩) 2 0 0 0
      {}).store.defaultBuf.vertexBuffer.length = 7 := by
  have h := C1_too_few_points testOracle {} {} [⟨0, 0⟩, ⟨1, 1⟩] {} 0 rfl
    (by norm_num) (by norm_num [testOracle])
  exact ⟨h.1, h.2.1, h.2.2.1, h.2.2.2.2.2⟩

/-- Concrete angle loop of a 4-gon: 90 degrees per step. -/
theorem qRange_four_gon : qRange loopFuel 0 360 90 = [0, 90, 180, 270] := by
  rw [qRange_map_range 4 loopFuel 0 90 360 (by norm_num [loopFuel]) (by norm_num)
    (by norm_num) (by intro k hk; interval_cases k <;> norm_num)]
  simp [List.range_succ]
  norm_num

/-- C5 counterexample: a filled 4-gon with uniform color and rounding 0
pushes 5 vertices (center plus 4 boundary) and 12 indices, so it emits 4
triangles, not 5 − 2 = 3 as the claim states. -/
theorem C5_counterexample :
    (drawNGon testOracle {} ⟨0, 0⟩ 10 4 (solidStyle ⟨1, 0, 0, 1⟩) 0
      {}).store.defaultBuf.vertexBuffer.length = 5 ∧
    (drawNGon testOracle {} ⟨0, 0⟩ 10 4 (solidStyle ⟨1, 0, 0, 1⟩) 0
      {}).store.defaultBuf.indexBuffer.length = 12 ∧
    (drawNGon testOracle {} ⟨0, 0⟩ 10 4 (solidStyle ⟨1, 0, 0, 1⟩) 0
        {}).store.defaultBuf.indexBuffer.length / 3 ≠
      (drawNGon testOracle {} ⟨0, 0⟩ 10 4 (solidStyle ⟨1, 0, 0, 1⟩) 0
        {}).store.defaultBuf.vertexBuffer.length - 2 := by
  refine ⟨?_, ?_, ?_⟩ <;>
    simp [drawNGon, fillNGon_SC, fillNGonData, show (360 : ℚ) / 4 = 90 by norm_num,
      qRange_four_gon, solidStyle, plainKind, isEqualVec4, BufferStoreData.get,
      BufferStoreData.set, shapeOutlineEpilogue, rotateVertices, isEqualMarg,
      testOracle, convexFillVertices, DrawBuffer.convexFill,
      show List.range' 1 3 = [1, 2, 3] by decide, Function.comp]

/-- ConvexFillVertices appends its triangles after the given index list. -/
theorem convexFillVertices_append (s e : Nat) (idx : List Nat) (skip : Bool) :
    convexFillVertices s e idx skip = idx ++ convexFillVertices s e [] skip := by
  unfold convexFillVertices
  cases skip <;> simp

/-- C5 (amended): ConvexFillVertices over the vertex range [start, end]
emits (end − start) triangles — one fewer than the range size, which for the
center-fan shapes (n-gon, circle, convex polygon, rounded shapes) means
boundary count k + 1 vertices and k triangles, vertices − 1 rather than the
claimed vertices − 2 — with every index in [start, end]; the centerless
rectangle path is the case the claim describes: 4 vertices and 6 indices
(2 = 4 − 2 triangles). -/
theorem C5_fan_triangulation (s e : Nat) (hse : s < e) :
    ((convexFillVertices s e [] false).length / 3 = (e - s + 1) - 1 ∧
      ∀ i ∈ convexFillVertices s e [] false, s ≤ i ∧ i ≤ e) ∧
    ((fillRect_NoRound_SC testOracle {} .default 0 ⟨0, 0⟩ ⟨4, 2⟩ ⟨1, 0, 0, 1⟩
        (solidStyle ⟨1, 0, 0, 1⟩) {}).defaultBuf.vertexBuffer.length = 4 ∧
      (fillRect_NoRound_SC testOracle {} .default 0 ⟨0, 0⟩ ⟨4, 2⟩ ⟨1, 0, 0, 1⟩
        (solidStyle ⟨1, 0, 0, 1⟩) {}).defaultBuf.indexBuffer.length = 6) := by
  have hb := convexFillVertices_bounds s e hse
  refine ⟨⟨?_, hb.2⟩, ?_, ?_⟩
  · rw [hb.1]
    omega
  · simp [fillRect_NoRound_SC, fillRectData, solidStyle, BufferStoreData.get,
      BufferStoreData.set, shapeOutlineEpilogue, rotateVertices, isEqualMarg,
      testOracle]
  · simp [fillRect_NoRound_SC, fillRectData, solidStyle, BufferStoreData.get,
      BufferStoreData.set, shapeOutlineEpilogue, rotateVertices, isEqualMarg,
      testOracle]

/-- C5 witness: the amended statement at start 0, end 4. -/
theorem C5_witness :
    (convexFillVertices 0 4 [] false).length / 3 = 4 ∧
    (fillRect_NoRound_SC testOracle {} .default 0 ⟨0, 0⟩ ⟨4, 2⟩ ⟨1, 0, 0, 1⟩
      (solidStyle ⟨1, 0, 0, 1⟩) {}).defaultBuf.vertexBuffer.length = 4 := by
  have h := C5_fan_triangulation 0 4 (by norm_num)
  exact ⟨h.1.1, h.2.1⟩

/-- C4 counterexample: DrawLines on exactly 2 points rejects the call
through the error callback and pushes nothing, while DrawLine on the same
two points pushes the 4-vertex quad — so the 2-point DrawLines call does not
produce the single-line quad the claim describes. -/
theorem C4_counterexample :
    (drawLines testOracle {} [⟨0, 0⟩, ⟨4, 0⟩] {} .none .miter {}).errorCount = 1 ∧
    (drawLines testOracle {} [⟨0, 0⟩, ⟨4, 0⟩] {} .none .miter
      {}).store.defaultBuf.vertexBuffer.length = 0 ∧
    (drawLine testOracle {} ⟨0, 0⟩ ⟨4, 0⟩ {} .none 0
      {}).store.defaultBuf.vertexBuffer.length = 4 := by
  refine ⟨?_, ?_, ?_⟩
  · simp [drawLines, reportError]
  · simp [drawLines, reportError]
  · rw [drawLine]
    simp only [show (LineCapDirection.none = LineCapDirection.left ∨
        LineCapDirection.none = LineCapDirection.both) = False by simp,
      show (LineCapDirection.none = LineCapDirection.right ∨
        LineCapDirection.none = LineCapDirection.both) = False by simp,
      if_false]
    norm_num [drawSimpleLine, calculateSimpleLine, drawRect, isEqualMarg, isEqualVec4,
      plainKind, testOracle, fillRect_NoRound_SC, fillRectData, BufferStoreData.get,
      BufferStoreData.set, shapeOutlineEpilogue, rotateVertices]

/-- C4 (amended): DrawLines rejects point arrays with fewer than 3 points
through the error callback, emitting nothing; the per-segment quad that the
polyline engine computes (CalculateLine with no cap) has exactly the corner
positions of the single-line special case (CalculateSimpleLine), so a
2-point polyline must instead go through DrawLine, which draws that quad. -/
theorem C4_two_point_polyline (o : MathOracle) (cfg : LinaVGConfig) (st : DrawerState)
    (p1 p2 : Vec2) (style : StyleOptions) (points : List Vec2)
    (cap : LineCapDirection) (jt : LineJointType)
    (hcb : cfg.hasErrorCallback = true) (hlen : points.length < 3) :
    (drawLines o cfg points style cap jt st).store = st.store ∧
    (drawLines o cfg points style cap jt st).errorCount = st.errorCount + 1 ∧
    (calculateLine o p1 p2 style .none).vertices.map (·.pos) =
      (calculateSimpleLine o p1 p2 style).points := by
  refine ⟨?_, ?_, ?_⟩
  · simp [drawLines, hlen, reportError, hcb]
  · simp [drawLines, hlen, reportError, hcb]
  · simp [calculateLine, calculateSimpleLine]

/-- Concrete angle loop of a 36-segment full circle: 36 steps of 10
degrees. -/
theorem qRange_circle_thirtysix_len : (qRange loopFuel 0 360 10).length = 36 := by
  have hlt : ∀ k : Nat, k < 36 → (0 : ℚ) + (k : ℚ) * 10 < 360 := by
    intro k hk
    have hk35 : (k : ℚ) ≤ 35 := by exact_mod_cast Nat.lt_succ_iff.mp hk
    linarith
  rw [qRange_map_range 36 loopFuel 0 10 360 (by norm_num [loopFuel]) (by norm_num)
    (by norm_num) hlt]
  simp

/-- Triangle count of the closed fan over [s, s + k]. -/
theorem convexFillVertices_len (s k : Nat) (idx : List Nat) (hk : 0 < k) :
    (convexFillVertices s (s + k) idx false).length = idx.length + 3 * k := by
  rw [convexFillVertices_append, List.length_append,
    (convexFillVertices_bounds s (s + k) (by omega)).1]
  omega

set_option maxRecDepth 8000 in
/-- C8: DrawCircle turns a start angle equal to the end angle into the full
range [startAngle, startAngle + 360] (line 617), and a filled solid-color
DrawCircle with 36 segments over the default full angle 0..360 pushes
exactly 37 vertices (1 center plus 36 boundary) and 108 indices, that is 36
triangles. -/
theorem C8_circle_full_angle (o : MathOracle) (cfg : LinaVGConfig) (st : DrawerState)
    (center : Vec2) (radius : ℚ) (style : StyleOptions) (segments : ℤ)
    (rot s : ℚ) (heps : 0 ≤ o.eps) :
    drawCircle o cfg center radius style segments rot s s st =
      drawCircle o cfg center radius style segments rot s (s + 360) st ∧
    (drawCircle o cfg ⟨0, 0⟩ 10 (solidStyle ⟨1, 0, 0, 1⟩) 36 0 0 360
        st).store.defaultBuf.vertexBuffer.length =
      st.store.defaultBuf.vertexBuffer.length + 37 ∧
    (drawCircle o cfg ⟨0, 0⟩ 10 (solidStyle ⟨1, 0, 0, 1⟩) 36 0 0 360
        st).store.defaultBuf.indexBuffer.length =
      st.store.defaultBuf.indexBuffer.length + 108 := by
  have hm : isEqualMarg o.eps 0 0 = true := by
    simp [isEqualMarg]
    exact heps
  have hne : (s = s + 360) = False := eq_false (by intro h; linarith)
  have hv : (fillCircleData o true ⟨0, 0⟩ 10 36 0 360).length = 37 := by
    norm_num [fillCircleData, qRange_circle_thirtysix_len,
      show max 6 (min (36 : ℤ) 180) = 36 by norm_num]
  refine ⟨?_, ?_, ?_⟩
  · simp only [drawCircle, hne, if_false, eq_self_iff_true, if_true]
  · simp only [drawCircle, fillCircle_SC, solidStyle, plainKind, isEqualVec4,
      BufferStoreData.get, BufferStoreData.set, circleOutlineEpilogue, hm]
    norm_num [hv]
  · simp only [drawCircle, fillCircle_SC, solidStyle, plainKind, isEqualVec4,
      BufferStoreData.get, BufferStoreData.set, circleOutlineEpilogue, hm]
    norm_num [hv, DrawBuffer.convexFill, convexFillVertices_len]

/-- C8 witness: the full-angle rewrite and the counts at a concrete call. -/
theorem C8_witness :
    drawCircle testOracle {} ⟨0, 0⟩ 10 {} 36 0 45 45 {} =
      drawCircle testOracle {} ⟨0, 0⟩ 10 {} 36 0 45 (45 + 360) {} ∧
    (drawCircle testOracle {} ⟨0, 0⟩ 10 (solidStyle ⟨1, 0, 0, 1⟩) 36 0 0 360
      {}).store.defaultBuf.vertexBuffer.length = 37 ∧
    (drawCircle testOracle {} ⟨0, 0⟩ 10 (solidStyle ⟨1, 0, 0, 1⟩) 36 0 0 360
      {}).store.defaultBuf.indexBuffer.length = 108 := by
  have h := C8_circle_full_angle testOracle {} {} ⟨0, 0⟩ 10 {} 36 0 45
    (by norm_num [testOracle])
  refine ⟨h.1, ?_, ?_⟩
  · have h2 := h.2.1
    simpa [show ({} : DrawerState).store.defaultBuf.vertexBuffer.length = 0 from rfl]
      using h2
  · have h3 := h.2.2
    simpa [show ({} : DrawerState).store.defaultBuf.indexBuffer.length = 0 from rfl]
      using h3

/-- Linear interpolation at parameter one reaches the end color. -/
theorem lerpV4_one (a b : Vec4) : lerpV4 a b 1 = b := by
  cases a
  cases b
  simp only [lerpV4, lerpQ, Vec4.mk.injEq]
  exact ⟨by ring, by ring, by ring, by ring⟩

/-- C3 counterexample: drawing the text "ab" with a horizontal gradient from
white to black colors the first glyph quad white on its left edge and
mid-gray on its right edge, and the second quad mid-gray on its left edge
and black on its right edge — the first quad is not entirely white and the
second is not entirely black. -/
theorem C3_counterexample :
    (drawText testOracle {} abFont [97, 98] ⟨0, 0⟩ ⟨0, 0⟩
        ⟨⟨1, 1, 1, 1⟩, ⟨0, 0, 0, 1⟩, .horizontal⟩ 0 true 1
        ⟨0, 0, 0, 0⟩).vertexBuffer.map (fun v => v.col) =
      [⟨1, 1, 1, 1⟩, ⟨1/2, 1/2, 1/2, 1⟩, ⟨1/2, 1/2, 1/2, 1⟩, ⟨1, 1, 1, 1⟩,
       ⟨1/2, 1/2, 1/2, 1⟩, ⟨0, 0, 0, 1⟩, ⟨0, 0, 0, 1⟩, ⟨1/2, 1/2, 1/2, 1⟩] := by
  norm_num [drawText, abFont, testOracle, isEqualMarg, customRound, lerpV4, lerpQ]

/-- C3 (amended): the horizontal per-character text gradient interpolates by
cumulative character index over total character count, but across each
glyph: glyph k of a two-character text takes the running gradient color
Lerp(start, end, k/2) on its left edge (vertices 0 and 3) and
Lerp(start, end, (k+1)/2) on its right edge (vertices 1 and 2) — so for
white to black the first quad fades white to mid-gray and the second
mid-gray to black, and no quad is a single solid gradient stop. -/
theorem C3_text_gradient (cs ce : Vec4) :
    (drawText testOracle {} abFont [97, 98] ⟨0, 0⟩ ⟨0, 0⟩ ⟨cs, ce, .horizontal⟩ 0 true 1
        ⟨0, 0, 0, 0⟩).vertexBuffer.map (fun v => v.col) =
      [cs, lerpV4 cs ce (1/2), lerpV4 cs ce (1/2), cs,
       lerpV4 cs ce (1/2), ce, ce, lerpV4 cs ce (1/2)] := by
  norm_num [drawText, abFont, testOracle, isEqualMarg, customRound, lerpV4_one]

/-- C9 counterexample: DrawConvex on the triangle (0,0), (-1,-3), (-2,-1)
leaves the bounding-box fold's running maximum x at its -99999 seed (each
point's x is below the running minimum, so the else-if skips the maximum
update), and the resulting UVs include negative x values and a y of 3/2 —
outside [0,1] — and no vertex gets UV (0,0) or (1,1). -/
theorem C9_counterexample :
    (getConvexBoundingBoxPts [⟨0, 0⟩, ⟨-1, -3⟩, ⟨-2, -1⟩]).2.x = -99999 ∧
    ((drawConvex testOracle {} [⟨0, 0⟩, ⟨-1, -3⟩, ⟨-2, -1⟩] (solidStyle ⟨1, 0, 0, 1⟩) 0
        {}).store.defaultBuf.vertexBuffer.map (fun v => v.uv)) =
      [⟨-1/99997, 5/6⟩, ⟨-2/99997, 3/2⟩, ⟨-1/99997, 0⟩, ⟨0, 1⟩] := by
  constructor
  · norm_num [getConvexBoundingBoxPts]
  · norm_num [drawConvex, fillConvex_SC, getConvexBoundingBoxPts,
      getPolygonCentroidFast, remapQ, solidStyle, plainKind, isEqualVec4,
      BufferStoreData.get, BufferStoreData.set, shapeOutlineEpilogue,
      rotateVertices, isEqualMarg, testOracle, DrawBuffer.convexFill]

/-- Remap of a value bracketed by a box with positive extent lies in the
unit interval. -/
theorem remapQ_unit (v lo hi : ℚ) (hlt : lo < hi) (h1 : lo ≤ v) (h2 : v ≤ hi) :
    0 ≤ remapQ v lo hi 0 1 ∧ remapQ v lo hi 0 1 ≤ 1 := by
  have hpos : (0 : ℚ) < hi - lo := by linarith
  unfold remapQ
  constructor
  · have hq := div_nonneg (by nlinarith : (0 : ℚ) ≤ (v - lo) * (1 - 0)) (le_of_lt hpos)
    linarith
  · have h3 : (v - lo) * (1 - 0) / (hi - lo) ≤ 1 := by
      rw [div_le_one hpos]
      nlinarith
    linarith

/-- Remap sends the lower end of the box to exactly 0. -/
theorem remapQ_lo (lo hi : ℚ) : remapQ lo lo hi 0 1 = 0 := by
  simp [remapQ]

/-- Remap sends the upper end of a nondegenerate box to exactly 1. -/
theorem remapQ_hi (lo hi : ℚ) (h : lo < hi) : remapQ hi lo hi 0 1 = 1 := by
  have hne : hi - lo ≠ 0 := by intro hz; rw [sub_eq_zero] at hz; exact absurd hz (by linarith)
  field_simp [remapQ]

/-- C9 (amended): CalculateVertexUVs remaps each vertex of the range against
the bounding box that GetConvexBoundingBox computed, so a vertex whose
position that box actually brackets (with positive extent on both axes)
receives a UV in [0,1]x[0,1], a vertex exactly at the box minimum corner
receives UV (0,0) and one at the maximum corner receives (1,1); because of
the else-if seed bug in the bounding-box fold the computed box need not
bracket the shape, and then UVs fall outside [0,1] and the corners are
missed. -/
theorem C9_uv_bounding_box_remap (buf : DrawBuffer) (s e i : Nat)
    (hi : i < buf.vertexBuffer.length) (hsi : s ≤ i) (hie : i ≤ e)
    (hx : (getConvexBoundingBoxBuf buf s e).1.x < (getConvexBoundingBoxBuf buf s e).2.x)
    (hy : (getConvexBoundingBoxBuf buf s e).1.y < (getConvexBoundingBoxBuf buf s e).2.y)
    (hbx1 : (getConvexBoundingBoxBuf buf s e).1.x ≤ (buf.vertexBuffer.getD i {}).pos.x)
    (hbx2 : (buf.vertexBuffer.getD i {}).pos.x ≤ (getConvexBoundingBoxBuf buf s e).2.x)
    (hby1 : (getConvexBoundingBoxBuf buf s e).1.y ≤ (buf.vertexBuffer.getD i {}).pos.y)
    (hby2 : (buf.vertexBuffer.getD i {}).pos.y ≤ (getConvexBoundingBoxBuf buf s e).2.y) :
    (0 ≤ ((calculateVertexUVs buf s e).vertexBuffer.getD i {}).uv.x ∧
      ((calculateVertexUVs buf s e).vertexBuffer.getD i {}).uv.x ≤ 1 ∧
      0 ≤ ((calculateVertexUVs buf s e).vertexBuffer.getD i {}).uv.y ∧
      ((calculateVertexUVs buf s e).vertexBuffer.getD i {}).uv.y ≤ 1) ∧
    ((buf.vertexBuffer.getD i {}).pos = (getConvexBoundingBoxBuf buf s e).1 →
      ((calculateVertexUVs buf s e).vertexBuffer.getD i {}).uv = ⟨0, 0⟩) ∧
    ((buf.vertexBuffer.getD i {}).pos = (getConvexBoundingBoxBuf buf s e).2 →
      ((calculateVertexUVs buf s e).vertexBuffer.getD i {}).uv = ⟨1, 1⟩) := by
  have hlen : (calculateVertexUVs buf s e).vertexBuffer.length =
      buf.vertexBuffer.length := by
    simp [calculateVertexUVs]
  have huv : ((calculateVertexUVs buf s e).vertexBuffer.getD i {}).uv =
      ⟨remapQ (buf.vertexBuffer.getD i {}).pos.x (getConvexBoundingBoxBuf buf s e).1.x
          (getConvexBoundingBoxBuf buf s e).2.x 0 1,
        remapQ (buf.vertexBuffer.getD i {}).pos.y (getConvexBoundingBoxBuf buf s e).1.y
          (getConvexBoundingBoxBuf buf s e).2.y 0 1⟩ := by
    rw [List.getD_eq_getElem _ _ (hlen ▸ hi), List.getD_eq_getElem _ _ hi]
    simp [calculateVertexUVs, List.getElem_mapIdx, hsi, hie]
  rw [huv]
  refine ⟨⟨(remapQ_unit _ _ _ hx hbx1 hbx2).1, (remapQ_unit _ _ _ hx hbx1 hbx2).2,
    (remapQ_unit _ _ _ hy hby1 hby2).1, (remapQ_unit _ _ _ hy hby1 hby2).2⟩, ?_, ?_⟩
  · intro hmin
    have hpx := congrArg Vec2.x hmin
    have hpy := congrArg Vec2.y hmin
    simp only at hpx hpy
    rw [hpx, hpy, remapQ_lo, remapQ_lo]
  · intro hmax
    have hpx := congrArg Vec2.x hmax
    have hpy := congrArg Vec2.y hmax
    simp only at hpx hpy
    rw [hpx, hpy, remapQ_hi _ _ hx, remapQ_hi _ _ hy]

/-- C9 witness: a two-vertex range whose computed box is ((0,0),(1,1)); the
vertex at the box maximum gets UV exactly (1,1) and its UV lies in the unit
box. -/
theorem C9_witness :
    ((calculateVertexUVs { vertexBuffer := [{ pos := ⟨0, 0⟩ }, { pos := ⟨1, 1⟩ }] } 0
        1).vertexBuffer.getD 1 {}).uv = ⟨1, 1⟩ ∧
    0 ≤ ((calculateVertexUVs { vertexBuffer := [{ pos := ⟨0, 0⟩ }, { pos := ⟨1, 1⟩ }] } 0
        1).vertexBuffer.getD 1 {}).uv.x := by
  have h := C9_uv_bounding_box_remap
    { vertexBuffer := [{ pos := ⟨0, 0⟩ }, { pos := ⟨1, 1⟩ }] } 0 1 1
    (by norm_num)
    (by norm_num)
    (by norm_num)
    (by norm_num [getConvexBoundingBoxBuf, getConvexBoundingBoxVtx,
      getConvexBoundingBoxPts])
    (by norm_num [getConvexBoundingBoxBuf, getConvexBoundingBoxVtx,
      getConvexBoundingBoxPts])
    (by norm_num [getConvexBoundingBoxBuf, getConvexBoundingBoxVtx,
      getConvexBoundingBoxPts, List.getD])
    (by norm_num [getConvexBoundingBoxBuf, getConvexBoundingBoxVtx,
      getConvexBoundingBoxPts, List.getD])
    (by norm_num [getConvexBoundingBoxBuf, getConvexBoundingBoxVtx,
      getConvexBoundingBoxPts, List.getD])
    (by norm_num [getConvexBoundingBoxBuf, getConvexBoundingBoxVtx,
      getConvexBoundingBoxPts, List.getD])
  refine ⟨h.2.2 ?_, h.1.1⟩
  norm_num [getConvexBoundingBoxBuf, getConvexBoundingBoxVtx, getConvexBoundingBoxPts,
    List.getD]

/-- C4 witness: concrete instances of the amended statement. -/
theorem C4_witness :
    (drawLines testOracle {} [⟨0, 0⟩, ⟨4, 0⟩] {} .none .miter {}).errorCount = 1 ∧
    (calculateLine testOracle ⟨0, 0⟩ ⟨4, 0⟩ {} .none).vertices.map (·.pos) =
      (calculateSimpleLine testOracle ⟨0, 0⟩ ⟨4, 0⟩ {}).points := by
  have h := C4_two_point_polyline testOracle {} {} ⟨0, 0⟩ ⟨4, 0⟩ {} [⟨0, 0⟩, ⟨4, 0⟩]
    .none .miter rfl (by norm_num)
  exact ⟨h.2.1, h.2.2⟩

/-! Well-indexedness infrastructure: the store, buffer and fold lemmas used
to check that every draw operation only pushes in-range indices. -/

/-- Reading back a written buffer, or another kind unchanged. -/
theorem BufferStoreData.get_set (s : BufferStoreData) (k j : BufKind) (b : DrawBuffer) :
    (s.set k b).get j = if j = k then b else s.get j := by
  cases k <;> cases j <;> simp [BufferStoreData.get, BufferStoreData.set]

/-- The text caches and override records do not affect the buffers. -/
theorem BufferStoreData.get_textCache (s : BufferStoreData) (c : List TextCacheEntry)
    (k : BufKind) : ({ s with textCache := c }).get k = s.get k := by
  cases k <;> rfl

/-- The SDF text cache does not affect the buffers. -/
theorem BufferStoreData.get_sdfTextCache (s : BufferStoreData) (c : List TextCacheEntry)
    (k : BufKind) : ({ s with sdfTextCache := c }).get k = s.get k := by
  cases k <;> rfl

/-- The rectangle override record does not affect the buffers. -/
theorem BufferStoreData.get_rectOverride (s : BufferStoreData) (r : RectOverrideData)
    (k : BufKind) : ({ s with rectOverride := r }).get k = s.get k := by
  cases k <;> rfl

/-- Writing a well-indexed buffer into a well-indexed store keeps the store
well indexed. -/
theorem BufferStoreData.wellIndexed_set (s : BufferStoreData) (k : BufKind)
    (b : DrawBuffer) (hs : s.wellIndexed) (hb : b.wellIndexed) :
    (s.set k b).wellIndexed := by
  intro j
  rw [BufferStoreData.get_set]
  split
  · exact hb
  · exact hs j

/-- Updating one buffer with a well-indexedness-preserving function keeps
the store well indexed. -/
theorem BufferStoreData.wellIndexed_modify (s : BufferStoreData) (k : BufKind)
    (f : DrawBuffer → DrawBuffer) (hs : s.wellIndexed)
    (hf : (f (s.get k)).wellIndexed) : (s.modify k f).wellIndexed :=
  BufferStoreData.wellIndexed_set s k _ hs hf

/-- Pushing vertices alone keeps a buffer well indexed. -/
theorem DrawBuffer.wellIndexed_pushVertexList (b : DrawBuffer) (vs : List Vertex)
    (hb : b.wellIndexed) : (b.pushVertexList vs).wellIndexed := by
  intro i hi
  simp only [pushVertexList_indexBuffer] at hi
  simp only [pushVertexList_vertexBuffer, List.length_append]
  exact Nat.lt_of_lt_of_le (hb i hi) (Nat.le_add_right _ _)

/-- Pushing one vertex alone keeps a buffer well indexed. -/
theorem DrawBuffer.wellIndexed_pushVertex (b : DrawBuffer) (v : Vertex)
    (hb : b.wellIndexed) : (b.pushVertex v).wellIndexed := by
  intro i hi
  simp only [pushVertex_indexBuffer] at hi
  simp only [pushVertex_vertexBuffer, List.length_append]
  exact Nat.lt_of_lt_of_le (hb i hi) (Nat.le_add_right _ _)

/-- Pushing indices below the current vertex count keeps a buffer well
indexed. -/
theorem DrawBuffer.wellIndexed_pushIndexList (b : DrawBuffer) (is : List Nat)
    (hb : b.wellIndexed) (h : ∀ i ∈ is, i < b.vertexBuffer.length) :
    (b.pushIndexList is).wellIndexed := by
  intro i hi
  simp only [pushIndexList_indexBuffer, List.mem_append] at hi
  simp only [pushIndexList_vertexBuffer]
  rcases hi with hi | hi
  · exact hb i hi
  · exact h i hi

/-- The UV recomputation keeps a buffer well indexed: it changes neither the
index array nor the vertex count. -/
theorem DrawBuffer.wellIndexed_calculateVertexUVs (b : DrawBuffer) (s e : Nat)
    (hb : b.wellIndexed) : (calculateVertexUVs b s e).wellIndexed := by
  intro i hi
  simp only [calculateVertexUVs_indexBuffer] at hi
  simp only [calculateVertexUVs_length]
  exact hb i hi

/-- Rewriting vertex positions in place (rotation) keeps a buffer well
indexed. -/
theorem DrawBuffer.wellIndexed_rotated (b : DrawBuffer) (o : MathOracle) (c : Vec2)
    (s e : Nat) (a : ℚ) (hb : b.wellIndexed) :
    ({ b with vertexBuffer := rotateVertices o b.vertexBuffer c s e a } :
      DrawBuffer).wellIndexed := by
  intro i hi
  simp only at hi
  simp only [rotateVertices_length]
  exact hb i hi

/-- A fold preserves an invariant preserved by every step. -/
theorem foldl_invariant {σ α : Type} (P : σ → Prop) (g : σ → α → σ) :
    ∀ (l : List α) (a : σ), P a → (∀ s x, x ∈ l → P s → P (g s x)) →
      P (l.foldl g a) := by
  intro l
  induction l with
  | nil => intro a hP _; simpa using hP
  | cons h t ih =>
    intro a hP hg
    exact ih (g a h) (hg a h (List.mem_cons_self h t) hP)
      (fun s x hx hs => hg s x (List.mem_cons_of_mem h hx) hs)

/-- A fold whose steps do not touch the index array leaves it unchanged. -/
theorem foldl_indexBuffer_eq {α : Type} (g : DrawBuffer → α → DrawBuffer)
    (hg : ∀ b x, (g b x).indexBuffer = b.indexBuffer) :
    ∀ (l : List α) (b : DrawBuffer), (l.foldl g b).indexBuffer = b.indexBuffer := by
  intro l
  induction l with
  | nil => intro b; rfl
  | cons h t ih => intro b; rw [List.foldl_cons, ih, hg]

/-- A fold whose steps push exactly one vertex grows the vertex count by the
list length. -/
theorem foldl_length_add_one {α : Type} (g : DrawBuffer → α → DrawBuffer)
    (hg : ∀ b x, (g b x).vertexBuffer.length = b.vertexBuffer.length + 1) :
    ∀ (l : List α) (b : DrawBuffer),
      (l.foldl g b).vertexBuffer.length = b.vertexBuffer.length + l.length := by
  intro l
  induction l with
  | nil => intro b; rfl
  | cons h t ih => intro b; rw [List.foldl_cons, ih, hg]; simp; omega

/-- Every index the fan triangulation appends is the fan center, the second
vertex of the closing triangle, or bounded by the range end. -/
theorem convexFillVertices_mem (s e : Nat) (idx : List Nat) (skip : Bool) :
    ∀ i ∈ convexFillVertices s e idx skip, i ∈ idx ∨ i = s ∨ i = s + 1 ∨ i ≤ e := by
  intro i hi
  unfold convexFillVertices at hi
  have hflat : ∀ j ∈ (List.range' (s + 1) (e - (s + 1))).flatMap
      (fun j => [s, j, j + 1]), j = s ∨ j ≤ e := by
    intro j hj
    rcases List.mem_flatMap.mp hj with ⟨m, hm, hjm⟩
    have hm2 := List.mem_range'.mp hm
    simp only [List.mem_cons, List.mem_singleton] at hjm
    rcases hjm with rfl | rfl | rfl | hfalse
    · exact Or.inl rfl
    · omega
    · omega
    · simp at hfalse
  rcases skip with _ | _
  · simp only [Bool.not_false, if_true] at hi
    rcases List.mem_append.mp hi with h | h
    · rcases List.mem_append.mp h with h | h
      · exact Or.inl h
      · rcases hflat i h with h | h
        · exact Or.inr (Or.inl h)
        · exact Or.inr (Or.inr (Or.inr h))
    · simp only [List.mem_cons, List.mem_singleton] at h
      rcases h with rfl | rfl | rfl | hfalse
      · exact Or.inr (Or.inl rfl)
      · exact Or.inr (Or.inr (Or.inl rfl))
      · exact Or.inr (Or.inr (Or.inr (le_refl _)))
      · simp at hfalse
  · simp only [Bool.not_true, if_false] at hi
    rcases List.mem_append.mp hi with h | h
    · exact Or.inl h
    · rcases hflat i h with h | h
      · exact Or.inr (Or.inl h)
      · exact Or.inr (Or.inr (Or.inr h))

/-- Appending fan triangles over a range that lies strictly inside the
buffer keeps it well indexed. -/
theorem DrawBuffer.wellIndexed_convexFill (b : DrawBuffer) (s e : Nat) (skip : Bool)
    (hb : b.wellIndexed) (hs : s + 1 < b.vertexBuffer.length)
    (he : e < b.vertexBuffer.length) : (b.convexFill s e skip).wellIndexed := by
  intro i hi
  simp only [convexFill_indexBuffer] at hi
  simp only [convexFill_vertexBuffer]
  rcases convexFillVertices_mem s e b.indexBuffer skip i hi with h | h | h | h
  · exact hb i h
  · omega
  · omega
  · omega

/-- The loop list of a loop whose entry condition holds is nonempty. -/
theorem qRange_length_pos (s stop step : ℚ) (h : s < stop) :
    1 ≤ (qRange loopFuel s stop step).length := by
  have hq : qRange loopFuel s stop step =
      if s < stop then s :: qRange 999 (s + step) stop step else [] := rfl
  rw [hq, if_pos h]
  simp

/-- Modifying a kind and reading it back applies the function. -/
theorem BufferStoreData.get_modify_self (s : BufferStoreData) (k : BufKind)
    (f : DrawBuffer → DrawBuffer) : (s.modify k f).get k = f (s.get k) := by
  simp [BufferStoreData.modify, BufferStoreData.get_set]

/-- The outline generators copy a ring of vertices, extrude a second ring
and stitch them: pushing the two rings and then any indices below the grown
vertex count keeps the store well indexed. -/
theorem wellIndexed_ring_stitch (store : BufferStoreData) (k : BufKind)
    (L1 L2 : List Vertex) (idx : List Nat) (hs : store.wellIndexed)
    (hidx : ∀ i ∈ idx,
      i < (store.get k).vertexBuffer.length + (L1.length + L2.length)) :
    (((store.modify k fun bb => bb.pushVertexList L1).modify k fun bb =>
        bb.pushVertexList L2).modify k fun bb => bb.pushIndexList idx).wellIndexed := by
  have h1 : (store.modify k fun bb => bb.pushVertexList L1).wellIndexed :=
    BufferStoreData.wellIndexed_modify _ _ _ hs
      (DrawBuffer.wellIndexed_pushVertexList _ _ (hs k))
  have h2 : ((store.modify k fun bb => bb.pushVertexList L1).modify k fun bb =>
      bb.pushVertexList L2).wellIndexed :=
    BufferStoreData.wellIndexed_modify _ _ _ h1
      (DrawBuffer.wellIndexed_pushVertexList _ _ (h1 k))
  have hlen : (((store.modify k fun bb => bb.pushVertexList L1).modify k fun bb =>
      bb.pushVertexList L2).get k).vertexBuffer.length =
      (store.get k).vertexBuffer.length + (L1.length + L2.length) := by
    simp [BufferStoreData.get_modify_self]
  apply BufferStoreData.wellIndexed_modify _ _ _ h2
  apply DrawBuffer.wellIndexed_pushIndexList _ _ (h2 k)
  rw [hlen]
  exact hidx

/-- As wellIndexed_ring_stitch, with the optional UV recomputation of the
textured/gradient outline paths between the rings and the stitch. -/
theorem wellIndexed_ring_stitch_uv (store : BufferStoreData) (k : BufKind)
    (L1 L2 : List Vertex) (c : Prop) [Decidable c] (a b : Nat) (idx : List Nat)
    (hs : store.wellIndexed)
    (hidx : ∀ i ∈ idx,
      i < (store.get k).vertexBuffer.length + (L1.length + L2.length)) :
    ((if c then
        ((store.modify k fun bb => bb.pushVertexList L1).modify k fun bb =>
          bb.pushVertexList L2).modify k fun bb => calculateVertexUVs bb a b
      else
        (store.modify k fun bb => bb.pushVertexList L1).modify k fun bb =>
          bb.pushVertexList L2).modify k fun bb => bb.pushIndexList idx).wellIndexed := by
  have h1 : (store.modify k fun bb => bb.pushVertexList L1).wellIndexed :=
    BufferStoreData.wellIndexed_modify _ _ _ hs
      (DrawBuffer.wellIndexed_pushVertexList _ _ (hs k))
  have h2 : ((store.modify k fun bb => bb.pushVertexList L1).modify k fun bb =>
      bb.pushVertexList L2).wellIndexed :=
    BufferStoreData.wellIndexed_modify _ _ _ h1
      (DrawBuffer.wellIndexed_pushVertexList _ _ (h1 k))
  have hlen : (((store.modify k fun bb => bb.pushVertexList L1).modify k fun bb =>
      bb.pushVertexList L2).get k).vertexBuffer.length =
      (store.get k).vertexBuffer.length + (L1.length + L2.length) := by
    simp [BufferStoreData.get_modify_self]
  split
  · apply BufferStoreData.wellIndexed_modify
    · exact BufferStoreData.wellIndexed_modify _ _ _ h2
        (DrawBuffer.wellIndexed_calculateVertexUVs _ _ _ (h2 k))
    · apply DrawBuffer.wellIndexed_pushIndexList
      · exact (BufferStoreData.wellIndexed_modify _ _ _ h2
          (DrawBuffer.wellIndexed_calculateVertexUVs _ _ _ (h2 k))) k
      · rw [BufferStoreData.get_modify_self]
        simp only [calculateVertexUVs_length]
        rw [hlen]
        exact hidx
  · apply BufferStoreData.wellIndexed_modify _ _ _ h2
    apply DrawBuffer.wellIndexed_pushIndexList _ _ (h2 k)
    rw [hlen]
    exact hidx

/-- The indices of the DrawOutline ring stitch stay below the two pushed
ring sizes. -/
theorem stitch_indices_bound (d T K : Nat) (hK : K ≤ T) (hT : 1 ≤ T) :
    ∀ j ∈ (List.range' d K).flatMap (fun i =>
      [i, if i + 1 ≥ d + T then d else i + 1, i + T,
       if i + 1 ≥ d + T then d else i + 1,
       (if i + 1 ≥ d + T then d else i + 1) + T, i + T]), j < d + (T + T) := by
  intro j hj
  rcases List.mem_flatMap.mp hj with ⟨i, hi, hji⟩
  have hi2 := List.mem_range'.mp hi
  have hnext : (if i + 1 ≥ d + T then d else i + 1) ≤ d + T - 1 := by
    split <;> omega
  simp only [List.mem_cons, List.mem_singleton] at hji
  rcases hji with rfl | rfl | rfl | rfl | rfl | rfl | hfalse
  · omega
  · omega
  · omega
  · omega
  · omega
  · omega
  · simp at hfalse

/-- The indices of the DrawOutlineAroundShape ring stitch stay below the two
pushed ring sizes. -/
theorem ring_indices_bound (d V : Nat) :
    ∀ j ∈ (List.range V).flatMap (fun i =>
      [d + i, if i = V - 1 then d else d + i + 1, d + i + V,
       if i = V - 1 then d else d + i + 1,
       (if i = V - 1 then d else d + i + 1) + V, d + i + V]), j < d + (V + V) := by
  intro j hj
  rcases List.mem_flatMap.mp hj with ⟨i, hi, hji⟩
  have hi2 := List.mem_range.mp hi
  have hnext : (if i = V - 1 then d else d + i + 1) ≤ d + V - 1 := by
    split <;> omega
  simp only [List.mem_cons, List.mem_singleton] at hji
  rcases hji with rfl | rfl | rfl | rfl | rfl | rfl | hfalse
  · omega
  · omega
  · omega
  · omega
  · omega
  · omega
  · simp at hfalse

/-- The copyAndFill pass of DrawOutline keeps the store well indexed: the
stitch indices are destination-local offsets below the two ring sizes just
pushed. -/
theorem wellIndexed_outlineCopyAndFill (o : MathOracle) (isAA skipEnds : Bool)
    (opts : StyleOptions) (srcKind destKind : BufKind) (s e : Nat) (t : ℚ)
    (re : Bool) (store : BufferStoreData) (hs : store.wellIndexed) :
    (outlineCopyAndFill o isAA skipEnds opts srcKind destKind s e t re
      store).wellIndexed := by
  unfold outlineCopyAndFill
  apply wellIndexed_ring_stitch_uv _ _ _ _ _ _ _ _ hs
  simp only [List.length_map, List.length_range']
  apply stitch_indices_bound
  · split <;> omega
  · omega

/-- The AA/OutlineAA variant of DrawOutlineAroundShape keeps the store well
indexed. -/
theorem wellIndexed_drawOutlineAroundShapeNN (o : MathOracle) (cfg : LinaVGConfig)
    (srcKind : BufKind) (opts : StyleOptions) (indicesOrder : List Nat)
    (vertexCount : Nat) (dt : ℚ) (ccw : Bool) (ot : OutlineCallType)
    (store : BufferStoreData) (hs : store.wellIndexed) :
    ((drawOutlineAroundShapeNN o cfg srcKind opts indicesOrder vertexCount dt ccw ot
      store).2).wellIndexed := by
  unfold drawOutlineAroundShapeNN
  dsimp only
  apply wellIndexed_ring_stitch _ _ _ _ _ hs
  simp only [List.length_map, List.length_range]
  apply ring_indices_bound

/-- The Normal DrawOutlineAroundShape keeps the store well indexed, nested
AA fringes included. -/
theorem wellIndexed_drawOutlineAroundShape (o : MathOracle) (cfg : LinaVGConfig)
    (srcKind : BufKind) (opts : StyleOptions) (indicesOrder : List Nat)
    (vertexCount : Nat) (dt : ℚ) (ccw : Bool) (store : BufferStoreData)
    (hs : store.wellIndexed) :
    ((drawOutlineAroundShape o cfg srcKind opts indicesOrder vertexCount dt ccw
      store).2).wellIndexed := by
  unfold drawOutlineAroundShape
  dsimp only
  split
  · dsimp only
    apply wellIndexed_drawOutlineAroundShapeNN
    apply wellIndexed_drawOutlineAroundShapeNN
    apply wellIndexed_ring_stitch_uv _ _ _ _ _ _ _ _ hs
    simp only [List.length_map, List.length_range]
    apply ring_indices_bound
  · dsimp only
    apply wellIndexed_ring_stitch_uv _ _ _ _ _ _ _ _ hs
    simp only [List.length_map, List.length_range]
    apply ring_indices_bound

/-- The AA/OutlineAA variant of DrawOutline keeps the store well indexed. -/
theorem wellIndexed_drawOutlineNN (o : MathOracle) (cfg : LinaVGConfig)
    (srcKind : BufKind) (opts : StyleOptions) (vertexCount : Nat) (skipEnds : Bool)
    (ot : OutlineCallType) (rdd : Bool) (store : BufferStoreData)
    (hs : store.wellIndexed) :
    ((drawOutlineNN o cfg srcKind opts vertexCount skipEnds ot rdd
      store).2).wellIndexed := by
  unfold drawOutlineNN
  dsimp only
  repeat' split
  all_goals solve_by_elim [wellIndexed_outlineCopyAndFill]

/-- The Normal DrawOutline keeps the store well indexed, nested AA fringes
included. -/
theorem wellIndexed_drawOutline (o : MathOracle) (cfg : LinaVGConfig)
    (srcKind : BufKind) (opts : StyleOptions) (vertexCount : Nat) (skipEnds : Bool)
    (store : BufferStoreData) (hs : store.wellIndexed) :
    ((drawOutline o cfg srcKind opts vertexCount skipEnds store).2).wellIndexed := by
  unfold drawOutline
  dsimp only
  repeat' split
  all_goals
    repeat'
      first
        | exact hs
        | apply wellIndexed_outlineCopyAndFill
        | apply wellIndexed_drawOutlineNN

/-- The outline/AA epilogue of the shape fills keeps the store well
indexed. -/
theorem wellIndexed_shapeOutlineEpilogue (o : MathOracle) (cfg : LinaVGConfig)
    (kind : BufKind) (opts : StyleOptions) (vc : Nat) (skipEnds : Bool)
    (store : BufferStoreData) (hs : store.wellIndexed) :
    (shapeOutlineEpilogue o cfg kind opts vc skipEnds store).wellIndexed := by
  unfold shapeOutlineEpilogue
  dsimp only
  repeat' split
  all_goals
    repeat'
      first
        | exact hs
        | apply wellIndexed_drawOutline
        | apply wellIndexed_drawOutlineNN

/-- The outline/AA epilogue of the circle fills keeps the store well
indexed. -/
theorem wellIndexed_circleOutlineEpilogue (o : MathOracle) (cfg : LinaVGConfig)
    (kind : BufKind) (opts : StyleOptions) (isFullCircle : Bool)
    (totalSize vSize startIndex : Nat) (descendingFilled : Bool)
    (store : BufferStoreData) (hs : store.wellIndexed) :
    (circleOutlineEpilogue o cfg kind opts isFullCircle totalSize vSize startIndex
      descendingFilled store).wellIndexed := by
  unfold circleOutlineEpilogue
  dsimp only
  repeat' split
  all_goals
    repeat'
      first
        | exact hs
        | apply wellIndexed_drawOutline
        | apply wellIndexed_drawOutlineNN
        | apply wellIndexed_drawOutlineAroundShape
        | apply wellIndexed_drawOutlineAroundShapeNN

/-- ConvexExtrudeVertices keeps a buffer well indexed when the extruded
range lies inside the buffer: the quad-strip indices stay below the original
count plus the extruded ring size. -/
theorem wellIndexed_convexExtrudeVertices (o : MathOracle) (buf : DrawBuffer)
    (opts : StyleOptions) (c : Vec2) (s e : Nat) (t : ℚ) (skip : Bool)
    (hb : buf.wellIndexed) (hse : s + (e - s + 1) ≤ buf.vertexBuffer.length) :
    (convexExtrudeVertices o buf opts c s e t skip).wellIndexed := by
  unfold convexExtrudeVertices
  dsimp only
  refine And.left (foldl_invariant
    (fun b : DrawBuffer => b.wellIndexed ∧
      b.vertexBuffer.length = buf.vertexBuffer.length + (e - s + 1))
    _ _ _ ⟨?_, ?_⟩ ?_)
  · apply DrawBuffer.wellIndexed_calculateVertexUVs
    refine foldl_invariant DrawBuffer.wellIndexed _ _ _ hb ?_
    intro b x _ hbw
    exact DrawBuffer.wellIndexed_pushVertex _ _ hbw
  · simp only [calculateVertexUVs_length]
    rw [foldl_length_add_one _ (by intro b x; simp)]
    simp
  · intro b x hx hP
    rcases hP with ⟨hbw, hblen⟩
    have hx2 := List.mem_range'.mp hx
    constructor
    · apply DrawBuffer.wellIndexed_pushIndexList _ _ hbw
      intro j hj
      rw [hblen]
      have hK : (if skip then e - s + 1 - 1 else e - s + 1) ≤ e - s + 1 := by
        split <;> omega
      have hnext : (if x + 1 ≥ s + (e - s + 1) then s else x + 1) ≤ s + (e - s + 1) - 1 := by
        split <;> omega
      simp only [List.mem_cons, List.mem_singleton] at hj
      rcases hj with rfl | rfl | rfl | rfl | rfl | rfl | hfalse
      · omega
      · omega
      · omega
      · omega
      · omega
      · omega
      · simp at hfalse
    · simp [hblen]

/-- FillRectData yields the four corner vertices, preceded by a center
vertex when requested. -/
theorem fillRectData_length (store : BufferStoreData) (hc : Bool) (bbMin bbMax : Vec2) :
    (fillRectData store hc bbMin bbMax).length = (if hc then 1 else 0) + 4 := by
  unfold fillRectData
  dsimp only
  repeat' split
  all_goals simp

/-- FillRect_NoRound_SC keeps the store well indexed. -/
theorem wellIndexed_fillRect_NoRound_SC (o : MathOracle) (cfg : LinaVGConfig)
    (kind : BufKind) (rot : ℚ) (bbMin bbMax : Vec2) (color : Vec4)
    (opts : StyleOptions) (store : BufferStoreData) (hs : store.wellIndexed) :
    (fillRect_NoRound_SC o cfg kind rot bbMin bbMax color opts store).wellIndexed := by
  unfold fillRect_NoRound_SC
  dsimp only
  apply wellIndexed_shapeOutlineEpilogue
  apply BufferStoreData.wellIndexed_set _ _ _ hs
  apply DrawBuffer.wellIndexed_rotated
  split
  · apply DrawBuffer.wellIndexed_pushIndexList
    · exact DrawBuffer.wellIndexed_pushVertexList _ _ (hs kind)
    · intro i hi
      simp only [pushVertexList_vertexBuffer, List.length_append, List.length_map,
        fillRectData_length]
      simp only [List.mem_cons, List.mem_singleton] at hi
      rcases hi with rfl | rfl | rfl | rfl | rfl | rfl | hfalse
      · omega
      · omega
      · omega
      · omega
      · omega
      · omega
      · simp at hfalse
  · apply wellIndexed_convexExtrudeVertices
    · exact DrawBuffer.wellIndexed_pushVertexList _ _ (hs kind)
    · simp only [pushVertexList_vertexBuffer, List.length_append, List.length_map,
        fillRectData_length]
      omega

/-- FillRect_NoRound_VerHorGra keeps the store well indexed. -/
theorem wellIndexed_fillRect_NoRound_VerHorGra (o : MathOracle) (cfg : LinaVGConfig)
    (kind : BufKind) (rot : ℚ) (bbMin bbMax : Vec2) (cTL cTR cBR cBL : Vec4)
    (opts : StyleOptions) (store : BufferStoreData) (hs : store.wellIndexed) :
    (fillRect_NoRound_VerHorGra o cfg kind rot bbMin bbMax cTL cTR cBR cBL opts
      store).wellIndexed := by
  unfold fillRect_NoRound_VerHorGra
  dsimp only
  apply wellIndexed_shapeOutlineEpilogue
  apply BufferStoreData.wellIndexed_set _ _ _ hs
  apply DrawBuffer.wellIndexed_rotated
  have hvlen : ((fillRectData store false bbMin bbMax).zip [cTL, cTR, cBR, cBL]).length
      = 4 := by
    simp [List.length_zip, fillRectData_length]
  split
  · apply DrawBuffer.wellIndexed_pushIndexList
    · exact DrawBuffer.wellIndexed_pushVertexList _ _ (hs kind)
    · intro i hi
      simp only [pushVertexList_vertexBuffer, List.length_append, List.length_map,
        hvlen]
      simp only [List.mem_cons, List.mem_singleton] at hi
      rcases hi with rfl | rfl | rfl | rfl | rfl | rfl | hfalse
      · omega
      · omega
      · omega
      · omega
      · omega
      · omega
      · simp at hfalse
  · apply wellIndexed_convexExtrudeVertices
    · exact DrawBuffer.wellIndexed_pushVertexList _ _ (hs kind)
    · simp only [pushVertexList_vertexBuffer, List.length_append, List.length_map,
        hvlen]
      omega

/-- FillRect_NoRound_RadialGra keeps the store well indexed. -/
theorem wellIndexed_fillRect_NoRound_RadialGra (o : MathOracle) (cfg : LinaVGConfig)
    (kind : BufKind) (rot : ℚ) (bbMin bbMax : Vec2) (opts : StyleOptions)
    (store : BufferStoreData) (hs : store.wellIndexed) :
    (fillRect_NoRound_RadialGra o cfg kind rot bbMin bbMax opts
      store).wellIndexed := by
  unfold fillRect_NoRound_RadialGra
  dsimp only
  apply wellIndexed_shapeOutlineEpilogue
  apply BufferStoreData.wellIndexed_set _ _ _ hs
  apply DrawBuffer.wellIndexed_rotated
  split
  · apply DrawBuffer.wellIndexed_convexFill
    · apply DrawBuffer.wellIndexed_pushVertexList _ _ (hs kind)
    · simp [fillRectData_length]
    · simp [fillRectData_length]
  · apply wellIndexed_convexExtrudeVertices
    · exact DrawBuffer.wellIndexed_pushVertexList _ _ (hs kind)
    · simp [fillRectData_length]

/-- FillNGonData yields one boundary vertex per corner (the loop list holds
exactly n angles for 1 ≤ n ≤ 180), preceded by a center vertex when
requested. -/
theorem fillNGonData_length (o : MathOracle) (hc : Bool) (c : Vec2) (r : ℚ) (n : ℤ)
    (h1 : 1 ≤ n) (h2 : n ≤ 180) :
    (fillNGonData o hc c r n).length = (if hc then 1 else 0) + n.toNat := by
  have hn : (0 : ℚ) < (n : ℚ) := by exact_mod_cast h1
  have hcast : ((n.toNat : ℕ) : ℚ) = (n : ℚ) := by
    exact_mod_cast congrArg Int.cast (Int.toNat_of_nonneg (by omega))
  have hstep : (0 : ℚ) < 360 / (n : ℚ) := div_pos (by norm_num) hn
  have hq : qRange loopFuel 0 360 (360 / (n : ℚ)) =
      (List.range n.toNat).map (fun k : Nat => 0 + (k : ℚ) * (360 / (n : ℚ))) := by
    apply qRange_map_range
    · simp only [loopFuel]
      omega
    · exact hstep
    · rw [hcast, zero_add, mul_comm, div_mul_cancel₀ _ (ne_of_gt hn)]
    · intro k hk
      have hkq : (k : ℚ) < (n : ℚ) := by
        rw [← hcast]
        exact_mod_cast hk
      have := mul_lt_mul_of_pos_right hkq hstep
      rw [mul_comm (n : ℚ), div_mul_cancel₀ _ (ne_of_gt hn)] at this
      linarith
  unfold fillNGonData
  dsimp only
  rw [hq]
  split <;> simp <;> omega

/-- FillNGon_SC keeps the store well indexed for 1 ≤ n ≤ 180. -/
theorem wellIndexed_fillNGon_SC (o : MathOracle) (cfg : LinaVGConfig)
    (kind : BufKind) (rot : ℚ) (center : Vec2) (radius : ℚ) (n : ℤ) (color : Vec4)
    (opts : StyleOptions) (store : BufferStoreData) (hs : store.wellIndexed)
    (h1 : 1 ≤ n) (h2 : n ≤ 180) :
    (fillNGon_SC o cfg kind rot center radius n color opts store).wellIndexed := by
  have hnn : 1 ≤ n.toNat := by omega
  have hlen := fillNGonData_length o opts.isFilled center radius n h1 h2
  unfold fillNGon_SC
  dsimp only
  apply wellIndexed_shapeOutlineEpilogue
  apply BufferStoreData.wellIndexed_set _ _ _ hs
  apply DrawBuffer.wellIndexed_rotated
  split
  · rename_i hf
    apply DrawBuffer.wellIndexed_convexFill
    · exact DrawBuffer.wellIndexed_pushVertexList _ _ (hs kind)
    · simp only [hf] at hlen ⊢
      simp at hlen
      simp only [pushVertexList_vertexBuffer, List.length_append, List.length_map, hlen]
      omega
    · simp only [hf] at hlen ⊢
      simp at hlen
      simp only [pushVertexList_vertexBuffer, List.length_append, List.length_map, hlen]
      omega
  · rename_i hf
    apply wellIndexed_convexExtrudeVertices
    · exact DrawBuffer.wellIndexed_pushVertexList _ _ (hs kind)
    · simp only [Bool.not_eq_true] at hf
      simp only [hf] at hlen ⊢
      simp at hlen
      simp only [pushVertexList_vertexBuffer, List.length_append, List.length_map, hlen]
      omega

/-- FillNGon_VerHorGra keeps the store well indexed for 1 ≤ n ≤ 180. -/
theorem wellIndexed_fillNGon_VerHorGra (o : MathOracle) (cfg : LinaVGConfig)
    (kind : BufKind) (rot : ℚ) (center : Vec2) (radius : ℚ) (n : ℤ) (cs ce : Vec4)
    (isHor : Bool) (opts : StyleOptions) (store : BufferStoreData)
    (hs : store.wellIndexed) (h1 : 1 ≤ n) (h2 : n ≤ 180) :
    (fillNGon_VerHorGra o cfg kind rot center radius n cs ce isHor opts
      store).wellIndexed := by
  have hnn : 1 ≤ n.toNat := by omega
  have hlen := fillNGonData_length o opts.isFilled center radius n h1 h2
  unfold fillNGon_VerHorGra
  dsimp only
  apply wellIndexed_shapeOutlineEpilogue
  apply BufferStoreData.wellIndexed_set _ _ _ hs
  apply DrawBuffer.wellIndexed_rotated
  split
  · rename_i hf
    apply DrawBuffer.wellIndexed_convexFill
    · exact DrawBuffer.wellIndexed_pushVertexList _ _ (hs kind)
    · simp only [hf] at hlen ⊢
      simp at hlen
      simp only [pushVertexList_vertexBuffer, List.length_append, List.length_map, hlen]
      omega
    · simp only [hf] at hlen ⊢
      simp at hlen
      simp only [pushVertexList_vertexBuffer, List.length_append, List.length_map, hlen]
      omega
  · rename_i hf
    apply wellIndexed_convexExtrudeVertices
    · exact DrawBuffer.wellIndexed_pushVertexList _ _ (hs kind)
    · simp only [Bool.not_eq_true] at hf
      simp only [hf] at hlen ⊢
      simp at hlen
      simp only [pushVertexList_vertexBuffer, List.length_append, List.length_map, hlen]
      omega

/-- FillNGon_RadialGra keeps the store well indexed for 1 ≤ n ≤ 180. -/
theorem wellIndexed_fillNGon_RadialGra (o : MathOracle) (cfg : LinaVGConfig)
    (kind : BufKind) (rot : ℚ) (center : Vec2) (radius : ℚ) (n : ℤ)
    (opts : StyleOptions) (store : BufferStoreData) (hs : store.wellIndexed)
    (h1 : 1 ≤ n) (h2 : n ≤ 180) :
    (fillNGon_RadialGra o cfg kind rot center radius n opts store).wellIndexed := by
  have hnn : 1 ≤ n.toNat := by omega
  have hlen := fillNGonData_length o opts.isFilled center radius n h1 h2
  unfold fillNGon_RadialGra
  dsimp only
  apply wellIndexed_shapeOutlineEpilogue
  apply BufferStoreData.wellIndexed_set _ _ _ hs
  apply DrawBuffer.wellIndexed_rotated
  split
  · rename_i hf
    apply DrawBuffer.wellIndexed_convexFill
    · exact DrawBuffer.wellIndexed_pushVertexList _ _ (hs kind)
    · simp only [hf] at hlen ⊢
      simp at hlen
      simp only [pushVertexList_vertexBuffer, List.length_append, List.length_map, hlen]
      omega
    · simp only [hf] at hlen ⊢
      simp at hlen
      simp only [pushVertexList_vertexBuffer, List.length_append, List.length_map, hlen]
      omega
  · rename_i hf
    apply wellIndexed_convexExtrudeVertices
    · exact DrawBuffer.wellIndexed_pushVertexList _ _ (hs kind)
    · simp only [Bool.not_eq_true] at hf
      simp only [hf] at hlen ⊢
      simp at hlen
      simp only [pushVertexList_vertexBuffer, List.length_append, List.length_map, hlen]
      omega

/-- For a nonnegative start angle strictly below the end angle,
FillCircleData yields at least one boundary vertex (plus the center when
requested): the angle loop is entered at least once. -/
theorem fillCircleData_length_ge (o : MathOracle) (hc : Bool) (c : Vec2) (r : ℚ)
    (seg : ℤ) (sa ea : ℚ) (h0 : 0 ≤ sa) (hlt : sa < ea) :
    (if hc then 1 else 0) + 1 ≤ (fillCircleData o hc c r seg sa ea).length := by
  have h1 : ¬(sa < 0) := not_lt.mpr h0
  have h2 : ¬(ea < 0) := not_lt.mpr (le_of_lt (lt_of_le_of_lt h0 hlt))
  have h3 : ¬(ea = sa) := ne_of_gt hlt
  unfold fillCircleData
  simp only [h1, h2, h3, if_false]
  rcases hc with _ | _ <;> simp <;>
    · apply qRange_length_pos
      split
      · exact hlt
      · have hp : (0 : ℚ) < 360 / ((6 : ℚ) ⊔ ((seg : ℚ) ⊓ 180)) :=
          div_pos (by norm_num)
            (lt_of_lt_of_le (by norm_num)
              (le_sup_left : (6 : ℚ) ≤ (6 : ℚ) ⊔ ((seg : ℚ) ⊓ 180)))
        linarith [hp]

/-- FillCircle_SC keeps the store well indexed for a sane angle range. -/
theorem wellIndexed_fillCircle_SC (o : MathOracle) (cfg : LinaVGConfig)
    (kind : BufKind) (rot : ℚ) (center : Vec2) (radius : ℚ) (segments : ℤ)
    (color : Vec4) (sa ea : ℚ) (opts : StyleOptions) (store : BufferStoreData)
    (hs : store.wellIndexed) (h0 : 0 ≤ sa) (hlt : sa < ea) :
    (fillCircle_SC o cfg kind rot center radius segments color sa ea opts
      store).wellIndexed := by
  have hv := fillCircleData_length_ge o opts.isFilled center radius segments sa ea
    h0 hlt
  unfold fillCircle_SC
  dsimp only
  apply wellIndexed_circleOutlineEpilogue
  apply BufferStoreData.wellIndexed_set _ _ _ hs
  apply DrawBuffer.wellIndexed_rotated
  split
  · rename_i hf
    simp only [hf] at hv ⊢
    simp at hv
    apply DrawBuffer.wellIndexed_convexFill
    · exact DrawBuffer.wellIndexed_pushVertexList _ _ (hs kind)
    · simp only [pushVertexList_vertexBuffer, List.length_append, List.length_map]
      omega
    · simp only [pushVertexList_vertexBuffer, List.length_append, List.length_map]
      omega
  · rename_i hf
    simp only [Bool.not_eq_true] at hf
    simp only [hf] at hv ⊢
    simp at hv
    apply wellIndexed_convexExtrudeVertices
    · exact DrawBuffer.wellIndexed_pushVertexList _ _ (hs kind)
    · simp only [pushVertexList_vertexBuffer, List.length_append, List.length_map]
      omega

/-- FillCircle_VerHorGra keeps the store well indexed for a sane angle
range. -/
theorem wellIndexed_fillCircle_VerHorGra (o : MathOracle) (cfg : LinaVGConfig)
    (kind : BufKind) (rot : ℚ) (center : Vec2) (radius : ℚ) (segments : ℤ)
    (cs ce : Vec4) (isHor : Bool) (sa ea : ℚ) (opts : StyleOptions)
    (store : BufferStoreData) (hs : store.wellIndexed) (h0 : 0 ≤ sa)
    (hlt : sa < ea) :
    (fillCircle_VerHorGra o cfg kind rot center radius segments cs ce isHor sa ea
      opts store).wellIndexed := by
  have hv := fillCircleData_length_ge o opts.isFilled center radius segments sa ea
    h0 hlt
  unfold fillCircle_VerHorGra
  dsimp only
  apply wellIndexed_circleOutlineEpilogue
  apply BufferStoreData.wellIndexed_set _ _ _ hs
  apply DrawBuffer.wellIndexed_rotated
  split
  · rename_i hf
    simp only [hf] at hv ⊢
    simp at hv
    apply DrawBuffer.wellIndexed_convexFill
    · exact DrawBuffer.wellIndexed_pushVertexList _ _ (hs kind)
    · simp only [pushVertexList_vertexBuffer, List.length_append, List.length_map]
      omega
    · simp only [pushVertexList_vertexBuffer, List.length_append, List.length_map]
      omega
  · rename_i hf
    simp only [Bool.not_eq_true] at hf
    simp only [hf] at hv ⊢
    simp at hv
    apply wellIndexed_convexExtrudeVertices
    · exact DrawBuffer.wellIndexed_pushVertexList _ _ (hs kind)
    · simp only [pushVertexList_vertexBuffer, List.length_append, List.length_map]
      omega

/-- FillCircle_RadialGra keeps the store well indexed for a sane angle
range. -/
theorem wellIndexed_fillCircle_RadialGra (o : MathOracle) (cfg : LinaVGConfig)
    (kind : BufKind) (rot : ℚ) (center : Vec2) (radius : ℚ) (segments : ℤ)
    (sa ea : ℚ) (opts : StyleOptions) (store : BufferStoreData)
    (hs : store.wellIndexed) (h0 : 0 ≤ sa) (hlt : sa < ea) :
    (fillCircle_RadialGra o cfg kind rot center radius segments sa ea opts
      store).wellIndexed := by
  have hv := fillCircleData_length_ge o opts.isFilled center radius segments sa ea
    h0 hlt
  unfold fillCircle_RadialGra
  dsimp only
  apply wellIndexed_circleOutlineEpilogue
  apply BufferStoreData.wellIndexed_set _ _ _ hs
  apply DrawBuffer.wellIndexed_rotated
  split
  · rename_i hf
    simp only [hf] at hv ⊢
    simp at hv
    apply DrawBuffer.wellIndexed_convexFill
    · exact DrawBuffer.wellIndexed_pushVertexList _ _ (hs kind)
    · simp only [pushVertexList_vertexBuffer, List.length_append, List.length_mapIdx]
      omega
    · simp only [pushVertexList_vertexBuffer, List.length_append, List.length_mapIdx]
      omega
  · rename_i hf
    simp only [Bool.not_eq_true] at hf
    simp only [hf] at hv ⊢
    simp at hv
    apply wellIndexed_convexExtrudeVertices
    · exact DrawBuffer.wellIndexed_pushVertexList _ _ (hs kind)
    · simp only [pushVertexList_vertexBuffer, List.length_append, List.length_mapIdx]
      omega

/-- FillConvex_SC keeps the store well indexed when the shape has at least
one corner and size matches the corner count. -/
theorem wellIndexed_fillConvex_SC (o : MathOracle) (cfg : LinaVGConfig)
    (kind : BufKind) (rot : ℚ) (points : List Vec2) (size : Nat) (center : Vec2)
    (color : Vec4) (opts : StyleOptions) (store : BufferStoreData)
    (hs : store.wellIndexed) (hsize : size = points.length) (hpos : 1 ≤ size) :
    (fillConvex_SC o cfg kind rot points size center color opts
      store).wellIndexed := by
  unfold fillConvex_SC
  dsimp only
  apply wellIndexed_shapeOutlineEpilogue
  apply BufferStoreData.wellIndexed_set _ _ _ hs
  apply DrawBuffer.wellIndexed_rotated
  split
  · rename_i hf
    apply DrawBuffer.wellIndexed_convexFill
    · apply DrawBuffer.wellIndexed_pushVertexList
      exact DrawBuffer.wellIndexed_pushVertex _ _ (hs kind)
    · simp only [pushVertexList_vertexBuffer, pushVertex_vertexBuffer,
        List.length_append, List.length_map, List.length_singleton]
      omega
    · simp only [pushVertexList_vertexBuffer, pushVertex_vertexBuffer,
        List.length_append, List.length_map, List.length_singleton]
      omega
  · rename_i hf
    apply wellIndexed_convexExtrudeVertices
    · exact DrawBuffer.wellIndexed_pushVertexList _ _ (hs kind)
    · simp only [pushVertexList_vertexBuffer, List.length_append, List.length_map]
      omega

/-- FillConvex_VerHorGra keeps the store well indexed when the shape has at
least one corner and size matches the corner count. -/
theorem wellIndexed_fillConvex_VerHorGra (o : MathOracle) (cfg : LinaVGConfig)
    (kind : BufKind) (rot : ℚ) (points : List Vec2) (size : Nat) (center : Vec2)
    (cs ce : Vec4) (isHor : Bool) (opts : StyleOptions) (store : BufferStoreData)
    (hs : store.wellIndexed) (hsize : size = points.length) (hpos : 1 ≤ size) :
    (fillConvex_VerHorGra o cfg kind rot points size center cs ce isHor opts
      store).wellIndexed := by
  unfold fillConvex_VerHorGra
  dsimp only
  apply wellIndexed_shapeOutlineEpilogue
  apply BufferStoreData.wellIndexed_set _ _ _ hs
  apply DrawBuffer.wellIndexed_rotated
  split
  · rename_i hf
    apply DrawBuffer.wellIndexed_convexFill
    · apply DrawBuffer.wellIndexed_pushVertexList
      exact DrawBuffer.wellIndexed_pushVertex _ _ (hs kind)
    · simp only [pushVertexList_vertexBuffer, pushVertex_vertexBuffer,
        List.length_append, List.length_map, List.length_singleton]
      omega
    · simp only [pushVertexList_vertexBuffer, pushVertex_vertexBuffer,
        List.length_append, List.length_map, List.length_singleton]
      omega
  · rename_i hf
    apply wellIndexed_convexExtrudeVertices
    · exact DrawBuffer.wellIndexed_pushVertexList _ _ (hs kind)
    · simp only [pushVertexList_vertexBuffer, List.length_append, List.length_map]
      omega

/-- FillConvex_RadialGra keeps the store well indexed when the shape has at
least one corner and size matches the corner count. -/
theorem wellIndexed_fillConvex_RadialGra (o : MathOracle) (cfg : LinaVGConfig)
    (kind : BufKind) (rot : ℚ) (points : List Vec2) (size : Nat) (center : Vec2)
    (opts : StyleOptions) (store : BufferStoreData) (hs : store.wellIndexed)
    (hsize : size = points.length) (hpos : 1 ≤ size) :
    (fillConvex_RadialGra o cfg kind rot points size center opts
      store).wellIndexed := by
  unfold fillConvex_RadialGra
  dsimp only
  apply wellIndexed_shapeOutlineEpilogue
  apply BufferStoreData.wellIndexed_set _ _ _ hs
  apply DrawBuffer.wellIndexed_rotated
  split
  · rename_i hf
    apply DrawBuffer.wellIndexed_convexFill
    · apply DrawBuffer.wellIndexed_pushVertexList
      exact DrawBuffer.wellIndexed_pushVertex _ _ (hs kind)
    · simp only [pushVertexList_vertexBuffer, pushVertex_vertexBuffer,
        List.length_append, List.length_map, List.length_singleton]
      omega
    · simp only [pushVertexList_vertexBuffer, pushVertex_vertexBuffer,
        List.length_append, List.length_map, List.length_singleton]
      omega
  · rename_i hf
    apply wellIndexed_convexExtrudeVertices
    · exact DrawBuffer.wellIndexed_pushVertexList _ _ (hs kind)
    · simp only [pushVertexList_vertexBuffer, List.length_append, List.length_map]
      omega

/-- Facts about the four-corner fold of FillRect_Round: every step keeps the
buffer well indexed, keeps the 90-degree start/end angle offset, pushes at
least one vertex per corner, and keeps the vertex count in sync with the
buffer growth. -/
theorem round_fold_facts (g : (DrawBuffer × Nat × ℚ × ℚ) → Nat → (DrawBuffer × Nat × ℚ × ℚ))
    (init : DrawBuffer × Nat × ℚ × ℚ) (hw0 : init.1.wellIndexed)
    (hang0 : init.2.2.2 = init.2.2.1 + 90)
    (hg : ∀ a x, a.1.wellIndexed → a.2.2.2 = a.2.2.1 + 90 →
      (g a x).1.wellIndexed ∧ (g a x).2.2.2 = (g a x).2.2.1 + 90 ∧
      a.2.1 + 1 ≤ (g a x).2.1 ∧
      (g a x).1.vertexBuffer.length + a.2.1 =
        a.1.vertexBuffer.length + (g a x).2.1) :
    (List.foldl g init [0, 1, 2, 3]).1.wellIndexed ∧
    init.2.1 + 4 ≤ (List.foldl g init [0, 1, 2, 3]).2.1 ∧
    (List.foldl g init [0, 1, 2, 3]).1.vertexBuffer.length + init.2.1 =
      init.1.vertexBuffer.length + (List.foldl g init [0, 1, 2, 3]).2.1 := by
  simp only [List.foldl_cons, List.foldl_nil]
  obtain ⟨w1, a1, c1, l1⟩ := hg init 0 hw0 hang0
  obtain ⟨w2, a2, c2, l2⟩ := hg _ 1 w1 a1
  obtain ⟨w3, a3, c3, l3⟩ := hg _ 2 w2 a2
  obtain ⟨w4, a4, c4, l4⟩ := hg _ 3 w3 a3
  exact ⟨w4, by omega, by omega⟩

/-- The filled ending of FillRect_Round: the fan over the corner vertices
pushed by the fold stays in range. -/
theorem wellIndexed_round_fill_final
    (g : (DrawBuffer × Nat × ℚ × ℚ) → Nat → (DrawBuffer × Nat × ℚ × ℚ))
    (init : DrawBuffer × Nat × ℚ × ℚ) (s : Nat)
    (hlen0 : init.1.vertexBuffer.length = s + 1) (hw0 : init.1.wellIndexed)
    (hang0 : init.2.2.2 = init.2.2.1 + 90) (hcount0 : init.2.1 = 0)
    (hg : ∀ a x, a.1.wellIndexed → a.2.2.2 = a.2.2.1 + 90 →
      (g a x).1.wellIndexed ∧ (g a x).2.2.2 = (g a x).2.2.1 + 90 ∧
      a.2.1 + 1 ≤ (g a x).2.1 ∧
      (g a x).1.vertexBuffer.length + a.2.1 =
        a.1.vertexBuffer.length + (g a x).2.1) :
    ((calculateVertexUVs (List.foldl g init [0, 1, 2, 3]).1 s
        (s + (List.foldl g init [0, 1, 2, 3]).2.1)).convexFill s
      (s + (List.foldl g init [0, 1, 2, 3]).2.1) false).wellIndexed := by
  obtain ⟨hw, hc, hl⟩ := round_fold_facts g init hw0 hang0 hg
  apply DrawBuffer.wellIndexed_convexFill
  · exact DrawBuffer.wellIndexed_calculateVertexUVs _ _ _ hw
  · simp only [calculateVertexUVs_length]
    omega
  · simp only [calculateVertexUVs_length]
    omega

/-- The stroked ending of FillRect_Round: the ring extrusion over the corner
vertices pushed by the fold stays in range. -/
theorem wellIndexed_round_extrude_final (o : MathOracle) (opts : StyleOptions)
    (c : Vec2) (t : ℚ)
    (g : (DrawBuffer × Nat × ℚ × ℚ) → Nat → (DrawBuffer × Nat × ℚ × ℚ))
    (init : DrawBuffer × Nat × ℚ × ℚ) (s : Nat)
    (hlen0 : init.1.vertexBuffer.length = s) (hw0 : init.1.wellIndexed)
    (hang0 : init.2.2.2 = init.2.2.1 + 90) (hcount0 : init.2.1 = 0)
    (hg : ∀ a x, a.1.wellIndexed → a.2.2.2 = a.2.2.1 + 90 →
      (g a x).1.wellIndexed ∧ (g a x).2.2.2 = (g a x).2.2.1 + 90 ∧
      a.2.1 + 1 ≤ (g a x).2.1 ∧
      (g a x).1.vertexBuffer.length + a.2.1 =
        a.1.vertexBuffer.length + (g a x).2.1) :
    (convexExtrudeVertices o (List.foldl g init [0, 1, 2, 3]).1 opts c s
      (s + (List.foldl g init [0, 1, 2, 3]).2.1 - 1) t false).wellIndexed := by
  obtain ⟨hw, hc, hl⟩ := round_fold_facts g init hw0 hang0 hg
  apply wellIndexed_convexExtrudeVertices _ _ _ _ _ _ _ _ hw
  omega

/-- FillRect_Round keeps the store well indexed: every corner contributes at
least one vertex (sharp corners one, arcs at least the first sample since
the arc range spans 92.5 degrees). -/
theorem wellIndexed_fillRect_Round (o : MathOracle) (cfg : LinaVGConfig)
    (kind : BufKind) (rc : List Nat) (rot : ℚ) (bbMin bbMax : Vec2) (col : Vec4)
    (r : ℚ) (opts : StyleOptions) (store : BufferStoreData)
    (hs : store.wellIndexed) :
    (fillRect_Round o cfg kind rc rot bbMin bbMax col r opts store).wellIndexed := by
  unfold fillRect_Round
  dsimp only
  apply wellIndexed_shapeOutlineEpilogue
  apply BufferStoreData.wellIndexed_set _ _ _ hs
  apply DrawBuffer.wellIndexed_rotated
  have hstep : ∀ sa : ℚ, sa < sa + 90 + 5 / 2 := by intro sa; linarith
  split
  · apply wellIndexed_round_fill_final
    · simp
    · exact DrawBuffer.wellIndexed_pushVertex _ _ (hs kind)
    · norm_num
    · rfl
    · intro a x hw hang
      dsimp only
      split
      · refine ⟨DrawBuffer.wellIndexed_pushVertex _ _ hw, ?_, ?_, ?_⟩
        · dsimp only
          linarith
        · dsimp only
          omega
        · simp only [pushVertex_vertexBuffer, List.length_append, List.length_singleton]
          omega
      · refine ⟨DrawBuffer.wellIndexed_pushVertexList _ _ hw, ?_, ?_, ?_⟩
        · dsimp only
          linarith
        · dsimp only
          have hq := qRange_length_pos a.2.2.1 (a.2.2.2 + 5 / 2)
            (getAngleIncrease (fillRectRoundRounding r)) (by rw [hang]; exact hstep _)
          omega
        · simp only [pushVertexList_vertexBuffer, List.length_append, List.length_map]
          omega
  · apply wellIndexed_round_extrude_final
    · simp
    · exact hs kind
    · norm_num
    · rfl
    · intro a x hw hang
      dsimp only
      split
      · refine ⟨DrawBuffer.wellIndexed_pushVertex _ _ hw, ?_, ?_, ?_⟩
        · dsimp only
          linarith
        · dsimp only
          omega
        · simp only [pushVertex_vertexBuffer, List.length_append, List.length_singleton]
          omega
      · refine ⟨DrawBuffer.wellIndexed_pushVertexList _ _ hw, ?_, ?_, ?_⟩
        · dsimp only
          linarith
        · dsimp only
          have hq := qRange_length_pos a.2.2.1 (a.2.2.2 + 5 / 2)
            (getAngleIncrease (fillRectRoundRounding r)) (by rw [hang]; exact hstep _)
          omega
        · simp only [pushVertexList_vertexBuffer, List.length_append, List.length_map]
          omega

attribute [irreducible] fillRect_NoRound_SC fillRect_NoRound_VerHorGra
  fillRect_NoRound_RadialGra fillRect_Round fillNGon_SC fillNGon_VerHorGra
  fillNGon_RadialGra fillCircle_SC fillCircle_VerHorGra fillCircle_RadialGra
  fillConvex_SC fillConvex_VerHorGra fillConvex_RadialGra

/-- Reporting an error never touches the buffer store. -/
theorem reportError_store (cfg : LinaVGConfig) (st : DrawerState) :
    (reportError cfg st).store = st.store := by
  unfold reportError
  split <;> rfl

set_option maxHeartbeats 2000000 in
/-- DrawRect keeps the store well indexed. -/
theorem wellIndexed_drawRect (o : MathOracle) (cfg : LinaVGConfig) (bbMin bbMax : Vec2)
    (style : StyleOptions) (rot : ℚ) (st : DrawerState)
    (hs : st.store.wellIndexed) : (drawRect o cfg bbMin bbMax style rot
      st).store.wellIndexed := by
  unfold drawRect
  dsimp only
  repeat' split
  all_goals
    first
      | (apply wellIndexed_fillRect_NoRound_SC
         exact hs)
      | (apply wellIndexed_fillRect_NoRound_VerHorGra
         exact hs)
      | (apply wellIndexed_fillRect_NoRound_RadialGra
         exact hs)
      | (apply wellIndexed_fillRect_Round
         exact hs)

set_option maxHeartbeats 2000000 in
/-- DrawNGon keeps the store well indexed for 1 ≤ n ≤ 180. -/
theorem wellIndexed_drawNGon (o : MathOracle) (cfg : LinaVGConfig) (center : Vec2)
    (radius : ℚ) (n : ℤ) (style : StyleOptions) (rot : ℚ) (st : DrawerState)
    (hs : st.store.wellIndexed) (h1 : 1 ≤ n) (h2 : n ≤ 180) :
    (drawNGon o cfg center radius n style rot st).store.wellIndexed := by
  unfold drawNGon
  dsimp only
  repeat' split
  all_goals
    first
      | (apply wellIndexed_fillNGon_SC
         exacts [hs, h1, h2])
      | (apply wellIndexed_fillNGon_VerHorGra
         exacts [hs, h1, h2])
      | (apply wellIndexed_fillNGon_RadialGra
         exacts [hs, h1, h2])

set_option maxHeartbeats 2000000 in
/-- DrawConvex keeps the store well indexed: fewer than 3 corners is
rejected with the store untouched, otherwise every fill variant pushes the
size + 1 or size vertices its fan or ring references. -/
theorem wellIndexed_drawConvex (o : MathOracle) (cfg : LinaVGConfig)
    (points : List Vec2) (style : StyleOptions) (rot : ℚ) (st : DrawerState)
    (hs : st.store.wellIndexed) :
    (drawConvex o cfg points style rot st).store.wellIndexed := by
  unfold drawConvex
  dsimp only
  split
  · rw [reportError_store]
    exact hs
  · rename_i hge
    have hpos : 1 ≤ points.length := by omega
    repeat' split
    all_goals
      first
        | (apply wellIndexed_fillConvex_SC
           exacts [hs, rfl, hpos])
        | (apply wellIndexed_fillConvex_VerHorGra
           exacts [hs, rfl, hpos])
        | (apply wellIndexed_fillConvex_RadialGra
           exacts [hs, rfl, hpos])

set_option maxHeartbeats 2000000 in
/-- DrawCircle keeps the store well indexed for a nonnegative start angle
and an end angle at or above it (a start angle equal to the end angle is
first turned into the full range). -/
theorem wellIndexed_drawCircle (o : MathOracle) (cfg : LinaVGConfig) (center : Vec2)
    (radius : ℚ) (style : StyleOptions) (segments : ℤ) (rot sa ea : ℚ)
    (st : DrawerState) (hs : st.store.wellIndexed) (h0 : 0 ≤ sa) (hle : sa ≤ ea) :
    (drawCircle o cfg center radius style segments rot sa ea st).store.wellIndexed := by
  unfold drawCircle
  dsimp only
  repeat' split
  all_goals
    first
      | (apply wellIndexed_fillCircle_SC
         exacts [hs, h0,
           by first
             | linarith
             | exact lt_of_le_of_ne hle (by assumption)])
      | (apply wellIndexed_fillCircle_VerHorGra
         exacts [hs, h0,
           by first
             | linarith
             | exact lt_of_le_of_ne hle (by assumption)])
      | (apply wellIndexed_fillCircle_RadialGra
         exacts [hs, h0,
           by first
             | linarith
             | exact lt_of_le_of_ne hle (by assumption)])

/-- DrawText keeps a buffer well indexed: each drawn glyph pushes four
vertices and six indices referencing exactly those four. -/
theorem wellIndexed_drawText (o : MathOracle) (buf : DrawBuffer) (font : Font)
    (text : List Nat) (pos off : Vec2) (color : Vec4Grad) (spacing : ℚ)
    (isGrad : Bool) (scale : ℚ) (clip : Vec4) (hb : buf.wellIndexed) :
    (drawText o buf font text pos off color spacing isGrad scale clip).wellIndexed := by
  unfold drawText
  dsimp only
  refine foldl_invariant
    (fun a : DrawBuffer × Vec4 × Vec2 × Nat × Nat => a.1.wellIndexed) _ _ _ hb ?_
  intro a x hx hP
  dsimp only
  repeat' split
  all_goals
    first
      | exact hP
      | (apply DrawBuffer.wellIndexed_pushIndexList
         · exact DrawBuffer.wellIndexed_pushVertexList _ _ hP
         · intro i hi
           simp only [pushVertexList_vertexBuffer, List.length_append, List.length_cons,
             List.length_nil]
           simp only [List.mem_cons, List.mem_singleton] at hi
           rcases hi with rfl | rfl | rfl | rfl | rfl | rfl | hfalse
           · omega
           · omega
           · omega
           · omega
           · omega
           · omega
           · simp at hfalse)

/-- ProcessText keeps a buffer well indexed: single-line or wrapped glyph
drawing plus the optional in-place rotation. -/
theorem wellIndexed_processText (o : MathOracle) (buf : DrawBuffer) (font : Font)
    (text : List Nat) (pos off : Vec2) (color : Vec4Grad) (spacing : ℚ)
    (isGrad : Bool) (scale wrapWidth rotAngle : ℚ) (alignment : TextAlignment)
    (nls sdfT : ℚ) (clip : Vec4) (wordWrap : Bool) (hb : buf.wellIndexed) :
    (processText o buf font text pos off color spacing isGrad scale wrapWidth
      rotAngle alignment nls sdfT clip wordWrap).wellIndexed := by
  unfold processText
  dsimp only
  repeat' split
  all_goals try apply DrawBuffer.wellIndexed_rotated
  all_goals
    first
      | (apply wellIndexed_drawText
         exact hb)
      | (refine foldl_invariant
          (fun a : DrawBuffer × Vec2 => a.1.wellIndexed) _ _ _ hb ?_
         intro a x hx hP
         dsimp only
         apply wellIndexed_drawText
         exact hP)

/-- DrawTextNormal with the cache skipped keeps the store well indexed. -/
theorem wellIndexed_drawTextNormal (o : MathOracle) (cfg : LinaVGConfig)
    (text : Option (List Nat)) (pos : Vec2) (opts : TextOptions) (rot : ℚ)
    (st : DrawerState) (hs : st.store.wellIndexed) :
    (drawTextNormal o cfg text pos opts rot true st).store.wellIndexed := by
  unfold drawTextNormal
  split
  · exact hs
  · exact hs
  · dsimp only
    repeat' split
    all_goals try (rw [reportError_store]; exact hs)
    all_goals try (exact absurd (Or.inr rfl) ‹¬(¬cfg.textCachingEnabled = true ∨ true = true)›)
    all_goals try dsimp only
    all_goals
      repeat'
        first
          | exact hs
          | exact hs BufKind.simpleText
          | (apply BufferStoreData.wellIndexed_set)
          | (apply wellIndexed_processText)
          | (rw [BufferStoreData.get_set, if_pos rfl])

/-- DrawTextSDF with the cache skipped keeps the store well indexed. -/
theorem wellIndexed_drawTextSDF (o : MathOracle) (cfg : LinaVGConfig)
    (text : Option (List Nat)) (pos : Vec2) (opts : SDFTextOptions) (rot : ℚ)
    (st : DrawerState) (hs : st.store.wellIndexed) :
    (drawTextSDF o cfg text pos opts rot true st).store.wellIndexed := by
  unfold drawTextSDF
  split
  · exact hs
  · exact hs
  · dsimp only
    repeat' split
    all_goals try (rw [reportError_store]; exact hs)
    all_goals try (exact absurd (Or.inr rfl) ‹¬(¬cfg.textCachingSDFEnabled = true ∨ true = true)›)
    all_goals try dsimp only
    all_goals
      repeat'
        first
          | exact hs
          | exact hs BufKind.sdfText
          | (apply BufferStoreData.wellIndexed_set)
          | (apply wellIndexed_processText)
          | (rw [BufferStoreData.get_set, if_pos rfl])

/-- Rewriting one vertex position keeps the line triangles bounded. -/
theorem Line.trisBounded_setVtxPos (l : Line) (i : Nat) (p : Vec2)
    (hl : l.trisBounded) : (l.setVtxPos i p).trisBounded := by
  intro t ht
  simp only [Line.setVtxPos] at ht
  have := hl t ht
  simpa [Line.setVtxPos] using this

/-- The default line has no triangles. -/
theorem Line.trisBounded_default : ({} : Line).trisBounded := by
  intro t ht
  simp [Line.trisBounded] at ht

/-- Reading a line from a list of bounded lines yields a bounded line. -/
theorem Line.trisBounded_getD (ls : List Line) (i : Nat)
    (h : ∀ l ∈ ls, l.trisBounded) : (ls.getD i {}).trisBounded := by
  rcases Nat.lt_or_ge i ls.length with hi | hi
  · rw [List.getD_eq_getElem _ _ hi]
    exact h _ (List.getElem_mem hi)
  · rw [List.getD_eq_default _ _ hi]
    exact Line.trisBounded_default

/-- Remapping every vertex of a line in place keeps its triangles bounded. -/
theorem Line.trisBounded_mapVertices (l : Line) (f : Vertex → Vertex)
    (hl : l.trisBounded) :
    ({ l with vertices := l.vertices.map f } : Line).trisBounded := by
  intro t ht
  simp only at ht
  have := hl t ht
  simpa using this

/-- The vertex count of the line-cap fold: every parabola sample appends
exactly one vertex. -/
theorem capfold_fst_length
    (g : (List Vertex × List Nat × List Nat) → ℚ → (List Vertex × List Nat × List Nat))
    (hg : ∀ a k, ((g a k).1).length = a.1.length + 1) :
    ∀ (l : List ℚ) (a : List Vertex × List Nat × List Nat),
      ((l.foldl g a).1).length = a.1.length + l.length := by
  intro l
  induction l with
  | nil => intro a; rfl
  | cons h t ih =>
    intro a
    rw [List.foldl_cons, ih, hg]
    simp only [List.length_cons]
    omega

/-- CalculateLine yields a line whose triangles reference its own vertices,
for a nonnegative rounding (the cap arc then starts below 1, so the cap fan
has at least one sample). -/
theorem trisBounded_calculateLine (o : MathOracle) (p1 p2 : Vec2)
    (style : StyleOptions) (cap : LineCapDirection) (hr : 0 ≤ style.rounding) :
    (calculateLine o p1 p2 style cap).trisBounded := by
  have hstart : 0 + remapQ style.rounding 0 1 (2 / 5) (1 / 10) < 1 := by
    unfold remapQ
    rw [show (1 : ℚ) - 0 = 1 by norm_num, div_one]
    nlinarith
  unfold calculateLine
  dsimp only
  split
  · intro t ht
    dsimp only at ht ⊢
    rw [capfold_fst_length _ (by intro a k; repeat' split <;> simp)] at ht
    rw [capfold_fst_length _ (by intro a k; repeat' split <;> simp)]
    have hq := qRange_length_pos (0 + remapQ style.rounding 0 1 (2 / 5) (1 / 10)) 1
      (remapQ style.rounding 0 1 (2 / 5) (1 / 10)) hstart
    simp only [List.length_cons, List.length_nil, List.length_append,
      List.length_singleton] at ht ⊢
    rcases List.mem_append.mp ht with h1 | hfan
    · rcases List.mem_append.mp h1 with hbase | hcap
      · simp only [List.mem_cons, List.mem_singleton] at hbase
        rcases hbase with rfl | rfl | rfl | rfl | hfalse
        · refine ⟨by dsimp only; omega, by dsimp only; omega, by dsimp only; omega⟩
        · refine ⟨by dsimp only; omega, by dsimp only; omega, by dsimp only; omega⟩
        · refine ⟨by dsimp only; omega, by dsimp only; omega, by dsimp only; omega⟩
        · refine ⟨by dsimp only; omega, by dsimp only; omega, by dsimp only; omega⟩
        · simp at hfalse
      · simp only [List.mem_cons, List.mem_singleton] at hcap
        rcases hcap with rfl | rfl | hfalse
        · refine ⟨by dsimp only; split <;> omega, by dsimp only; omega,
            by dsimp only; split <;> omega⟩
        · refine ⟨by dsimp only; split <;> omega, by dsimp only; omega,
            by dsimp only; split <;> omega⟩
        · simp at hfalse
    · rcases List.mem_map.mp hfan with ⟨j, hj, rfl⟩
      have hj2 := List.mem_range'.mp hj
      refine ⟨by dsimp only; omega, by dsimp only; omega,
        by dsimp only; split <;> omega⟩
  · intro t ht
    simp only [List.mem_cons, List.mem_singleton] at ht
    rcases ht with rfl | rfl | hfalse
    · exact ⟨by simp, by simp, by simp⟩
    · exact ⟨by simp, by simp, by simp⟩
    · simp at hfalse

/-- One joint step with vertex-averaging joints moves vertex positions and
drops duplicated boundary indices, keeping both lines' triangles bounded. -/
theorem trisBounded_drawLinesJointStep (o : MathOracle) (cfg : LinaVGConfig)
    (style : StyleOptions) (curr next : Line) (hc : curr.trisBounded)
    (hn : next.trisBounded) :
    (drawLinesJointStep o cfg style .vtxAverage curr next).1.trisBounded ∧
    (drawLinesJointStep o cfg style .vtxAverage curr next).2.trisBounded := by
  have hsel : ∀ (angle ml r e : ℚ),
      selectJointType .vtxAverage angle ml r e = .vtxAverage := by
    intro angle ml r e
    simp [selectJointType]
  unfold drawLinesJointStep
  dsimp only
  split
  · rw [hsel]
    unfold joinLines
    dsimp only
    constructor
    · exact Line.trisBounded_setVtxPos _ _ _ (Line.trisBounded_setVtxPos _ _ _ hc)
    · split
      · intro t ht
        dsimp only at ht ⊢
        exact (Line.trisBounded_setVtxPos _ _ _
          (Line.trisBounded_setVtxPos _ _ _ hn)) t ht
      · exact Line.trisBounded_setVtxPos _ _ _ (Line.trisBounded_setVtxPos _ _ _ hn)
  · constructor
    · exact hc
    · intro t ht
      dsimp only at ht ⊢
      exact hn t ht

/-- The DrawLines flush keeps the destination buffer well indexed: every
pushed triangle index is the per-line destination offset plus a line-local
index bounded by that line's vertex count. -/
theorem wellIndexed_line_flush (ls : List Line) :
    ∀ (b : DrawBuffer), b.wellIndexed → (∀ l ∈ ls, l.trisBounded) →
    (ls.foldl (fun b l => (b.pushVertexList l.vertices).pushIndexList
      (l.tris.flatMap fun t => [b.vertexBuffer.length + t.i0,
        b.vertexBuffer.length + t.i1, b.vertexBuffer.length + t.i2]))
      b).wellIndexed := by
  induction ls with
  | nil => intro b hb _; exact hb
  | cons l t ih =>
    intro b hb h
    rw [List.foldl_cons]
    apply ih
    · apply DrawBuffer.wellIndexed_pushIndexList
      · exact DrawBuffer.wellIndexed_pushVertexList _ _ hb
      · intro i hi
        rcases List.mem_flatMap.mp hi with ⟨tr, htr, hitr⟩
        have hbb := h l (List.mem_cons_self _ _) tr htr
        simp only [pushVertexList_vertexBuffer, List.length_append]
        simp only [List.mem_cons, List.mem_singleton] at hitr
        rcases hitr with rfl | rfl | rfl | hfalse
        · omega
        · omega
        · omega
        · simp at hfalse
    · intro l2 hl2
      exact h l2 (List.mem_cons_of_mem _ hl2)

/-- DrawLines with vertex-average joints and nonnegative rounding keeps the
store well indexed (fewer than 3 points is rejected with the store
untouched). -/
theorem wellIndexed_drawLines (o : MathOracle) (cfg : LinaVGConfig)
    (points : List Vec2) (opts : StyleOptions) (cap : LineCapDirection)
    (st : DrawerState) (hs : st.store.wellIndexed) (hr : 0 ≤ opts.rounding) :
    (drawLines o cfg points opts cap .vtxAverage st).store.wellIndexed := by
  unfold drawLines
  dsimp only
  split
  · rw [reportError_store]
    exact hs
  · repeat' split
    all_goals dsimp only
    all_goals
      try
        first
          | apply wellIndexed_drawOutlineAroundShape
          | apply wellIndexed_drawOutlineAroundShapeNN
    all_goals apply BufferStoreData.wellIndexed_set _ _ _ hs
    all_goals apply wellIndexed_line_flush _ _ (hs _)
    all_goals
      intro l hl
      rcases List.mem_map.mp hl with ⟨l0, hl0, rfl⟩
      apply Line.trisBounded_mapVertices
      refine foldl_invariant (fun lls : List Line => ∀ l2 ∈ lls, l2.trisBounded)
        _ _ _ ?_ ?_ l0 hl0
      · intro l2 hl2
        rcases List.mem_map.mp hl2 with ⟨i, hi, rfl⟩
        apply trisBounded_calculateLine
        dsimp only
        exact hr
      · intro lls i hi hP l2 hl2
        rcases List.mem_or_eq_of_mem_set hl2 with h1 | rfl
        · rcases List.mem_or_eq_of_mem_set h1 with h2 | rfl
          · exact hP _ h2
          · exact (trisBounded_drawLinesJointStep _ _ _ _ _
              (Line.trisBounded_getD _ _ hP) (Line.trisBounded_getD _ _ hP)).1
        · exact (trisBounded_drawLinesJointStep _ _ _ _ _
            (Line.trisBounded_getD _ _ hP) (Line.trisBounded_getD _ _ hP)).2

/-- The rectangle override record does not affect well-indexedness. -/
theorem BufferStoreData.wellIndexed_rectOverride (s : BufferStoreData)
    (r : RectOverrideData) (hs : s.wellIndexed) :
    ({ s with rectOverride := r }).wellIndexed := by
  intro k
  rw [BufferStoreData.get_rectOverride]
  exact hs k

/-- DrawSimpleLine keeps the store well indexed: it routes through
DrawRect with the corner override set. -/
theorem wellIndexed_drawSimpleLine (o : MathOracle) (cfg : LinaVGConfig)
    (line : SimpleLine) (opts : StyleOptions) (rot : ℚ) (st : DrawerState)
    (hs : st.store.wellIndexed) :
    (drawSimpleLine o cfg line opts rot st).store.wellIndexed := by
  unfold drawSimpleLine
  dsimp only
  apply BufferStoreData.wellIndexed_rectOverride
  apply wellIndexed_drawRect
  dsimp only
  apply BufferStoreData.wellIndexed_rectOverride
  exact hs

/-- DrawLine keeps the store well indexed. -/
theorem wellIndexed_drawLine (o : MathOracle) (cfg : LinaVGConfig) (p1 p2 : Vec2)
    (style : StyleOptions) (cap : LineCapDirection) (rot : ℚ) (st : DrawerState)
    (hs : st.store.wellIndexed) :
    (drawLine o cfg p1 p2 style cap rot st).store.wellIndexed := by
  unfold drawLine
  dsimp only
  apply wellIndexed_drawSimpleLine
  exact hs

/-- C6 counterexample: the degenerate call DrawCircle(start 0, end -360)
wraps the end angle to 0, takes FillCircleData's equal-angle branch to the
pair (360, 0), runs an empty boundary loop (the center is the only vertex),
and still pushes the closing fan triangle 0, 1, 0 — index 1 references a
vertex that was never pushed, violating the invariant. -/
theorem C6_counterexample :
    (drawCircle testOracle {} ⟨0, 0⟩ 10 (solidStyle ⟨1, 0, 0, 1⟩) 36 0 0 (-360)
      {}).store.defaultBuf.vertexBuffer.length = 1 ∧
    (drawCircle testOracle {} ⟨0, 0⟩ 10 (solidStyle ⟨1, 0, 0, 1⟩) 36 0 0 (-360)
      {}).store.defaultBuf.indexBuffer = [0, 1, 0] ∧
    ¬(drawCircle testOracle {} ⟨0, 0⟩ 10 (solidStyle ⟨1, 0, 0, 1⟩) 36 0 0 (-360)
      {}).store.defaultBuf.wellIndexed := by
  have hq0 : qRange loopFuel 360 0 10 = [] := by
    have hstep : qRange loopFuel 360 0 10 =
        if (360 : ℚ) < 0 then (360 : ℚ) :: qRange 999 (360 + 10) 0 10 else [] := rfl
    rw [hstep, if_neg (by norm_num)]
  have h1 : (drawCircle testOracle {} ⟨0, 0⟩ 10 (solidStyle ⟨1, 0, 0, 1⟩) 36 0 0 (-360)
      {}).store.defaultBuf.vertexBuffer.length = 1 := by
    norm_num [drawCircle, fillCircle_SC, fillCircleData, solidStyle, plainKind,
      isEqualVec4, show max 6 (min (36 : ℤ) 180) = 36 by norm_num, hq0,
      BufferStoreData.get, BufferStoreData.set, circleOutlineEpilogue, isEqualMarg,
      testOracle, rotateVertices]
  have h2 : (drawCircle testOracle {} ⟨0, 0⟩ 10 (solidStyle ⟨1, 0, 0, 1⟩) 36 0 0 (-360)
      {}).store.defaultBuf.indexBuffer = [0, 1, 0] := by
    norm_num [drawCircle, fillCircle_SC, fillCircleData, solidStyle, plainKind,
      isEqualVec4, show max 6 (min (36 : ℤ) 180) = 36 by norm_num, hq0,
      BufferStoreData.get, BufferStoreData.set, circleOutlineEpilogue, isEqualMarg,
      testOracle, rotateVertices, DrawBuffer.convexFill, convexFillVertices]
  refine ⟨h1, h2, ?_⟩
  intro hwi
  have := hwi 1 (by rw [h2]; simp)
  rw [h1] at this
  omega

/-- C6 (amended): for every draw operation with non-degenerate parameters —
any rectangle, an n-gon with 1 to 180 corners, any convex polygon, a circle
with a nonnegative start angle at or below the end angle, a polyline with
vertex-average joints and nonnegative rounding, a single line, and uncached
text (normal and SDF) — every index pushed into a store buffer (fills,
stroke extrusions, polyline flushes, outline and AA extrusions, glyph quads
included) is a buffer-local offset below that buffer's vertex count: the
well-indexedness of the whole store is preserved. -/
theorem C6_indices_are_buffer_local (o : MathOracle) (cfg : LinaVGConfig)
    (st : DrawerState) (hwi : st.store.wellIndexed) :
    (∀ bbMin bbMax style rot,
      (drawRect o cfg bbMin bbMax style rot st).store.wellIndexed) ∧
    (∀ center radius n style rot, 1 ≤ n → n ≤ 180 →
      (drawNGon o cfg center radius n style rot st).store.wellIndexed) ∧
    (∀ points style rot,
      (drawConvex o cfg points style rot st).store.wellIndexed) ∧
    (∀ center radius style segments rot sa ea, 0 ≤ sa → sa ≤ ea →
      (drawCircle o cfg center radius style segments rot sa ea
        st).store.wellIndexed) ∧
    (∀ points opts cap, 0 ≤ opts.rounding →
      (drawLines o cfg points opts cap .vtxAverage st).store.wellIndexed) ∧
    (∀ p1 p2 style cap rot,
      (drawLine o cfg p1 p2 style cap rot st).store.wellIndexed) ∧
    (∀ text pos topts rot,
      (drawTextNormal o cfg text pos topts rot true st).store.wellIndexed) ∧
    (∀ text pos sopts rot,
      (drawTextSDF o cfg text pos sopts rot true st).store.wellIndexed) := by
  refine ⟨?_, ?_, ?_, ?_, ?_, ?_, ?_, ?_⟩
  · intro bbMin bbMax style rot
    exact wellIndexed_drawRect o cfg bbMin bbMax style rot st hwi
  · intro center radius n style rot h1 h2
    exact wellIndexed_drawNGon o cfg center radius n style rot st hwi h1 h2
  · intro points style rot
    exact wellIndexed_drawConvex o cfg points style rot st hwi
  · intro center radius style segments rot sa ea h0 hle
    exact wellIndexed_drawCircle o cfg center radius style segments rot sa ea st
      hwi h0 hle
  · intro points opts cap hr
    exact wellIndexed_drawLines o cfg points opts cap st hwi hr
  · intro p1 p2 style cap rot
    exact wellIndexed_drawLine o cfg p1 p2 style cap rot st hwi
  · intro text pos topts rot
    exact wellIndexed_drawTextNormal o cfg text pos topts rot st hwi
  · intro text pos sopts rot
    exact wellIndexed_drawTextSDF o cfg text pos sopts rot st hwi

/-- C6 witness: the invariant check at concrete calls on the empty store. -/
theorem C6_witness :
    (drawRect testOracle {} ⟨0, 0⟩ ⟨4, 2⟩ {} 0 {}).store.wellIndexed ∧
    (drawNGon testOracle {} ⟨0, 0⟩ 10 5 {} 0 {}).store.wellIndexed ∧
    (drawCircle testOracle {} ⟨0, 0⟩ 10 {} 36 0 0 360 {}).store.wellIndexed ∧
    (drawLines testOracle {} [⟨0, 0⟩, ⟨1, 0⟩, ⟨2, 1⟩] {} .none .vtxAverage
      {}).store.wellIndexed := by
  have hempty : ({} : DrawerState).store.wellIndexed := by
    intro k i hi
    cases k <;> simp [BufferStoreData.get] at hi
  have h := C6_indices_are_buffer_local testOracle {} {} hempty
  exact ⟨h.1 ⟨0, 0⟩ ⟨4, 2⟩ {} 0,
    h.2.1 ⟨0, 0⟩ 10 5 {} 0 (by norm_num) (by norm_num),
    h.2.2.2.1 ⟨0, 0⟩ 10 {} 36 0 0 360 (by norm_num) (by norm_num),
    h.2.2.2.2.1 [⟨0, 0⟩, ⟨1, 0⟩, ⟨2, 1⟩] {} .none (by norm_num)⟩

end LinaVG
